import Mathlib

/-!
# BPS gadget driver (drivers/usb/gadget/bps_gadget.c)

A shallow embedding of the USB gadget character-interface driver and proofs of
properties of its open / close / read / write paths.

Conventions of the embedding.

* The C flags `config_set`, `suspended`, `bound`, `opened` and `queued` only ever
  receive the values `FALSE` (0) and `TRUE` (-1); they are `Bool` here.
* The driver is modelled between a successful `bind_gadget` and `unbind_gadget`:
  every slot has its hardware endpoint and its request, except
  `ep_list[INTRIN1]`, for which `allocate_endpoint_requests` allocates none.
  The fields `ep_id` and `p_ep` of a slot never change after bind and are the
  functions `p_ep_of` and the index of `ep_list`.
* Spin locks are not modelled: every driver entry point runs atomically up to
  the places where it sleeps on the wait queue, and `bps_read` also up to its
  `copy_to_user`, which runs with the lock released and may sleep.  What happens
  while a caller sleeps is a list of `event`s (completions and gadget callbacks)
  given with the call; `bps_read` takes a second list for what happens while it
  copies to the user.
* The USB controller driver is not part of the driver: its answers
  (`usb_ep_queue`, `usb_ep_enable` return codes) come from the lists kept in
  `usb_core`, and every request it accepts is recorded in `usb_core.submitted`.
  It completes only requests it holds, which are those of slots flagged queued.
* A user buffer is the NULL pointer or an address with a known number of
  accessible bytes; `copy_to_user` and `copy_from_user` fail beyond them.
* The loops built with `goto` and `while` carry a bound on the number of rounds;
  `bps_read_wait_enough` shows that the bound passed by `bps_read` is never reached.
-/

namespace BpsGadget

/-! ## Constants -/

/-- Modelled from the spec: the errno numbers are those of the kernel's errno
headers (not part of the driver sources); the driver only names them. -/
def EINTR : Int := 4

/-- Modelled from the spec: errno of a failed transfer or submission. -/
def EIO : Int := 5

/-- Modelled from the spec: errno of a non-blocking call that would sleep. -/
def EAGAIN : Int := 11

/-- Modelled from the spec: errno of an inaccessible user buffer. -/
def EFAULT : Int := 14

/-- Modelled from the spec: errno of a channel that is already open. -/
def EBUSY : Int := 16

/-- Modelled from the spec: errno of an endpoint that cannot be enabled. -/
def ENODEV : Int := 19

/-- Modelled from the spec: errno of an invalid argument. -/
def EINVAL : Int := 22

/-- Modelled from the spec: errno of a device that is unconfigured or suspended. -/
def ECOMM : Int := 70

/-- Modelled from the spec: errno of an unsupported request. -/
def EOPNOTSUPP : Int := 95

/-- Modelled from the spec: status of a request cancelled by usb_ep_dequeue. -/
def ECONNRESET : Int := 104

/-- Modelled from the spec: status of a request ended by usb_ep_disable. -/
def ESHUTDOWN : Int := 108

/-- Modelled from the spec: the kernel defines EWOULDBLOCK as EAGAIN. -/
def EWOULDBLOCK : Int := EAGAIN

def BULK_OUT_URB_BUFFER_SIZE : Nat := 512

def DATA_CHANNEL_INTR_VALUE : Nat := 1

def CONFIG_CHANNEL_INTR_VALUE : Nat := 2

/-- Modelled from the spec: poll bits of the kernel's poll header. -/
def POLLIN : Nat := 1

/-- Modelled from the spec: poll bit for write readiness. -/
def POLLOUT : Nat := 4

/-- Modelled from the spec: poll bit for the error state. -/
def POLLERR : Nat := 8

/-! ## Data model -/

/-- The enum `ep_info`: the endpoints of the gadget. -/
inductive ep_info where
  | EP0
  | BULKOUT1
  | BULKIN1
  | BULKOUT2
  | BULKIN2
  | INTRIN1
deriving DecidableEq, Repr

/-- Minor number of a device node: DATA_CHANNEL (0) or CONFIG_CHANNEL (1). -/
inductive chan where
  | DATA_CHANNEL
  | CONFIG_CHANNEL
deriving DecidableEq, Repr

/-- The fields of `struct usb_request` the driver uses. -/
structure usb_request where
  buf : List Nat
  length : Nat
  actual : Nat
  status : Int
  zero : Bool
deriving DecidableEq, Repr

/-- The `struct bps_ep` (its `ep_id` and `p_ep` are fixed at bind, see `p_ep_of`). -/
structure bps_ep where
  queued : Bool
  p_req : usb_request
  urb_buffer_size : Nat
deriving DecidableEq, Repr

/-- The `struct bps_cdev` (its `p_inep` and `p_outep` are fixed by on_load, see
`p_inep` and `p_outep`). -/
structure bps_cdev where
  channel : chan
  opened : Bool
  rx_bytes : Nat
  intr_ep : bps_ep
deriving DecidableEq, Repr

/-- A pointer to one of the driver's `struct bps_ep`. -/
inductive bps_ep_ref where
  | list (i : ep_info)
  | data_err
  | intr (c : chan)
deriving DecidableEq, Repr

/-- One request accepted by `usb_ep_queue`: the hardware endpoint, the slot whose
request it is, and the request as submitted. -/
structure usb_xfer where
  ep : ep_info
  slot : bps_ep_ref
  req : usb_request
deriving DecidableEq, Repr

/-- One call of `usb_ep_enable`: endpoint, whether the high-speed descriptor was
passed, and the return code. -/
structure enable_call where
  ep : ep_info
  high_speed : Bool
  rc : Int
deriving DecidableEq, Repr

/-- The USB core and controller driver as the gadget driver sees them. -/
structure usb_core where
  speed_high : Bool
  is_dualspeed : Bool
  maxpacket : ep_info → Nat
  queue_rc : List Int
  enable_rc : List (Int × Nat)
  dequeue_gives_back : Bool
  submitted : List usb_xfer
  enable_log : List enable_call

/-- The driver's global `bps` together with the USB core. -/
structure bps_state where
  config_set : Bool
  suspended : Bool
  bound : Bool
  cdevs : chan → bps_cdev
  data_err_ep : bps_ep
  ep_list : ep_info → bps_ep
  udc : usb_core

/-- What on_load stores in `cdevs[c].p_inep`. -/
def p_inep : chan → ep_info
  | .DATA_CHANNEL => .BULKIN1
  | .CONFIG_CHANNEL => .BULKIN2

/-- What on_load stores in `cdevs[c].p_outep`. -/
def p_outep : chan → ep_info
  | .DATA_CHANNEL => .BULKOUT1
  | .CONFIG_CHANNEL => .BULKOUT2

/-- The hardware endpoint `p_ep` of a slot, as set by allocate_endpoints and
allocate_extra_usb_requests. -/
def p_ep_of : bps_ep_ref → ep_info
  | .list i => i
  | .data_err => .BULKIN2
  | .intr _ => .INTRIN1

/-- Whether the slot has a request (`p_req` is not NULL). -/
def has_req : bps_ep_ref → Bool
  | .list .INTRIN1 => false
  | _ => true

def get_ep (s : bps_state) : bps_ep_ref → bps_ep
  | .list i => s.ep_list i
  | .data_err => s.data_err_ep
  | .intr c => (s.cdevs c).intr_ep

def set_ep (s : bps_state) (r : bps_ep_ref) (e : bps_ep) : bps_state :=
  match r with
  | .list i => { s with ep_list := Function.update s.ep_list i e }
  | .data_err => { s with data_err_ep := e }
  | .intr c => { s with cdevs := Function.update s.cdevs c { s.cdevs c with intr_ep := e } }

def set_queued (s : bps_state) (r : bps_ep_ref) (q : Bool) : bps_state :=
  set_ep s r { get_ep s r with queued := q }

def set_req (s : bps_state) (r : bps_ep_ref) (q : usb_request) : bps_state :=
  set_ep s r { get_ep s r with p_req := q }

def set_urb_buffer_size (s : bps_state) (r : bps_ep_ref) (n : Nat) : bps_state :=
  set_ep s r { get_ep s r with urb_buffer_size := n }

def set_cdev (s : bps_state) (c : chan) (d : bps_cdev) : bps_state :=
  { s with cdevs := Function.update s.cdevs c d }

def set_rx_bytes (s : bps_state) (c : chan) (n : Nat) : bps_state :=
  set_cdev s c { s.cdevs c with rx_bytes := n }

def set_opened (s : bps_state) (c : chan) (b : Bool) : bps_state :=
  set_cdev s c { s.cdevs c with opened := b }

/-- The request of the channel's OUT slot (`p_dev->p_outep->p_req`). -/
def out_req (s : bps_state) (c : chan) : usb_request :=
  (s.ep_list (p_outep c)).p_req

/-! ## The USB core -/

/-- The return code the next `usb_ep_queue` call will get (0 when the list of
answers is used up). -/
def next_queue_rc (s : bps_state) : Int :=
  s.udc.queue_rc.headD 0

/-- The call `usb_ep_queue(p_bpsep->p_ep, p_bpsep->p_req, GFP_ATOMIC)`: the controller
answers with the next return code; an accepted request is recorded. -/
def usb_ep_queue (s : bps_state) (r : bps_ep_ref) : Int × bps_state :=
  let rc := next_queue_rc s
  if rc = 0 then
    (0, { s with udc := { s.udc with
            queue_rc := s.udc.queue_rc.tail
            submitted := s.udc.submitted ++ [⟨p_ep_of r, r, (get_ep s r).p_req⟩] } })
  else
    (rc, { s with udc := { s.udc with queue_rc := s.udc.queue_rc.tail } })

/-! ## Completion handlers -/

def ep0_complete (s : bps_state) : bps_state :=
  set_queued s (.list .EP0) false

def data_err_urb_complete (s : bps_state) : bps_state :=
  set_queued s .data_err false

def intr_urb_complete (s : bps_state) (c : chan) : bps_state :=
  set_queued s (.intr c) false

/-- The handler `bulk_urb_complete` for the request of `ep_list[i]`. -/
def bulk_urb_complete (s : bps_state) (i : ep_info) : bps_state :=
  let p_dev : chan :=
    if i = .BULKOUT1 ∨ i = .BULKIN1 then .DATA_CHANNEL else .CONFIG_CHANNEL
  if (s.ep_list i).p_req.status ≠ 0 ∧
      ((s.cdevs p_dev).opened = true ∧ s.config_set = true ∧ s.suspended = false ∧
        (i = .BULKOUT1 ∨ i = .BULKOUT2)) then
    match usb_ep_queue s (.list i) with
    | (rc, s1) => if rc = 0 then s1 else set_queued s1 (.list i) false
  else
    set_queued s (.list i) false

/-- The controller gives a request back: it stores status and actual in the request
and calls the request's `complete` handler. -/
def give_back (s : bps_state) (r : bps_ep_ref) (status : Int) (actual : Nat) : bps_state :=
  let s1 := set_req s r { (get_ep s r).p_req with status := status, actual := actual }
  match r with
  | .list .EP0 => ep0_complete s1
  | .list .INTRIN1 => s
  | .list i => bulk_urb_complete s1 i
  | .data_err => data_err_urb_complete s1
  | .intr c => intr_urb_complete s1 c

/-- The call `usb_ep_dequeue`: a request the controller holds is given back with
status -ECONNRESET before the call returns, when the controller does so at once. -/
def usb_ep_dequeue (s : bps_state) (r : bps_ep_ref) : bps_state :=
  if s.udc.dequeue_gives_back ∧ (get_ep s r).queued then
    give_back s r (- ECONNRESET) (get_ep s r).p_req.actual
  else s

/-- The function `dequeue_request`. -/
def dequeue_request (s : bps_state) (r : bps_ep_ref) : bps_state :=
  if has_req r then
    if (get_ep s r).queued then usb_ep_dequeue s r else s
  else s

/-- The call `usb_ep_disable`: every request still held on the hardware endpoint is
given back with status -ESHUTDOWN before the call returns. -/
def usb_ep_disable (s : bps_state) (i : ep_info) : bps_state :=
  let nuke := fun (t : bps_state) (r : bps_ep_ref) =>
    if p_ep_of r = i ∧ has_req r = true ∧ (get_ep t r).queued = true then
      give_back t r (- ESHUTDOWN) (get_ep t r).p_req.actual
    else t
  [bps_ep_ref.list i, .data_err, .intr .DATA_CHANNEL, .intr .CONFIG_CHANNEL].foldl nuke s

/-- The call `usb_ep_enable(ep_list[i].p_ep, desc)`: the controller answers with the
next return code and, on success, the max packet it programmed. -/
def usb_ep_enable (s : bps_state) (i : ep_info) (high_speed : Bool) : Int × bps_state :=
  match s.udc.enable_rc with
  | [] =>
    (0, { s with udc := { s.udc with enable_log := s.udc.enable_log ++ [⟨i, high_speed, 0⟩] } })
  | (rc, mp) :: rest =>
    (rc, { s with udc := { s.udc with
            enable_rc := rest
            maxpacket := if rc = 0 then Function.update s.udc.maxpacket i mp
                         else s.udc.maxpacket
            enable_log := s.udc.enable_log ++ [⟨i, high_speed, rc⟩] } })

/-- The endpoints `FIRST_BPS_EP .. MAX_BPS_EP - 1` in loop order. -/
def bps_eps : List ep_info :=
  [.BULKOUT1, .BULKIN1, .BULKOUT2, .BULKIN2, .INTRIN1]

/-- The function `disable_bps_eps`. -/
def disable_bps_eps (s : bps_state) : bps_state :=
  let s1 := dequeue_request s .data_err
  let s2 := dequeue_request (dequeue_request s1 (.intr .DATA_CHANNEL)) (.intr .CONFIG_CHANNEL)
  bps_eps.foldl (fun t i => usb_ep_disable (dequeue_request t (.list i)) i) s2

/-- The function `reset_config`. -/
def reset_config (s : bps_state) : bps_state :=
  disable_bps_eps { s with config_set := false }

/-- The function `select_ep_descriptor`: true for the high-speed descriptor. -/
def select_ep_descriptor (s : bps_state) : Bool :=
  s.udc.speed_high

/-- One round of the first loop of `save_urb_lengths`. -/
def save_urb_length (s : bps_state) (i : ep_info) : bps_state :=
  if i ≠ .INTRIN1 then
    let s1 :=
      if i = .BULKOUT1 ∨ i = .BULKOUT2 then
        set_req s (.list i) { (s.ep_list i).p_req with
          length := min BULK_OUT_URB_BUFFER_SIZE (s.udc.maxpacket i) }
      else s
    set_urb_buffer_size s1 (.list i) (s1.ep_list i).p_req.length
  else s

/-- The function `save_urb_lengths`. -/
def save_urb_lengths (s : bps_state) : bps_state :=
  let s1 := bps_eps.foldl save_urb_length s
  let s2 := set_urb_buffer_size s1 .data_err s1.data_err_ep.p_req.length
  [chan.DATA_CHANNEL, chan.CONFIG_CHANNEL].foldl
    (fun t c => set_urb_buffer_size t (.intr c) (t.cdevs c).intr_ep.p_req.length) s2

/-- The enable loop of `set_config`: stops at the first endpoint that cannot be enabled. -/
def enable_eps (s : bps_state) : List ep_info → Int × bps_state
  | [] => (0, s)
  | i :: rest =>
    match usb_ep_enable s i (select_ep_descriptor s) with
    | (rc, s1) => if rc ≠ 0 then (- ENODEV, s1) else enable_eps s1 rest

/-- The function `set_config`. -/
def set_config (s : bps_state) : Int × bps_state :=
  match enable_eps (reset_config s) bps_eps with
  | (retval, s1) =>
    if retval = 0 then (0, { save_urb_lengths s1 with config_set := true })
    else (retval, s1)

/-- The fields of a setup packet, with the answers of the two USB core helpers the
driver calls for it (`usb_gadget_config_buf` and `usb_gadget_get_string`). -/
structure usb_ctrlrequest where
  bRequestType : Nat
  bRequest : Nat
  wValue : Nat
  wLength : Nat
  config_buf_len : Int
  string_len : Int
deriving DecidableEq, Repr

/-- Modelled from the spec: size of the device descriptor (USB_DT_DEVICE_SIZE, from
the USB headers). -/
def USB_DT_DEVICE_SIZE : Nat := 18

/-- Modelled from the spec: request and descriptor codes of the USB headers (ch9.h),
which the driver only names. -/
def USB_TYPE_MASK : Nat := 0x60

/-- Modelled from the spec: request type of a standard request. -/
def USB_TYPE_STANDARD : Nat := 0

/-- Modelled from the spec: standard request Get-Descriptor. -/
def USB_REQ_GET_DESCRIPTOR : Nat := 6

/-- Modelled from the spec: standard request Set-Configuration. -/
def USB_REQ_SET_CONFIGURATION : Nat := 9

/-- Modelled from the spec: standard request Set-Interface. -/
def USB_REQ_SET_INTERFACE : Nat := 11

/-- Modelled from the spec: descriptor type of the device descriptor. -/
def USB_DT_DEVICE : Nat := 1

/-- Modelled from the spec: descriptor type of the configuration descriptor. -/
def USB_DT_CONFIG : Nat := 2

/-- Modelled from the spec: descriptor type of a string descriptor. -/
def USB_DT_STRING : Nat := 3

/-- Modelled from the spec: descriptor type of the device qualifier. -/
def USB_DT_DEVICE_QUALIFIER : Nat := 6

/-- Modelled from the spec: size of `struct usb_qualifier_descriptor` (from the USB
headers). -/
def sizeof_bps_dev_qualifier : Nat := 10

/-- The function `populate_config_buf` (the length it returns). -/
def populate_config_buf (ctrl : usb_ctrlrequest) (index : Nat) : Int :=
  if index > 0 then - EINVAL else ctrl.config_buf_len

/-- The cast `(u16)retval`. -/
def to_u16 (v : Int) : Nat := (v % 65536).toNat

/-- The switch of `setup_gadget`: the value of `retval` before the response is queued. -/
def setup_retval (s : bps_state) (ctrl : usb_ctrlrequest) : Int × bps_state :=
  let wValue := ctrl.wValue % 65536
  let wLength := ctrl.wLength % 65536
  if ctrl.bRequestType &&& USB_TYPE_MASK = USB_TYPE_STANDARD then
    if ctrl.bRequest = USB_REQ_GET_DESCRIPTOR then
      if wValue >>> 8 = USB_DT_DEVICE then ((min wLength USB_DT_DEVICE_SIZE : Nat), s)
      else if wValue >>> 8 = USB_DT_CONFIG then
        let r := populate_config_buf ctrl (wValue &&& 0xff)
        (if r ≥ 0 then ((min wLength (to_u16 r) : Nat) : Int) else r, s)
      else if wValue >>> 8 = USB_DT_STRING then
        let r := ctrl.string_len
        (if r ≥ 0 then ((min wLength (to_u16 r) : Nat) : Int) else r, s)
      else if wValue >>> 8 = USB_DT_DEVICE_QUALIFIER then
        if s.udc.is_dualspeed then ((sizeof_bps_dev_qualifier : Nat), s)
        else (- EOPNOTSUPP, s)
      else (- EOPNOTSUPP, s)
    else if ctrl.bRequest = USB_REQ_SET_CONFIGURATION then set_config s
    else if ctrl.bRequest = USB_REQ_SET_INTERFACE then (0, s)
    else (- EOPNOTSUPP, s)
  else (- EOPNOTSUPP, s)

/-- The function `setup_gadget`. -/
def setup_gadget (s : bps_state) (ctrl : usb_ctrlrequest) : Int × bps_state :=
  match setup_retval s ctrl with
  | (retval, s1) =>
    if retval ≥ 0 then
      let s2 := set_req s1 (.list .EP0) { (s1.ep_list .EP0).p_req with
        length := retval.toNat
        zero := decide (retval < ((ctrl.wLength % 65536 : Nat) : Int)) }
      match usb_ep_queue s2 (.list .EP0) with
      | (rc, s3) => if rc = 0 then (rc, set_queued s3 (.list .EP0) true) else (rc, s3)
    else (retval, s1)

/-- The function `disconnect_gadget`. -/
def disconnect_gadget (s : bps_state) : bps_state :=
  reset_config s

/-- The function `queue_out_request` (its `claim_lock` argument only selects whether
the channel lock is taken). -/
def queue_out_request (s : bps_state) (c : chan) : Int × bps_state :=
  if s.config_set = false ∨ s.suspended = true ∨ (s.cdevs c).opened = false then
    (- EINVAL, s)
  else if (s.ep_list (p_outep c)).queued = false then
    let s1 := set_rx_bytes s c 0
    let s2 := set_req s1 (.list (p_outep c)) { (s1.ep_list (p_outep c)).p_req with actual := 0 }
    match usb_ep_queue s2 (.list (p_outep c)) with
    | (rc, s3) =>
      if rc ≠ 0 then (- EIO, s3) else (0, set_queued s3 (.list (p_outep c)) true)
  else (0, s)

/-- The function `suspend_gadget`. -/
def suspend_gadget (s : bps_state) : bps_state :=
  let s0 := { s with suspended := true }
  let s1 := dequeue_request s0 .data_err
  let s2 := dequeue_request (dequeue_request s1 (.intr .DATA_CHANNEL)) (.intr .CONFIG_CHANNEL)
  bps_eps.foldl (fun t i => dequeue_request t (.list i)) s2

/-- The function `resume_gadget`. -/
def resume_gadget (s : bps_state) : bps_state :=
  let s0 := { s with suspended := false }
  [chan.DATA_CHANNEL, chan.CONFIG_CHANNEL].foldl (fun t c => (queue_out_request t c).2) s0

/-! ## What happens while a caller sleeps -/

/-- What can run while a caller sleeps on the wait queue: a completion reported by
the controller for a queued request (with the bytes received, for an OUT request),
a gadget callback, or a signal for the sleeping process. -/
inductive event where
  | complete (r : bps_ep_ref) (status : Int) (actual : Nat) (data : List Nat)
  | setup (ctrl : usb_ctrlrequest)
  | disconnect
  | suspend
  | resume
  | signal
deriving DecidableEq, Repr

/-- The controller completes the queued request of slot `r`; for an OUT request the
bytes received are in the request buffer by then. -/
def complete_request (s : bps_state) (r : bps_ep_ref) (status : Int) (actual : Nat)
    (data : List Nat) : bps_state :=
  if has_req r = true ∧ (get_ep s r).queued = true then
    let s1 :=
      if r = .list .BULKOUT1 ∨ r = .list .BULKOUT2 then
        set_req s r { (get_ep s r).p_req with
          buf := data ++ (get_ep s r).p_req.buf.drop data.length }
      else s
    give_back s1 r status actual
  else s

def deliver (s : bps_state) : event → bps_state
  | .complete r status actual data => complete_request s r status actual data
  | .setup ctrl => (setup_gadget s ctrl).2
  | .disconnect => disconnect_gadget s
  | .suspend => suspend_gadget s
  | .resume => resume_gadget s
  | .signal => s

/-- The macro `wait_event(wq, cond)`: events are delivered until the condition holds.
The result says whether the caller woke up, the state then, and the events left. -/
def wait_event (cond : bps_state → Bool) (s : bps_state) :
    List event → Bool × bps_state × List event
  | [] => (cond s, s, [])
  | e :: rest =>
    if cond s then (true, s, e :: rest) else wait_event cond (deliver s e) rest

/-- Result of `wait_event_interruptible`. -/
inductive wait_result where
  | woken
  | interrupted
  | asleep
deriving DecidableEq, Repr

/-- The macro `wait_event_interruptible(wq, cond)`: as `wait_event`, but a signal
arriving while the condition is false ends the wait with a non-zero result. -/
def wait_event_interruptible (cond : bps_state → Bool) (s : bps_state) :
    List event → wait_result × bps_state × List event
  | [] => (if cond s then .woken else .asleep, s, [])
  | e :: rest =>
    if cond s then (.woken, s, e :: rest)
    else if e = .signal then (.interrupted, s, rest)
    else wait_event_interruptible cond (deliver s e) rest

/-! ## The character device -/

/-- A user-space buffer argument: the NULL pointer, or an address at which exactly
the listed bytes are accessible (any access beyond them faults). -/
inductive user_ptr where
  | NULL
  | addr (mem : List Nat)
deriving DecidableEq, Repr

/-- Bytes accessible at a user pointer. -/
def user_ptr.size : user_ptr → Nat
  | .NULL => 0
  | .addr mem => mem.length

/-- The call `copy_to_user(p_user, src, n)`: true when some byte could not be copied. -/
def copy_to_user (p_user : user_ptr) (n : Nat) : Bool :=
  decide (0 < n ∧ p_user.size < n)

/-- The call `copy_from_user(dst, p_user, n)`: the bytes read, or none on a fault. -/
def copy_from_user (p_user : user_ptr) (n : Nat) : Option (List Nat) :=
  match p_user with
  | .NULL => if n = 0 then some [] else none
  | .addr mem => if n = 0 then some [] else if n ≤ mem.length then some (mem.take n) else none

/-- Pointer arithmetic `p_user += n`. -/
def user_ptr.add : user_ptr → Nat → user_ptr
  | .NULL, _ => .NULL
  | .addr mem, n => .addr (mem.drop n)

/-- How a call into the driver ends. -/
inductive outcome where
  | returned (retval : Int)
  | asleep
  | BUG
deriving DecidableEq, Repr

/-- The function `bps_open` for the device node with minor number `channel`. -/
def bps_open (s : bps_state) (channel : chan) : Int × bps_state :=
  if s.config_set = true then
    if (s.cdevs channel).opened then (- EBUSY, s)
    else
      let s1 := set_cdev s channel { s.cdevs channel with channel := channel, rx_bytes := 0 }
      let s2 := set_req s1 (.list (p_outep channel))
        { (s1.ep_list (p_outep channel)).p_req with actual := 0 }
      let s3 := set_opened s2 channel true
      (0, (queue_out_request s3 channel).2)
  else (- EIO, s)

/-- The function `bps_release` on a file of channel `c` (`p_dev = &cdevs[c]`). -/
def bps_release (s : bps_state) (c : chan) : Int × bps_state :=
  let s1 := set_opened s c false
  let s2 := dequeue_request s1 (.intr c)
  let s3 := dequeue_request s2 (.list (p_inep c))
  let s4 := dequeue_request s3 (.list (p_outep c))
  let s5 := if (s4.cdevs c).channel = .DATA_CHANNEL then dequeue_request s4 .data_err else s4
  (0, s5)

/-- The labels of `bps_read`. -/
inductive read_label where
  | restart_read
  | check_queued_request
deriving DecidableEq, Repr

/-- The part of `bps_read` between `restart_read` and the test `if (!retval)`: the
result `returned 0` means that `retval` is still 0 there.  Each jump to a label
uses one unit of the first argument. -/
def bps_read_wait : Nat → read_label → bps_state → chan → Bool → List event →
    outcome × bps_state
  | 0, _, s, _, _, _ => (.asleep, s)
  | fuel + 1, .restart_read, s, c, nonblock, evs =>
    if s.config_set = false ∨ s.suspended = true then (.returned (- ECOMM), s)
    else bps_read_wait fuel .check_queued_request s c nonblock evs
  | fuel + 1, .check_queued_request, s, c, nonblock, evs =>
    if (s.ep_list (p_outep c)).queued = true then
      if nonblock then (.returned (- EAGAIN), s)
      else
        match wait_event_interruptible (fun t => !(t.ep_list (p_outep c)).queued) s evs with
        | (.asleep, s1, _) => (.asleep, s1)
        | (.interrupted, s1, _) => (.returned (- EINTR), s1)
        | (.woken, s1, rest) =>
          if (out_req s1 c).status ≠ 0 then bps_read_wait fuel .restart_read s1 c nonblock rest
          else (.returned 0, s1)
    else if (s.cdevs c).rx_bytes > (out_req s c).actual then (.BUG, s)
    else if (out_req s c).status ≠ 0 ∨
        ((s.cdevs c).rx_bytes = (out_req s c).actual ∧ (out_req s c).actual ≠ 0) then
      match queue_out_request s c with
      | (rc, s1) =>
        if rc ≠ 0 then (.returned (- EIO), s1)
        else bps_read_wait fuel .check_queued_request s1 c nonblock evs
    else (.returned 0, s)

/-- Result of `bps_read`: how the call ended, the bytes copied to the user buffer,
and the driver state. -/
structure read_result where
  out : outcome
  data : List Nat
  st : bps_state

/-- The block of `bps_read` under `if (!retval)`: copy to the user, advance the cursor,
queue the next request when the transfer is used up.  The block runs with the lock
released and `copy_to_user` may sleep: `cevs` are the events the USB core delivers
meanwhile, after `bytes_to_copy` was computed from the cursor and the request and
before `rx_bytes += bytes_to_copy` reads the cursor again (with `[]` nothing runs in
between).  The bytes copied are those the buffer holds when the copy starts.  The VFS
passes a `len` below 2^31, so the casts between `size_t`, `uint32_t` and `ssize_t` keep
the values, and an event only ever resets the cursor, so the sum does not wrap; on a
fault no byte counts as delivered. -/
def bps_read_copy (s : bps_state) (c : chan) (p_user : user_ptr) (len : Nat)
    (cevs : List event) : read_result :=
  let rx := (s.cdevs c).rx_bytes
  if rx > (out_req s c).actual then ⟨.BUG, [], s⟩
  else
    let bytes_to_copy := min len ((out_req s c).actual - rx)
    let fault := copy_to_user p_user bytes_to_copy
    let retval : Int := if fault then - EFAULT else bytes_to_copy
    let data := if fault then [] else ((out_req s c).buf.drop rx).take bytes_to_copy
    let s0 := cevs.foldl deliver s
    let s1 := set_rx_bytes s0 c ((s0.cdevs c).rx_bytes + bytes_to_copy)
    let s2 :=
      if (s1.cdevs c).rx_bytes = (out_req s1 c).actual then (queue_out_request s1 c).2 else s1
    ⟨.returned retval, data, s2⟩

/-- The function `bps_read` on a file of channel `c`; `nonblock` is
`f_flags & O_NONBLOCK`, `evs` are the events delivered while the call sleeps in
`wait_event_interruptible` and `cevs` those delivered while it copies to the user. -/
def bps_read (s : bps_state) (c : chan) (nonblock : Bool) (p_user : user_ptr) (len : Nat)
    (evs cevs : List event) : read_result :=
  if p_user = .NULL ∨ len = 0 then ⟨.returned (- EINVAL), [], s⟩
  else
    match bps_read_wait (3 * evs.length + 3) .restart_read s c nonblock evs with
    | (.returned 0, s1) => bps_read_copy s1 c p_user len cevs
    | (o, s1) => ⟨o, [], s1⟩

/-- The function `is_write_channel_busy` (true for a non-zero result). -/
def is_write_channel_busy (s : bps_state) (c : chan) : Bool :=
  if (s.cdevs c).channel = .DATA_CHANNEL then
    (s.ep_list (p_inep c)).queued || s.data_err_ep.queued
  else (s.ep_list (p_inep c)).queued

/-- The subtraction `len -= actual` on `size_t` (32 bits on this platform). -/
def size_t_sub (a b : Nat) : Nat :=
  (a + 2 ^ 32 - b % 2 ^ 32) % 2 ^ 32

/-- The addition `retval += actual` on `ssize_t` (32 bits, two's complement). -/
def ssize_t_add (a : Int) (b : Nat) : Int :=
  (a + b + 2 ^ 31) % 2 ^ 32 - 2 ^ 31

/-- The loop `while (len)` of `bps_write_impl`; each round uses one unit of the first
argument. -/
def bps_write_loop : Nat → bps_state → chan → user_ptr → Nat → Int → bps_ep_ref →
    List event → outcome × bps_state
  | 0, s, _, _, _, _, _, _ => (.asleep, s)
  | fuel + 1, s, c, p_user, len, retval, r, evs =>
    if len = 0 then (.returned retval, s)
    else
      let bytes_to_tx := min (get_ep s r).urb_buffer_size len
      match copy_from_user p_user bytes_to_tx with
      | none => (.returned (- EFAULT), s)
      | some bytes =>
        let s1 := set_req s r { (get_ep s r).p_req with
          buf := bytes ++ (get_ep s r).p_req.buf.drop bytes.length }
        if s1.config_set = false ∨ s1.suspended = true then (.returned (- ECOMM), s1)
        else
          let s2 := set_req s1 r { (get_ep s1 r).p_req with length := bytes_to_tx }
          match usb_ep_queue s2 r with
          | (rc, s3) =>
            if rc ≠ 0 then (.returned (- EIO), s3)
            else
              match wait_event (fun t => !is_write_channel_busy t c)
                  (set_queued s3 r true) evs with
              | (false, s4, _) => (.asleep, s4)
              | (true, s4, rest) =>
                if (get_ep s4 r).p_req.status = 0 then
                  bps_write_loop fuel s4 c (p_user.add (get_ep s4 r).p_req.actual)
                    (size_t_sub len (get_ep s4 r).p_req.actual)
                    (ssize_t_add retval (get_ep s4 r).p_req.actual) r rest
                else (.returned (- EIO), s4)

/-- The function `bps_write_impl` on a file of channel `c`, writing through slot `r`. -/
def bps_write_impl (s : bps_state) (c : chan) (nonblock : Bool) (p_user : user_ptr)
    (len : Nat) (r : bps_ep_ref) (evs : List event) : outcome × bps_state :=
  if p_user = .NULL ∨ len = 0 then (.returned (- EINVAL), s)
  else if nonblock then (.returned (- EWOULDBLOCK), s)
  else bps_write_loop (evs.length + 1) s c p_user len 0 r evs

/-- The function `bps_write`. -/
def bps_write (s : bps_state) (c : chan) (nonblock : Bool) (p_user : user_ptr) (len : Nat)
    (evs : List event) : outcome × bps_state :=
  bps_write_impl s c nonblock p_user len (.list (p_inep c)) evs

/-- The function `send_zlp`. -/
def send_zlp (s : bps_state) (c : chan) (nonblock : Bool) (evs : List event) :
    outcome × bps_state :=
  let r := bps_ep_ref.list (p_inep c)
  if nonblock then (.returned (- EWOULDBLOCK), s)
  else if s.config_set = false ∨ s.suspended = true then (.returned (- ECOMM), s)
  else
    let s1 := set_req s r { (get_ep s r).p_req with length := 0, zero := true }
    match usb_ep_queue s1 r with
    | (rc, s2) =>
      if rc ≠ 0 then
        (.returned (- EIO), set_req s2 r { (get_ep s2 r).p_req with zero := false })
      else
        match wait_event (fun t => !is_write_channel_busy t c) (set_queued s2 r true) evs with
        | (false, s3, _) => (.asleep, s3)
        | (true, s3, _) =>
          let retval : Int := if (get_ep s3 r).p_req.status ≠ 0 then - EIO else 0
          (.returned retval, set_req s3 r { (get_ep s3 r).p_req with zero := false })

/-- The function `send_intr_notification`. -/
def send_intr_notification (s : bps_state) (c : chan) (nonblock : Bool) (value : Nat)
    (evs : List event) : outcome × bps_state :=
  let r := bps_ep_ref.intr c
  if DATA_CHANNEL_INTR_VALUE ≠ value ∧ CONFIG_CHANNEL_INTR_VALUE ≠ value then
    (.returned (- EINVAL), s)
  else if nonblock then (.returned (- EWOULDBLOCK), s)
  else
    let s1 := set_req s r { (get_ep s r).p_req with
      buf := (value % 256) :: (get_ep s r).p_req.buf.drop 1 }
    if s1.config_set = false ∨ s1.suspended = true then (.returned (- ECOMM), s1)
    else
      match usb_ep_queue s1 r with
      | (rc, s2) =>
        if rc ≠ 0 then (.returned (- EIO), s2)
        else
          match wait_event (fun t => !(get_ep t r).queued) (set_queued s2 r true) evs with
          | (false, s3, _) => (.asleep, s3)
          | (true, s3, _) =>
            (.returned (if (get_ep s3 r).p_req.status ≠ 0 then - EIO else 0), s3)

/-- The argument of an ioctl: the `unsigned long` itself and, for
IOCTL_BPS_SEND_DATA_ERROR, the `struct bps_data_error` it points to (none when the
pointer cannot be read). -/
structure ioctl_arg where
  value : Nat
  data_error : Option (user_ptr × Nat)
deriving DecidableEq, Repr

/-- The function `send_data_error`. -/
def send_data_error (s : bps_state) (c : chan) (nonblock : Bool) (ioarg : ioctl_arg)
    (evs : List event) : outcome × bps_state :=
  if (s.cdevs c).channel = .CONFIG_CHANNEL then (.returned (- EOPNOTSUPP), s)
  else
    match ioarg.data_error with
    | none => (.returned (- EFAULT), s)
    | some (p_buffer, len) => bps_write_impl s c nonblock p_buffer len .data_err evs

/-- The function `bps_poll`. -/
def bps_poll (s : bps_state) (c : chan) : Nat :=
  if s.config_set = false ∨ s.suspended = true then POLLERR
  else
    (if (s.ep_list (p_outep c)).queued = false ∧ (out_req s c).status = 0 then POLLIN else 0) |||
    (if is_write_channel_busy s c = false then POLLOUT else 0)

/-- The ioctl commands of bps_gadget.h, by their number `nr`; any other command
value is `other`. -/
inductive ioctl_cmd where
  | IOCTL_BPS_GET_PACKET_SIZE
  | IOCTL_BPS_GET_SKU_MODEL
  | IOCTL_BPS_GET_PROTOCOL_VERSION
  | IOCTL_BPS_SEND_DATA_ERROR
  | IOCTL_BPS_SEND_ZLP
  | IOCTL_BPS_SEND_INTR_NOTIFICATION
  | IOCTL_BPS_IS_SUSPENDED
  | other
deriving DecidableEq, Repr

def BPS_INTERFACE_PROTOCOL : Nat := 0

/-- The function `bps_ioctl`; `sku` is the module parameter. -/
def bps_ioctl (sku : Nat) (s : bps_state) (c : chan) (nonblock : Bool) (iocmd : ioctl_cmd)
    (ioarg : ioctl_arg) (evs : List event) : outcome × bps_state :=
  match iocmd with
  | .IOCTL_BPS_GET_PACKET_SIZE => (.returned (s.udc.maxpacket (p_inep c)), s)
  | .IOCTL_BPS_GET_SKU_MODEL => (.returned sku, s)
  | .IOCTL_BPS_GET_PROTOCOL_VERSION => (.returned BPS_INTERFACE_PROTOCOL, s)
  | .IOCTL_BPS_SEND_DATA_ERROR => send_data_error s c nonblock ioarg evs
  | .IOCTL_BPS_SEND_ZLP => send_zlp s c nonblock evs
  | .IOCTL_BPS_SEND_INTR_NOTIFICATION => send_intr_notification s c nonblock ioarg.value evs
  | .IOCTL_BPS_IS_SUSPENDED => (.returned (if s.suspended = true then 1 else 0), s)
  | .other => (.returned (- EOPNOTSUPP), s)

/-! ## Sequences of driver operations -/

/-- One entry into the driver: a file operation on a channel's device node, or
something that runs from the USB core (`irq`). -/
inductive op where
  | bps_open (c : chan)
  | bps_release (c : chan)
  | bps_read (c : chan) (nonblock : Bool) (p_user : user_ptr) (len : Nat)
      (evs cevs : List event)
  | bps_write (c : chan) (nonblock : Bool) (p_user : user_ptr) (len : Nat) (evs : List event)
  | bps_poll (c : chan)
  | bps_ioctl (sku : Nat) (c : chan) (nonblock : Bool) (iocmd : ioctl_cmd) (ioarg : ioctl_arg)
      (evs : List event)
  | irq (e : event)

/-- The driver state after one operation. -/
def step (s : bps_state) : op → bps_state
  | .bps_open c => (BpsGadget.bps_open s c).2
  | .bps_release c => (BpsGadget.bps_release s c).2
  | .bps_read c nonblock p_user len evs cevs =>
    (BpsGadget.bps_read s c nonblock p_user len evs cevs).st
  | .bps_write c nonblock p_user len evs => (BpsGadget.bps_write s c nonblock p_user len evs).2
  | .bps_poll _ => s
  | .bps_ioctl sku c nonblock iocmd ioarg evs =>
    (BpsGadget.bps_ioctl sku s c nonblock iocmd ioarg evs).2
  | .irq e => deliver s e

/-- The driver state after a sequence of operations. -/
def run (s : bps_state) (ops : List op) : bps_state :=
  ops.foldl step s

/-! ## States used to instantiate the theorems -/

def demo_req : usb_request := ⟨[10, 20, 30, 40, 50], 512, 0, 0, false⟩

def demo_ep : bps_ep := ⟨false, demo_req, 512⟩

def demo_cdev (c : chan) : bps_cdev := ⟨c, false, 0, demo_ep⟩

def demo_udc : usb_core := ⟨true, true, fun _ => 512, [], [], true, [], []⟩

/-- A bound, unconfigured driver with both channels closed and every slot idle. -/
def bound_state : bps_state :=
  ⟨false, false, true, demo_cdev, demo_ep, fun _ => demo_ep, demo_udc⟩

/-- The bound driver after the host chose the configuration. -/
def configured_state : bps_state :=
  { bound_state with config_set := true }

/-- The configured driver after the DATA channel was opened: its OUT slot is queued. -/
def opened_state : bps_state :=
  (bps_open configured_state .DATA_CHANNEL).2

/-- The driver after the host sent the five bytes 1..5 on the open DATA channel. -/
def received_state : bps_state :=
  deliver opened_state (.complete (.list .BULKOUT1) 0 5 [1, 2, 3, 4, 5])

/-- The arguments of one bps_read call. -/
structure read_call where
  nonblock : Bool
  p_user : user_ptr
  len : Nat
  evs : List event
  cevs : List event

/-- Successive bps_read calls on one channel, each on the state the previous one
left: the results in order. -/
def read_calls (s : bps_state) (c : chan) : List read_call → List read_result
  | [] => []
  | k :: ks =>
    bps_read s c k.nonblock k.p_user k.len k.evs k.cevs ::
      read_calls (bps_read s c k.nonblock k.p_user k.len k.evs k.cevs).st c ks

/-! ## Notions the claims are stated with -/

/-- The buffers of successive reads of a transfer of which `left` bytes are
undelivered hold what the reads copy: each read finds the `min(len, left)` bytes it
copies accessible in its buffer. -/
def buffers_hold : Nat → List read_call → Prop
  | _, [] => True
  | left, k :: ks => min k.len left ≤ k.p_user.size ∧ buffers_hold (left - k.len) ks

/-- The condition the spec gives for the automatic resubmission of a completed bulk
transfer of `ep_list[i]`: the transfer failed, the slot is the OUT slot of a channel
that is open, and the device is configured and not suspended. -/
def resubmit_wanted (s : bps_state) (i : ep_info) : Prop :=
  (s.ep_list i).p_req.status ≠ 0 ∧ (∃ c, i = p_outep c ∧ (s.cdevs c).opened = true) ∧
    s.config_set = true ∧ s.suspended = false

/-- The chunk lengths the spec prescribes for a write of `remaining` bytes through a
slot of capacity `cap`: carve off `min(remaining, cap)` until nothing is left.  The
first argument bounds the number of chunks. -/
def carve : Nat → Nat → Nat → List Nat
  | 0, _, _ => []
  | fuel + 1, cap, remaining =>
    if remaining = 0 then []
    else min cap remaining :: carve fuel cap (remaining - min cap remaining)

/-- The chunk lengths for a write of `n` bytes through a slot of capacity `cap`. -/
def chunk_lengths (cap n : Nat) : List Nat :=
  carve n cap n

/-- The transfers handed to the transport between state `s` and a later state `t`. -/
def new_xfers (s t : bps_state) : List usb_xfer :=
  t.udc.submitted.drop s.udc.submitted.length

/-- Every transfer handed to the transport between state `s` and the later state `t`
satisfies `P`. -/
def only_adds (P : usb_xfer → Prop) (s t : bps_state) : Prop :=
  ∃ xs, t.udc.submitted = s.udc.submitted ++ xs ∧ ∀ x ∈ xs, P x

/-- The transfers that code running from the USB core hands over: the control response
of setup_gadget and the OUT request of a channel (queue_out_request, the resubmission
of bulk_urb_complete). -/
def handler_xfer (x : usb_xfer) : Prop :=
  x.slot = .list x.ep ∧ (x.ep = .EP0 ∨ x.ep = .BULKOUT1 ∨ x.ep = .BULKOUT2)

/-- The slots `suspend_gadget` dequeues, in the order of its three loops. -/
def suspend_slots : List bps_ep_ref :=
  [.data_err, .intr .DATA_CHANNEL, .intr .CONFIG_CHANNEL, .list .BULKOUT1, .list .BULKIN1,
    .list .BULKOUT2, .list .BULKIN2, .list .INTRIN1]

/-- The calls of usb_ep_enable made between state `s` and a later state `t`. -/
def new_enables (s t : bps_state) : List enable_call :=
  t.udc.enable_log.drop s.udc.enable_log.length

/-! ## Binding the gadget -/

def ENOMEM : Int := 12

def EP0_URB_BUFFER_SIZE : Nat := 64

def BULK_IN_URB_BUFFER_SIZE : Nat := 2048

def INTR_URB_BUFFER_SIZE : Nat := 1

def DATA_ERR_URB_BUFFER_SIZE : Nat := 64

/-- The answers bind_gadget gets from the USB core and the allocator: whether
`usb_ep_autoconfig` finds the endpoint, and whether `alloc_ep_request` gets the request
and its buffer for a slot. -/
structure bind_env where
  autoconfig_ok : ep_info → Bool
  alloc_ok : bps_ep_ref → Bool

/-- A request that is not allocated (`p_req` is NULL). -/
def null_req : usb_request := ⟨[], 0, 0, 0, false⟩

/-- A `struct bps_ep` of the zeroed static `bps`. -/
def null_ep : bps_ep := ⟨false, null_req, 0⟩

/-- The global `bps` when `on_load` registers the gadget driver: static storage, zero
everywhere, with `config_set` and `suspended` set to FALSE. -/
def loaded_state (udc : usb_core) : bps_state :=
  ⟨false, false, false, fun _ => ⟨.DATA_CHANNEL, false, 0, null_ep⟩, null_ep,
    fun _ => null_ep, udc⟩

/-- The request `alloc_ep_request(p_ep, length)` returns when it succeeds; the bytes
of the new buffer are taken to be 0. -/
def alloc_ep_request (length : Nat) : usb_request :=
  ⟨List.replicate length 0, length, 0, 0, false⟩

/-- The loop of `allocate_endpoints` (the endpoints it finds are fixed, see `p_ep_of`). -/
def allocate_endpoints (env : bind_env) : List ep_info → Int
  | [] => 0
  | i :: rest => if env.autoconfig_ok i then allocate_endpoints env rest else - ENODEV

/-- The function `free_usb_request`. -/
def free_usb_request (s : bps_state) (r : bps_ep_ref) : bps_state :=
  if has_req r then set_req (dequeue_request s r) r null_req else s

/-- The function `free_all_requests`. -/
def free_all_requests (s : bps_state) : bps_state :=
  let s1 := [chan.DATA_CHANNEL, chan.CONFIG_CHANNEL].foldl
    (fun t c => free_usb_request t (.intr c)) s
  let s2 := free_usb_request s1 .data_err
  (ep_info.EP0 :: bps_eps).foldl (fun t i => free_usb_request t (.list i)) s2

/-- The loop over the channels in `allocate_extra_usb_requests`. -/
def alloc_intr_requests (env : bind_env) (s : bps_state) : List chan → Int × bps_state
  | [] => (0, s)
  | c :: rest =>
    if env.alloc_ok (.intr c) then
      alloc_intr_requests env (set_req s (.intr c) (alloc_ep_request INTR_URB_BUFFER_SIZE)) rest
    else (- ENOMEM, s)

/-- The function `allocate_extra_usb_requests`. -/
def allocate_extra_usb_requests (env : bind_env) (s : bps_state) : Int × bps_state :=
  if env.alloc_ok .data_err then
    alloc_intr_requests env
      (set_req s .data_err (alloc_ep_request DATA_ERR_URB_BUFFER_SIZE))
      [.DATA_CHANNEL, .CONFIG_CHANNEL]
  else (- ENOMEM, s)

/-- The loop of `allocate_endpoint_requests` over `ep_list`. -/
def alloc_list_requests (env : bind_env) (s : bps_state) : List ep_info → Int × bps_state
  | [] => (0, s)
  | i :: rest =>
    if i = .INTRIN1 then alloc_list_requests env s rest
    else
      let buffer_size :=
        if i = .EP0 then EP0_URB_BUFFER_SIZE
        else if i = .BULKOUT1 ∨ i = .BULKOUT2 then BULK_OUT_URB_BUFFER_SIZE
        else BULK_IN_URB_BUFFER_SIZE
      if env.alloc_ok (.list i) then
        alloc_list_requests env (set_req s (.list i) (alloc_ep_request buffer_size)) rest
      else (- ENOMEM, s)

/-- The function `allocate_endpoint_requests`. -/
def allocate_endpoint_requests (env : bind_env) (s : bps_state) : Int × bps_state :=
  match alloc_list_requests env s (ep_info.EP0 :: bps_eps) with
  | (r1, s1) =>
    match (if r1 = 0 then allocate_extra_usb_requests env s1 else (r1, s1)) with
    | (r2, s2) => if r2 ≠ 0 then (r2, free_all_requests s2) else (r2, s2)

/-- The function `bind_gadget` (the descriptor tables it patches are not part of the
state). -/
def bind_gadget (env : bind_env) (s : bps_state) : Int × bps_state :=
  let s0 := { s with bound := true }
  let r1 := allocate_endpoints env bps_eps
  if r1 = 0 then
    match allocate_endpoint_requests env s0 with
    | (r2, s1) =>
      if r2 = 0 then (0, save_urb_lengths s1) else (r2, { s1 with bound := false })
  else (r1, { s0 with bound := false })

/-- The size of the buffer that bind allocates for the request of a slot. -/
def alloc_size : bps_ep_ref → Nat
  | .list .EP0 => EP0_URB_BUFFER_SIZE
  | .list .BULKOUT1 => BULK_OUT_URB_BUFFER_SIZE
  | .list .BULKOUT2 => BULK_OUT_URB_BUFFER_SIZE
  | .list .BULKIN1 => BULK_IN_URB_BUFFER_SIZE
  | .list .BULKIN2 => BULK_IN_URB_BUFFER_SIZE
  | .list .INTRIN1 => 0
  | .data_err => DATA_ERR_URB_BUFFER_SIZE
  | .intr _ => INTR_URB_BUFFER_SIZE

/-- What the code that gives requests back to the driver may change (the completion
handlers, dequeue_request, usb_ep_disable, reset_config, suspend_gadget): it moves no
receive cursor, changes no saved capacity and no request length, sets no queued flag,
and changes `actual` only in a request that was queued. -/
def completes_only (s t : bps_state) : Prop :=
  (∀ c, (t.cdevs c).rx_bytes = (s.cdevs c).rx_bytes) ∧
    ∀ r, (get_ep t r).urb_buffer_size = (get_ep s r).urb_buffer_size ∧
      (get_ep t r).p_req.length = (get_ep s r).p_req.length ∧
      ((get_ep t r).queued = true → (get_ep s r).queued = true) ∧
      ((get_ep s r).queued = false → (get_ep t r).p_req.actual = (get_ep s r).p_req.actual)

/-- The invariant of the capacities: for every slot other than the control slot, the
saved capacity and the length of the request are at most the size of the buffer
allocated at bind. -/
def within_alloc (s : bps_state) : Prop :=
  ∀ r, r ≠ .list .EP0 →
    (get_ep s r).urb_buffer_size ≤ alloc_size r ∧ (get_ep s r).p_req.length ≤ alloc_size r

/-! ## More states used to instantiate the theorems -/

/-- The configured driver with a DATA IN transfer buffer of two bytes. -/
def small_buffer_state : bps_state :=
  set_urb_buffer_size configured_state (.list .BULKIN1) 2

/-- The open DATA channel at the moment its OUT transfer is given back with -EIO. -/
def failed_state : bps_state :=
  set_req opened_state (.list .BULKOUT1) { demo_req with status := - 5 }

/-- The configured driver on a transport that rejects the next submission. -/
def rejecting_state : bps_state :=
  { configured_state with udc := { demo_udc with queue_rc := [- 19] } }

/-- The configured driver while the response to a Get-Descriptor(device) request is
queued on the control slot. -/
def ep0_busy_state : bps_state :=
  deliver configured_state (.setup ⟨0x80, 6, 0x0100, 18, 0, 0⟩)

/-- The suspended driver after a disconnect that found the DATA channel open: the
channel stays open, the configuration is gone. -/
def open_unconfigured_state : bps_state :=
  run configured_state [.bps_open .DATA_CHANNEL, .irq .suspend, .irq .disconnect]

/-- The suspended driver with the DATA channel open. -/
def open_suspended_state : bps_state :=
  run configured_state [.bps_open .DATA_CHANNEL, .irq .suspend]

/-- The configured driver while a blocking bps_write of one byte on the DATA channel
sleeps: its transfer is queued on the DATA IN slot. -/
def writing_state : bps_state :=
  run configured_state [.bps_open .DATA_CHANNEL,
    .bps_write .DATA_CHANNEL false (.addr [7]) 1 []]

/-- The suspended driver with the DATA channel open, on a transport that rejects the
next submission. -/
def open_suspended_rejecting_state : bps_state :=
  { open_suspended_state with
    udc := { open_suspended_state.udc with queue_rc := [- 19] } }

/-- A Get-Descriptor request for the device qualifier in which the host asks for 4
bytes. -/
def qualifier_request : usb_ctrlrequest :=
  ⟨0x80, USB_REQ_GET_DESCRIPTOR, 0x0600, 4, 0, 0⟩

/-- The Set-Configuration request of the host. -/
def set_configuration_request : usb_ctrlrequest :=
  ⟨0x00, USB_REQ_SET_CONFIGURATION, 1, 0, 0, 0⟩

/-- The driver after the host sent a zero-length packet on the open DATA channel. -/
def zlp_received_state : bps_state :=
  deliver opened_state (.complete (.list .BULKOUT1) 0 0 [])

/-- A bind in which every endpoint is found and every allocation succeeds. -/
def bind_ok : bind_env := ⟨fun _ => true, fun _ => true⟩

/-- The driver after a successful bind. -/
def after_bind : bps_state :=
  (bind_gadget bind_ok (loaded_state demo_udc)).2

/-- The driver after bind, Set-Configuration, an open of the DATA channel and a blocking
write of three bytes that completed, when the host has disconnected and set the
configuration again. -/
def rewritten_state : bps_state :=
  run after_bind [.irq (.setup set_configuration_request), .bps_open .DATA_CHANNEL,
    .bps_write .DATA_CHANNEL false (.addr [1, 2, 3]) 3 [.complete (.list .BULKIN1) 0 3 []],
    .irq .disconnect, .irq (.setup set_configuration_request)]

/-- The driver after bind, Set-Configuration, an open of the DATA channel and a
zero-length packet sent on it, when the host has set the configuration again. -/
def zlp_sent_state : bps_state :=
  run after_bind [.irq (.setup set_configuration_request), .bps_open .DATA_CHANNEL,
    .bps_ioctl 0 .DATA_CHANNEL false .IOCTL_BPS_SEND_ZLP ⟨0, none⟩
      [.complete (.list .BULKIN1) 0 0 []],
    .irq (.setup set_configuration_request)]

/-- The driver after bind, Set-Configuration, an open of the DATA channel, five bytes
received on it and a read of three of them, when the bus was suspended and resumed
while the read copied to the user. -/
def raced_read_state : bps_state :=
  run after_bind [.irq (.setup set_configuration_request), .bps_open .DATA_CHANNEL,
    .irq (.complete (.list .BULKOUT1) 0 5 [1, 2, 3, 4, 5]),
    .bps_read .DATA_CHANNEL false (.addr [0, 0, 0]) 3 [] [.suspend, .resume]]

/-! ## Field lemmas for the state updates -/

@[simp] theorem config_set_set_ep (s : bps_state) (r : bps_ep_ref) (e : bps_ep) :
    (set_ep s r e).config_set = s.config_set := by cases r <;> rfl

@[simp] theorem suspended_set_ep (s : bps_state) (r : bps_ep_ref) (e : bps_ep) :
    (set_ep s r e).suspended = s.suspended := by cases r <;> rfl

@[simp] theorem udc_set_ep (s : bps_state) (r : bps_ep_ref) (e : bps_ep) :
    (set_ep s r e).udc = s.udc := by cases r <;> rfl

@[simp] theorem opened_set_ep (s : bps_state) (r : bps_ep_ref) (e : bps_ep) (c : chan) :
    ((set_ep s r e).cdevs c).opened = (s.cdevs c).opened := by
  cases r with
  | list i => rfl
  | data_err => rfl
  | intr d =>
    by_cases h : c = d
    · subst h; simp [set_ep]
    · simp [set_ep, Function.update_noteq h]

@[simp] theorem rx_bytes_set_ep (s : bps_state) (r : bps_ep_ref) (e : bps_ep) (c : chan) :
    ((set_ep s r e).cdevs c).rx_bytes = (s.cdevs c).rx_bytes := by
  cases r with
  | list i => rfl
  | data_err => rfl
  | intr d =>
    by_cases h : c = d
    · subst h; simp [set_ep]
    · simp [set_ep, Function.update_noteq h]

@[simp] theorem channel_set_ep (s : bps_state) (r : bps_ep_ref) (e : bps_ep) (c : chan) :
    ((set_ep s r e).cdevs c).channel = (s.cdevs c).channel := by
  cases r with
  | list i => rfl
  | data_err => rfl
  | intr d =>
    by_cases h : c = d
    · subst h; simp [set_ep]
    · simp [set_ep, Function.update_noteq h]

@[simp] theorem get_ep_set_ep_same (s : bps_state) (r : bps_ep_ref) (e : bps_ep) :
    get_ep (set_ep s r e) r = e := by
  cases r <;> simp [get_ep, set_ep]

theorem get_ep_set_ep_other (s : bps_state) (r r2 : bps_ep_ref) (e : bps_ep) (h : r2 ≠ r) :
    get_ep (set_ep s r e) r2 = get_ep s r2 := by
  cases r with
  | list i =>
    cases r2 with
    | list j =>
      have hj : j ≠ i := fun hji => h (by rw [hji])
      simp [get_ep, set_ep, Function.update_noteq hj]
    | data_err => rfl
    | intr d => rfl
  | data_err =>
    cases r2 with
    | list j => rfl
    | data_err => exact absurd rfl h
    | intr d => rfl
  | intr c =>
    cases r2 with
    | list j => rfl
    | data_err => rfl
    | intr d =>
      have hd : d ≠ c := fun hdc => h (by rw [hdc])
      simp [get_ep, set_ep, Function.update_noteq hd]

theorem get_ep_set_ep (s : bps_state) (r r2 : bps_ep_ref) (e : bps_ep) :
    get_ep (set_ep s r e) r2 = if r2 = r then e else get_ep s r2 := by
  by_cases h : r2 = r
  · subst h; simp
  · simp [h, get_ep_set_ep_other s r r2 e h]

@[simp] theorem ep_list_eq_get_ep (s : bps_state) (i : ep_info) :
    s.ep_list i = get_ep s (.list i) := rfl

@[simp] theorem config_set_set_cdev (s : bps_state) (c : chan) (d : bps_cdev) :
    (set_cdev s c d).config_set = s.config_set := rfl

@[simp] theorem suspended_set_cdev (s : bps_state) (c : chan) (d : bps_cdev) :
    (set_cdev s c d).suspended = s.suspended := rfl

@[simp] theorem udc_set_cdev (s : bps_state) (c : chan) (d : bps_cdev) :
    (set_cdev s c d).udc = s.udc := rfl

@[simp] theorem cdevs_set_cdev_same (s : bps_state) (c : chan) (d : bps_cdev) :
    (set_cdev s c d).cdevs c = d := by simp [set_cdev]

theorem cdevs_set_cdev (s : bps_state) (c c2 : chan) (d : bps_cdev) :
    (set_cdev s c d).cdevs c2 = if c2 = c then d else s.cdevs c2 := by
  simp [set_cdev, Function.update_apply]

@[simp] theorem get_ep_list_set_cdev (s : bps_state) (c : chan) (d : bps_cdev) (i : ep_info) :
    get_ep (set_cdev s c d) (.list i) = get_ep s (.list i) := rfl

@[simp] theorem get_ep_data_err_set_cdev (s : bps_state) (c : chan) (d : bps_cdev) :
    get_ep (set_cdev s c d) .data_err = get_ep s .data_err := rfl

@[simp] theorem usb_ep_queue_fst (s : bps_state) (r : bps_ep_ref) :
    (usb_ep_queue s r).1 = next_queue_rc s := by
  unfold usb_ep_queue
  by_cases h : next_queue_rc s = 0 <;> simp [h]

@[simp] theorem config_set_usb_ep_queue (s : bps_state) (r : bps_ep_ref) :
    (usb_ep_queue s r).2.config_set = s.config_set := by
  by_cases h : next_queue_rc s = 0 <;> simp [usb_ep_queue, h]

@[simp] theorem suspended_usb_ep_queue (s : bps_state) (r : bps_ep_ref) :
    (usb_ep_queue s r).2.suspended = s.suspended := by
  by_cases h : next_queue_rc s = 0 <;> simp [usb_ep_queue, h]

@[simp] theorem cdevs_usb_ep_queue (s : bps_state) (r : bps_ep_ref) :
    (usb_ep_queue s r).2.cdevs = s.cdevs := by
  by_cases h : next_queue_rc s = 0 <;> simp [usb_ep_queue, h]

@[simp] theorem get_ep_usb_ep_queue (s : bps_state) (r r2 : bps_ep_ref) :
    get_ep (usb_ep_queue s r).2 r2 = get_ep s r2 := by
  by_cases h : next_queue_rc s = 0 <;> cases r2 <;>
    simp [-ep_list_eq_get_ep, usb_ep_queue, h, get_ep]

theorem submitted_usb_ep_queue (s : bps_state) (r : bps_ep_ref) :
    (usb_ep_queue s r).2.udc.submitted =
      if next_queue_rc s = 0 then s.udc.submitted ++ [⟨p_ep_of r, r, (get_ep s r).p_req⟩]
      else s.udc.submitted := by
  by_cases h : next_queue_rc s = 0 <;> simp [usb_ep_queue, h]

@[simp] theorem next_queue_rc_set_ep (s : bps_state) (r : bps_ep_ref) (e : bps_ep) :
    next_queue_rc (set_ep s r e) = next_queue_rc s := by
  simp [next_queue_rc]

@[simp] theorem next_queue_rc_set_cdev (s : bps_state) (c : chan) (d : bps_cdev) :
    next_queue_rc (set_cdev s c d) = next_queue_rc s := rfl

@[simp] theorem out_req_set_cdev (s : bps_state) (c c2 : chan) (d : bps_cdev) :
    out_req (set_cdev s c d) c2 = out_req s c2 := rfl

@[simp] theorem out_req_set_rx_bytes (s : bps_state) (c c2 : chan) (n : Nat) :
    out_req (set_rx_bytes s c n) c2 = out_req s c2 := rfl

@[simp] theorem rx_bytes_set_rx_bytes (s : bps_state) (c : chan) (n : Nat) :
    ((set_rx_bytes s c n).cdevs c).rx_bytes = n := by
  simp [set_rx_bytes]

@[simp] theorem config_set_set_rx_bytes (s : bps_state) (c : chan) (n : Nat) :
    (set_rx_bytes s c n).config_set = s.config_set := rfl

@[simp] theorem suspended_set_rx_bytes (s : bps_state) (c : chan) (n : Nat) :
    (set_rx_bytes s c n).suspended = s.suspended := rfl

@[simp] theorem udc_set_rx_bytes (s : bps_state) (c : chan) (n : Nat) :
    (set_rx_bytes s c n).udc = s.udc := rfl

@[simp] theorem opened_set_rx_bytes (s : bps_state) (c c2 : chan) (n : Nat) :
    ((set_rx_bytes s c n).cdevs c2).opened = (s.cdevs c2).opened := by
  by_cases h : c2 = c
  · subst h; simp [set_rx_bytes]
  · simp [set_rx_bytes, set_cdev, Function.update_noteq h]

@[simp] theorem get_ep_list_set_rx_bytes (s : bps_state) (c : chan) (n : Nat) (i : ep_info) :
    get_ep (set_rx_bytes s c n) (.list i) = get_ep s (.list i) := rfl

/-! ## The open flag is touched by bps_open and bps_release only -/

theorem foldl_keeps {α β γ : Type} (f : β → α → β) (g : β → γ)
    (h : ∀ t x, g (f t x) = g t) (l : List α) (s : β) : g (l.foldl f s) = g s := by
  induction l generalizing s with
  | nil => rfl
  | cons x xs ih => rw [List.foldl_cons, ih, h]

@[simp] theorem opened_set_queued (s : bps_state) (r : bps_ep_ref) (q : Bool) (c : chan) :
    ((set_queued s r q).cdevs c).opened = (s.cdevs c).opened := by
  simp [set_queued]

@[simp] theorem opened_set_req (s : bps_state) (r : bps_ep_ref) (q : usb_request) (c : chan) :
    ((set_req s r q).cdevs c).opened = (s.cdevs c).opened := by
  simp [set_req]

@[simp] theorem opened_set_urb_buffer_size (s : bps_state) (r : bps_ep_ref) (n : Nat)
    (c : chan) : ((set_urb_buffer_size s r n).cdevs c).opened = (s.cdevs c).opened := by
  simp [set_urb_buffer_size]

@[simp] theorem opened_usb_ep_queue (s : bps_state) (r : bps_ep_ref) (c : chan) :
    (((usb_ep_queue s r).2).cdevs c).opened = (s.cdevs c).opened := by
  simp

@[simp] theorem opened_bulk_urb_complete (s : bps_state) (i : ep_info) (c : chan) :
    ((bulk_urb_complete s i).cdevs c).opened = (s.cdevs c).opened := by
  unfold bulk_urb_complete
  simp only []
  split_ifs <;> simp

@[simp] theorem opened_give_back (s : bps_state) (r : bps_ep_ref) (status : Int)
    (actual : Nat) (c : chan) :
    ((give_back s r status actual).cdevs c).opened = (s.cdevs c).opened := by
  unfold give_back
  split <;> simp [ep0_complete, data_err_urb_complete, intr_urb_complete]

@[simp] theorem opened_usb_ep_dequeue (s : bps_state) (r : bps_ep_ref) (c : chan) :
    ((usb_ep_dequeue s r).cdevs c).opened = (s.cdevs c).opened := by
  unfold usb_ep_dequeue
  split <;> simp

@[simp] theorem opened_dequeue_request (s : bps_state) (r : bps_ep_ref) (c : chan) :
    ((dequeue_request s r).cdevs c).opened = (s.cdevs c).opened := by
  unfold dequeue_request
  split <;> [split; skip] <;> simp

@[simp] theorem opened_usb_ep_disable (s : bps_state) (i : ep_info) (c : chan) :
    ((usb_ep_disable s i).cdevs c).opened = (s.cdevs c).opened := by
  unfold usb_ep_disable
  exact foldl_keeps
    (fun (t : bps_state) (r : bps_ep_ref) =>
      if p_ep_of r = i ∧ has_req r = true ∧ (get_ep t r).queued = true then
        give_back t r (- ESHUTDOWN) (get_ep t r).p_req.actual
      else t)
    (fun t => (t.cdevs c).opened)
    (fun t x => by simp only []; split <;> simp) _ s

@[simp] theorem opened_usb_ep_enable (s : bps_state) (i : ep_info) (hs : Bool) (c : chan) :
    (((usb_ep_enable s i hs).2).cdevs c).opened = (s.cdevs c).opened := by
  unfold usb_ep_enable
  split <;> rfl

@[simp] theorem opened_disable_bps_eps (s : bps_state) (c : chan) :
    ((disable_bps_eps s).cdevs c).opened = (s.cdevs c).opened := by
  unfold disable_bps_eps
  have h := foldl_keeps (fun t i => usb_ep_disable (dequeue_request t (.list i)) i)
    (fun t => (t.cdevs c).opened) (fun t x => by simp) bps_eps
    (dequeue_request (dequeue_request (dequeue_request s .data_err) (.intr .DATA_CHANNEL))
      (.intr .CONFIG_CHANNEL))
  simp only [] at h ⊢
  rw [h]
  simp

@[simp] theorem opened_reset_config (s : bps_state) (c : chan) :
    ((reset_config s).cdevs c).opened = (s.cdevs c).opened := by
  simp [reset_config]

@[simp] theorem opened_save_urb_length (s : bps_state) (i : ep_info) (c : chan) :
    ((save_urb_length s i).cdevs c).opened = (s.cdevs c).opened := by
  unfold save_urb_length
  split <;> [split; skip] <;> simp

@[simp] theorem opened_save_urb_lengths (s : bps_state) (c : chan) :
    ((save_urb_lengths s).cdevs c).opened = (s.cdevs c).opened := by
  unfold save_urb_lengths
  have h1 := foldl_keeps save_urb_length (fun t => (t.cdevs c).opened)
    (fun t x => by simp) bps_eps s
  have h2 := fun u => foldl_keeps
    (fun t d => set_urb_buffer_size t (.intr d) (t.cdevs d).intr_ep.p_req.length)
    (fun t => (t.cdevs c).opened) (fun t x => by simp)
    [chan.DATA_CHANNEL, chan.CONFIG_CHANNEL] u
  simp only [] at h1 h2 ⊢
  rw [h2, opened_set_urb_buffer_size, h1]

@[simp] theorem opened_enable_eps (l : List ep_info) (s : bps_state) (c : chan) :
    (((enable_eps s l).2).cdevs c).opened = (s.cdevs c).opened := by
  induction l generalizing s with
  | nil => rfl
  | cons i rest ih =>
    unfold enable_eps
    split
    rename_i rc s1 heq
    have h1 : s1 = (usb_ep_enable s i (select_ep_descriptor s)).2 := by rw [heq]
    split
    · simp [h1]
    · rw [ih, h1]; simp

@[simp] theorem opened_set_config (s : bps_state) (c : chan) :
    (((set_config s).2).cdevs c).opened = (s.cdevs c).opened := by
  unfold set_config
  split
  rename_i retval s1 heq
  have h1 : s1 = (enable_eps (reset_config s) bps_eps).2 := by rw [heq]
  split
  · show ((save_urb_lengths s1).cdevs c).opened = _
    simp [h1]
  · simp [h1]

@[simp] theorem opened_setup_retval (s : bps_state) (ctrl : usb_ctrlrequest) (c : chan) :
    (((setup_retval s ctrl).2).cdevs c).opened = (s.cdevs c).opened := by
  unfold setup_retval
  simp only []
  split_ifs <;> simp

@[simp] theorem opened_setup_gadget (s : bps_state) (ctrl : usb_ctrlrequest) (c : chan) :
    (((setup_gadget s ctrl).2).cdevs c).opened = (s.cdevs c).opened := by
  unfold setup_gadget
  split
  rename_i retval s1 heq
  have h1 : s1 = (setup_retval s ctrl).2 := by rw [heq]
  simp only []
  split_ifs <;> simp [h1]

@[simp] theorem opened_queue_out_request (s : bps_state) (c d : chan) :
    (((queue_out_request s d).2).cdevs c).opened = (s.cdevs c).opened := by
  unfold queue_out_request
  simp only []
  split_ifs <;> simp

@[simp] theorem opened_suspend_gadget (s : bps_state) (c : chan) :
    ((suspend_gadget s).cdevs c).opened = (s.cdevs c).opened := by
  unfold suspend_gadget
  have h := foldl_keeps (fun t i => dequeue_request t (.list i))
    (fun t => (t.cdevs c).opened) (fun t x => by simp) bps_eps
  simp only [] at h ⊢
  rw [h]
  simp

@[simp] theorem opened_resume_gadget (s : bps_state) (c : chan) :
    ((resume_gadget s).cdevs c).opened = (s.cdevs c).opened := by
  unfold resume_gadget
  have h := foldl_keeps (fun t d => (queue_out_request t d).2)
    (fun t => (t.cdevs c).opened) (fun t x => by simp)
    [chan.DATA_CHANNEL, chan.CONFIG_CHANNEL]
  simp only [] at h ⊢
  rw [h]

@[simp] theorem opened_complete_request (s : bps_state) (r : bps_ep_ref) (status : Int)
    (actual : Nat) (data : List Nat) (c : chan) :
    ((complete_request s r status actual data).cdevs c).opened = (s.cdevs c).opened := by
  unfold complete_request
  simp only []
  split_ifs <;> simp

@[simp] theorem opened_deliver (s : bps_state) (e : event) (c : chan) :
    ((deliver s e).cdevs c).opened = (s.cdevs c).opened := by
  cases e <;> simp [deliver, disconnect_gadget]

@[simp] theorem opened_wait_event (cond : bps_state → Bool) (evs : List event)
    (s : bps_state) (c : chan) :
    (((wait_event cond s evs).2.1).cdevs c).opened = (s.cdevs c).opened := by
  induction evs generalizing s with
  | nil => rfl
  | cons e rest ih =>
    unfold wait_event
    split
    · rfl
    · rw [ih]; simp

@[simp] theorem opened_wait_event_interruptible (cond : bps_state → Bool) (evs : List event)
    (s : bps_state) (c : chan) :
    (((wait_event_interruptible cond s evs).2.1).cdevs c).opened = (s.cdevs c).opened := by
  induction evs generalizing s with
  | nil => rfl
  | cons e rest ih =>
    unfold wait_event_interruptible
    split_ifs
    · rfl
    · rfl
    · rw [ih]; simp

@[simp] theorem opened_bps_read_wait (fuel : Nat) (l : read_label) (s : bps_state)
    (d : chan) (nonblock : Bool) (evs : List event) (c : chan) :
    (((bps_read_wait fuel l s d nonblock evs).2).cdevs c).opened = (s.cdevs c).opened := by
  induction fuel generalizing l s evs with
  | zero => rfl
  | succ n ih =>
    cases l with
    | restart_read =>
      unfold bps_read_wait
      split_ifs
      · rfl
      · exact ih _ _ _
    | check_queued_request =>
      unfold bps_read_wait
      split_ifs
      · rfl
      · split
        · rename_i heq
          have := opened_wait_event_interruptible
            (fun t => !(t.ep_list (p_outep d)).queued) evs s c
          rw [heq] at this
          exact this
        · rename_i heq
          have := opened_wait_event_interruptible
            (fun t => !(t.ep_list (p_outep d)).queued) evs s c
          rw [heq] at this
          exact this
        · rename_i heq
          have := opened_wait_event_interruptible
            (fun t => !(t.ep_list (p_outep d)).queued) evs s c
          rw [heq] at this
          split_ifs
          · rw [ih]; exact this
          · exact this
      · rfl
      · split
        rename_i rc s1 heq
        have h1 : s1 = (queue_out_request s d).2 := by rw [heq]
        split_ifs
        · simp [h1]
        · rw [ih, h1]; simp
      · rfl

@[simp] theorem opened_foldl_deliver (evs : List event) (s : bps_state) (c : chan) :
    ((evs.foldl deliver s).cdevs c).opened = (s.cdevs c).opened :=
  foldl_keeps deliver (fun t => (t.cdevs c).opened) (fun t e => opened_deliver t e c) evs s

@[simp] theorem opened_bps_read_copy (s : bps_state) (d : chan) (p_user : user_ptr)
    (len : Nat) (cevs : List event) (c : chan) :
    (((bps_read_copy s d p_user len cevs).st).cdevs c).opened = (s.cdevs c).opened := by
  unfold bps_read_copy
  simp only []
  split_ifs <;> simp

@[simp] theorem opened_bps_read (s : bps_state) (d : chan) (nonblock : Bool)
    (p_user : user_ptr) (len : Nat) (evs cevs : List event) (c : chan) :
    (((bps_read s d nonblock p_user len evs cevs).st).cdevs c).opened =
      (s.cdevs c).opened := by
  unfold bps_read
  split_ifs
  · rfl
  · split
    · rename_i s1 heq
      have h1 : s1 = (bps_read_wait (3 * evs.length + 3) .restart_read s d nonblock evs).2 := by
        rw [heq]
      rw [opened_bps_read_copy, h1, opened_bps_read_wait]
    · rename_i o s1 _ heq
      have h1 : s1 = (bps_read_wait (3 * evs.length + 3) .restart_read s d nonblock evs).2 := by
        rw [heq]
      show (s1.cdevs c).opened = _
      rw [h1, opened_bps_read_wait]

theorem opened_wait_event_eq (cond : bps_state → Bool) (evs : List event)
    (s : bps_state) (c : chan) (b : Bool) (s4 : bps_state) (rest : List event)
    (h : wait_event cond s evs = (b, s4, rest)) :
    (s4.cdevs c).opened = (s.cdevs c).opened := by
  have := opened_wait_event cond evs s c
  rw [h] at this
  exact this

theorem opened_usb_ep_queue_eq (s : bps_state) (r : bps_ep_ref) (c : chan) (rc : Int)
    (s3 : bps_state) (h : usb_ep_queue s r = (rc, s3)) :
    (s3.cdevs c).opened = (s.cdevs c).opened := by
  have := opened_usb_ep_queue s r c
  rw [h] at this
  exact this

@[simp] theorem opened_bps_write_loop (fuel : Nat) (s : bps_state) (d : chan)
    (p_user : user_ptr) (len : Nat) (retval : Int) (r : bps_ep_ref) (evs : List event)
    (c : chan) :
    (((bps_write_loop fuel s d p_user len retval r evs).2).cdevs c).opened =
      (s.cdevs c).opened := by
  induction fuel generalizing s p_user len retval evs with
  | zero => rfl
  | succ n ih =>
    unfold bps_write_loop
    simp only []
    split_ifs
    · rfl
    · split
      · rfl
      · split_ifs
        · simp
        · simp
        · split
          · rename_i heq
            have h4 := opened_wait_event_eq _ _ _ c _ _ _ heq
            simpa using h4
          · rename_i heq
            have h4 := opened_wait_event_eq _ _ _ c _ _ _ heq
            split_ifs
            · rw [ih]; simpa using h4
            · simpa using h4

@[simp] theorem opened_bps_write_impl (s : bps_state) (d : chan) (nonblock : Bool)
    (p_user : user_ptr) (len : Nat) (r : bps_ep_ref) (evs : List event) (c : chan) :
    (((bps_write_impl s d nonblock p_user len r evs).2).cdevs c).opened =
      (s.cdevs c).opened := by
  unfold bps_write_impl
  split_ifs <;> simp

@[simp] theorem opened_send_zlp (s : bps_state) (d : chan) (nonblock : Bool)
    (evs : List event) (c : chan) :
    (((send_zlp s d nonblock evs).2).cdevs c).opened = (s.cdevs c).opened := by
  unfold send_zlp
  simp only []
  split_ifs
  · rfl
  · rfl
  · simp
  · split
    · rename_i heq
      have h4 := opened_wait_event_eq _ _ _ c _ _ _ heq
      simpa using h4
    · rename_i heq
      have h4 := opened_wait_event_eq _ _ _ c _ _ _ heq
      simpa using h4

@[simp] theorem opened_send_intr_notification (s : bps_state) (d : chan) (nonblock : Bool)
    (value : Nat) (evs : List event) (c : chan) :
    (((send_intr_notification s d nonblock value evs).2).cdevs c).opened =
      (s.cdevs c).opened := by
  unfold send_intr_notification
  simp only []
  split_ifs
  · rfl
  · rfl
  · simp
  · simp
  · split
    · rename_i heq
      have h4 := opened_wait_event_eq _ _ _ c _ _ _ heq
      simpa using h4
    · rename_i heq
      have h4 := opened_wait_event_eq _ _ _ c _ _ _ heq
      simpa using h4

@[simp] theorem opened_send_data_error (s : bps_state) (d : chan) (nonblock : Bool)
    (ioarg : ioctl_arg) (evs : List event) (c : chan) :
    (((send_data_error s d nonblock ioarg evs).2).cdevs c).opened = (s.cdevs c).opened := by
  unfold send_data_error
  split_ifs
  · rfl
  · split <;> simp

@[simp] theorem opened_bps_ioctl (sku : Nat) (s : bps_state) (d : chan) (nonblock : Bool)
    (iocmd : ioctl_cmd) (ioarg : ioctl_arg) (evs : List event) (c : chan) :
    (((bps_ioctl sku s d nonblock iocmd ioarg evs).2).cdevs c).opened =
      (s.cdevs c).opened := by
  cases iocmd <;> simp [bps_ioctl]

theorem opened_set_opened (s : bps_state) (d : chan) (b : Bool) (c : chan) :
    ((set_opened s d b).cdevs c).opened = if c = d then b else (s.cdevs c).opened := by
  by_cases h : c = d
  · subst h; simp [set_opened]
  · simp [set_opened, set_cdev, Function.update_noteq h, h]

theorem bps_open_ok_closed (s : bps_state) (c : chan) (h : (bps_open s c).1 = 0) :
    s.config_set = true ∧ (s.cdevs c).opened = false := by
  have hcfg : s.config_set = true := by
    by_contra hc
    simp [bps_open, hc, EIO] at h
  refine ⟨hcfg, ?_⟩
  by_contra ho
  simp [bps_open, hcfg, ho, EBUSY] at h

theorem opened_bps_open (s : bps_state) (d c : chan) :
    ((bps_open s d).2.cdevs c).opened =
      if c = d ∧ (bps_open s d).1 = 0 then true else (s.cdevs c).opened := by
  unfold bps_open
  by_cases hcfg : s.config_set = true
  · by_cases ho : (s.cdevs d).opened = true
    · simp [hcfg, ho, EBUSY]
    · by_cases hcd : c = d
      · subst hcd
        simp [hcfg, ho, opened_set_opened]
      · have hu : Function.update s.cdevs d
            { channel := d, opened := (s.cdevs d).opened, rx_bytes := 0,
              intr_ep := (s.cdevs d).intr_ep } c = s.cdevs c := Function.update_noteq hcd _ _
        simp [hcfg, ho, opened_set_opened, hcd, set_cdev, hu]
  · simp [hcfg, EIO]

theorem opened_bps_release (s : bps_state) (d c : chan) (h : c ≠ d) :
    ((bps_release s d).2.cdevs c).opened = (s.cdevs c).opened := by
  unfold bps_release
  simp only []
  split_ifs <;> simp [opened_set_opened, h]

theorem opened_step (s : bps_state) (o : op) (c : chan) (ho : o ≠ .bps_release c)
    (h : (s.cdevs c).opened = true) : ((step s o).cdevs c).opened = true := by
  cases o with
  | bps_open d =>
    simp only [step, opened_bps_open]
    split_ifs <;> simp [h]
  | bps_release d =>
    have hcd : c ≠ d := fun hcd => ho (by rw [hcd])
    simp only [step]
    rw [opened_bps_release s d c hcd, h]
  | bps_read d nonblock p_user len evs cevs => simp [step, h]
  | bps_write d nonblock p_user len evs => simp [step, bps_write, h]
  | bps_poll d => simp [step, h]
  | bps_ioctl sku d nonblock iocmd ioarg evs => simp [step, h]
  | irq e => simp [step, h]

theorem opened_run (ops : List op) (s : bps_state) (c : chan) (ho : op.bps_release c ∉ ops)
    (h : (s.cdevs c).opened = true) : ((run s ops).cdevs c).opened = true := by
  induction ops generalizing s with
  | nil => exact h
  | cons o rest ih =>
    have h1 : o ≠ .bps_release c := fun e => ho (by rw [e]; exact List.mem_cons_self _ _)
    have h2 : op.bps_release c ∉ rest := fun e => ho (List.mem_cons_of_mem _ e)
    exact ih (step s o) h2 (opened_step s o c h1 h)

/-! ## One open at a time -/

/-- C1: for every channel, bps_open returns 0 only when the channel's open flag is
clear at the call; among all driver operations (open, close, read, write, poll, ioctl
and, from the USB core, completions, setup with Set-Configuration, disconnect, suspend,
resume) only bps_release of that channel clears a set flag; hence, whatever sequence
of operations runs between two successful opens of a channel, it contains a close of
that channel. -/
theorem bps_open_exclusive (s : bps_state) (c : chan) :
    ((bps_open s c).1 = 0 → (s.cdevs c).opened = false) ∧
      (∀ o : op, (s.cdevs c).opened = true → ((step s o).cdevs c).opened = false →
        o = .bps_release c) ∧
      (∀ ops : List op, (bps_open s c).1 = 0 →
        (bps_open (run (bps_open s c).2 ops) c).1 = 0 → op.bps_release c ∈ ops) := by
  refine ⟨fun h => (bps_open_ok_closed s c h).2, ?_, ?_⟩
  · intro o h hf
    by_contra ho
    rw [opened_step s o c ho h] at hf
    exact absurd hf (by decide)
  · intro ops h1 h2
    by_contra hn
    have hopen : ((bps_open s c).2.cdevs c).opened = true := by
      rw [opened_bps_open]; simp [h1]
    have := opened_run ops _ c hn hopen
    rw [(bps_open_ok_closed _ c h2).2] at this
    exact absurd this (by decide)

theorem bps_open_exclusive_witness :
    (bps_open configured_state .DATA_CHANNEL).1 = 0 ∧
      (bps_open (run (bps_open configured_state .DATA_CHANNEL).2
        [.bps_read .DATA_CHANNEL true (.addr [0]) 1 [] [], .bps_release .DATA_CHANNEL])
        .DATA_CHANNEL).1 = 0 ∧
      op.bps_release .DATA_CHANNEL ∈
        [op.bps_read .DATA_CHANNEL true (.addr [0]) 1 [] [], op.bps_release .DATA_CHANNEL] :=
  ⟨by decide, by decide,
    (bps_open_exclusive configured_state .DATA_CHANNEL).2.2
      [.bps_read .DATA_CHANNEL true (.addr [0]) 1 [] [], .bps_release .DATA_CHANNEL]
      (by decide) (by decide)⟩

/-! ## bps_open -/

/-- C3: on a device whose configuration has not been chosen, bps_open fails with -EIO
and changes nothing: the driver state, with the open flags, the receive cursors, every
slot's queued flag and the list of submitted transfers, is the one before the call. -/
theorem bps_open_unconfigured (s : bps_state) (c : chan) (h : s.config_set = false) :
    (bps_open s c).1 = - EIO ∧
      (bps_open s c).2.udc.submitted = s.udc.submitted ∧
      ((bps_open s c).2.cdevs c).opened = (s.cdevs c).opened ∧
      ((bps_open s c).2.cdevs c).rx_bytes = (s.cdevs c).rx_bytes ∧
      (∀ r, (get_ep (bps_open s c).2 r).queued = (get_ep s r).queued) ∧
      (bps_open s c).2 = s := by
  have h2 : bps_open s c = (- EIO, s) := by simp [bps_open, h]
  simp [h2]

theorem bps_open_unconfigured_witness :
    (bps_open bound_state .DATA_CHANNEL).1 = - EIO ∧
      (bps_open bound_state .DATA_CHANNEL).2.udc.submitted = bound_state.udc.submitted ∧
      ((bps_open bound_state .DATA_CHANNEL).2.cdevs .DATA_CHANNEL).opened =
        (bound_state.cdevs .DATA_CHANNEL).opened ∧
      ((bps_open bound_state .DATA_CHANNEL).2.cdevs .DATA_CHANNEL).rx_bytes =
        (bound_state.cdevs .DATA_CHANNEL).rx_bytes ∧
      (∀ r, (get_ep (bps_open bound_state .DATA_CHANNEL).2 r).queued =
        (get_ep bound_state r).queued) ∧
      (bps_open bound_state .DATA_CHANNEL).2 = bound_state :=
  bps_open_unconfigured bound_state .DATA_CHANNEL rfl

/-- C2 as stated fails: after open and a host disconnect the DATA channel is still
open, and a second bps_open on it returns -EIO, not -EBUSY. -/
theorem bps_open_busy_counterexample :
    ((run configured_state [.bps_open .DATA_CHANNEL, .irq .disconnect]).cdevs
        .DATA_CHANNEL).opened = true ∧
      (bps_open (run configured_state [.bps_open .DATA_CHANNEL, .irq .disconnect])
        .DATA_CHANNEL).1 = - EIO ∧
      (bps_open (run configured_state [.bps_open .DATA_CHANNEL, .irq .disconnect])
        .DATA_CHANNEL).1 ≠ - EBUSY := by
  decide

/-- C2, amended: on a channel whose open flag is set, bps_open fails with -EBUSY when
the device is configured (suspended or not) and with -EIO when it is not configured;
in both cases the driver state (open flag, cursor, slots, submitted transfers) is
unchanged. -/
theorem bps_open_already_open (s : bps_state) (c : chan)
    (h : (s.cdevs c).opened = true) :
    (bps_open s c).1 = (if s.config_set = true then - EBUSY else - EIO) ∧
      ((bps_open s c).2.cdevs c).opened = true ∧
      ((bps_open s c).2.cdevs c).rx_bytes = (s.cdevs c).rx_bytes ∧
      (∀ r, get_ep (bps_open s c).2 r = get_ep s r) ∧
      (bps_open s c).2 = s := by
  have h2 : bps_open s c = (if s.config_set = true then - EBUSY else - EIO, s) := by
    unfold bps_open
    by_cases hc : s.config_set = true <;> simp [hc, h]
  simp [h2, h]

theorem bps_open_already_open_witness :
    (bps_open (set_opened configured_state .CONFIG_CHANNEL true) .CONFIG_CHANNEL).1 = - EBUSY :=
  (bps_open_already_open (set_opened configured_state .CONFIG_CHANNEL true) .CONFIG_CHANNEL
    (by decide)).1

/-- C4 as stated fails: on a configured but suspended device bps_open returns 0 and
sets the open flag, yet the OUT slot is not queued and nothing is handed to the
transport; the same happens when the transport rejects the submission. -/
theorem bps_open_presubmit_counterexample :
    (bps_open (run configured_state [.irq .suspend]) .DATA_CHANNEL).1 = 0 ∧
      (get_ep (bps_open (run configured_state [.irq .suspend]) .DATA_CHANNEL).2
        (.list .BULKOUT1)).queued = false ∧
      (bps_open (run configured_state [.irq .suspend]) .DATA_CHANNEL).2.udc.submitted = [] ∧
      (bps_open { configured_state with udc := { demo_udc with queue_rc := [- 12] } }
        .DATA_CHANNEL).1 = 0 ∧
      (get_ep (bps_open { configured_state with udc := { demo_udc with queue_rc := [- 12] } }
        .DATA_CHANNEL).2 (.list .BULKOUT1)).queued = false := by
  decide

/-- C4, amended: every bps_open that returns 0 leaves the channel's open flag set and
its receive cursor at 0.  If moreover the device is not suspended and the OUT slot was
idle at the call with the transport accepting the submission, the OUT slot is queued
afterwards and exactly one transfer, the OUT request on the channel's OUT endpoint, was
handed to the transport; if the slot was already queued it stays queued and nothing
is submitted; on a suspended device nothing is submitted. -/
theorem bps_open_success (s : bps_state) (c : chan) (h : (bps_open s c).1 = 0) :
    ((bps_open s c).2.cdevs c).opened = true ∧
      ((bps_open s c).2.cdevs c).rx_bytes = 0 ∧
      (s.suspended = false → (get_ep s (.list (p_outep c))).queued = false →
        next_queue_rc s = 0 →
        (get_ep (bps_open s c).2 (.list (p_outep c))).queued = true ∧
        (bps_open s c).2.udc.submitted = s.udc.submitted ++
          [⟨p_outep c, .list (p_outep c), { (out_req s c) with actual := 0 }⟩]) ∧
      (s.suspended = false → (get_ep s (.list (p_outep c))).queued = true →
        (get_ep (bps_open s c).2 (.list (p_outep c))).queued = true ∧
        (bps_open s c).2.udc.submitted = s.udc.submitted) ∧
      (s.suspended = true → (bps_open s c).2.udc.submitted = s.udc.submitted) := by
  have hcfg : s.config_set = true := by
    by_contra hc
    simp [bps_open, hc, EIO] at h
  have hop : (s.cdevs c).opened = false := by
    by_contra ho
    simp [bps_open, hcfg, ho, EBUSY] at h
  refine ⟨?_, ?_, ?_, ?_, ?_⟩
  · unfold bps_open queue_out_request
    by_cases hs : s.suspended = true <;>
      by_cases hq : (get_ep s (.list (p_outep c))).queued = true <;>
      by_cases hrc : next_queue_rc s = 0 <;>
      simp [hcfg, hop, hs, hq, hrc, set_opened, set_rx_bytes, set_req, set_queued,
        get_ep_set_ep]
  · unfold bps_open queue_out_request
    by_cases hs : s.suspended = true <;>
      by_cases hq : (get_ep s (.list (p_outep c))).queued = true <;>
      by_cases hrc : next_queue_rc s = 0 <;>
      simp [hcfg, hop, hs, hq, hrc, set_opened, set_rx_bytes, set_req, set_queued,
        get_ep_set_ep]
  · intro hs hq hrc
    unfold bps_open queue_out_request
    simp [hcfg, hop, hs, hq, hrc, set_opened, set_rx_bytes, set_req, set_queued,
        get_ep_set_ep, submitted_usb_ep_queue, out_req, p_ep_of]
  · intro hs hq
    unfold bps_open queue_out_request
    simp [hcfg, hop, hs, hq, set_opened, set_rx_bytes, set_req, set_queued,
        get_ep_set_ep]
  · intro hs
    unfold bps_open queue_out_request
    simp [hcfg, hop, hs, set_opened, set_rx_bytes, set_req, set_queued,
        get_ep_set_ep]

theorem bps_open_success_witness :
    ((bps_open configured_state .DATA_CHANNEL).2.cdevs .DATA_CHANNEL).opened = true ∧
      ((bps_open configured_state .DATA_CHANNEL).2.cdevs .DATA_CHANNEL).rx_bytes = 0 :=
  ⟨(bps_open_success configured_state .DATA_CHANNEL (by decide)).1,
    (bps_open_success configured_state .DATA_CHANNEL (by decide)).2.1⟩

/-! ## bps_read -/

theorem bps_read_wait_not_ready (n : Nat) (s : bps_state) (c : chan) (nonblock : Bool)
    (evs : List event) (h : s.config_set = false ∨ s.suspended = true) :
    bps_read_wait (n + 1) .restart_read s c nonblock evs = (.returned (- ECOMM), s) := by
  simp [bps_read_wait, h]

theorem bps_read_wait_would_block (n : Nat) (s : bps_state) (c : chan) (evs : List event)
    (hc : s.config_set = true) (hs : s.suspended = false)
    (hq : (get_ep s (.list (p_outep c))).queued = true) :
    bps_read_wait (n + 2) .restart_read s c true evs = (.returned (- EAGAIN), s) := by
  simp [bps_read_wait, hc, hs, hq]

theorem bps_read_wait_ready (n : Nat) (s : bps_state) (c : chan) (nonblock : Bool)
    (evs : List event) (hc : s.config_set = true) (hs : s.suspended = false)
    (hq : (get_ep s (.list (p_outep c))).queued = false)
    (hst : (out_req s c).status = 0)
    (hrx : (s.cdevs c).rx_bytes < (out_req s c).actual ∨ (out_req s c).actual = 0 ∧ (s.cdevs c).rx_bytes = 0) :
    bps_read_wait (n + 2) .restart_read s c nonblock evs = (.returned 0, s) := by
  rcases hrx with hrx | ⟨ha, hr⟩
  · have h1 : ¬ (s.cdevs c).rx_bytes > (out_req s c).actual := by omega
    have h2 : (s.cdevs c).rx_bytes ≠ (out_req s c).actual := by omega
    simp [bps_read_wait, hc, hs, hq, hst, h1, h2]
  · simp [bps_read_wait, hc, hs, hq, hst, ha, hr]

/-- C5: bps_read with a NULL buffer or max_len = 0 returns -EINVAL in every device
state; with a buffer and max_len > 0 on an unconfigured or suspended device it returns
-ECOMM.  In both cases no byte is delivered and the driver state (cursor, slot flags,
submitted transfers) is unchanged, whatever the blocking mode and the events. -/
theorem bps_read_invalid_or_not_ready (s : bps_state) (c : chan) (nonblock : Bool)
    (p_user : user_ptr) (len : Nat) (evs cevs : List event)
    (h : (p_user = .NULL ∨ len = 0) ∨ (s.config_set = false ∨ s.suspended = true)) :
    (bps_read s c nonblock p_user len evs cevs).out =
        .returned (if p_user = .NULL ∨ len = 0 then - EINVAL else - ECOMM) ∧
      (bps_read s c nonblock p_user len evs cevs).data = [] ∧
      (bps_read s c nonblock p_user len evs cevs).st.udc.submitted = s.udc.submitted ∧
      (bps_read s c nonblock p_user len evs cevs).st = s := by
  by_cases hi : p_user = .NULL ∨ len = 0
  · have h2 : bps_read s c nonblock p_user len evs cevs = ⟨.returned (- EINVAL), [], s⟩ := by
      simp [bps_read, hi]
    simp [h2, hi]
  · have hn : s.config_set = false ∨ s.suspended = true := by tauto
    have h2 : bps_read s c nonblock p_user len evs cevs = ⟨.returned (- ECOMM), [], s⟩ := by
      have hf : 3 * evs.length + 3 = (3 * evs.length + 2) + 1 := rfl
      unfold bps_read
      rw [hf, bps_read_wait_not_ready _ s c nonblock evs hn]
      simp [hi, ECOMM]
    simp [h2, hi]

theorem bps_read_invalid_or_not_ready_witness :
    (bps_read bound_state .DATA_CHANNEL false (.addr [0, 0]) 2 [] []).out =
        .returned (- ECOMM) ∧
      (bps_read configured_state .DATA_CHANNEL false (.addr [0, 0]) 0 [] []).out =
        .returned (- EINVAL) :=
  ⟨(bps_read_invalid_or_not_ready bound_state .DATA_CHANNEL false (.addr [0, 0]) 2 [] []
      (Or.inr (Or.inl rfl))).1,
    (bps_read_invalid_or_not_ready configured_state .DATA_CHANNEL false (.addr [0, 0]) 0 []
      [] (Or.inl (Or.inr rfl))).1⟩

/-- C6: a non-blocking bps_read with a buffer and max_len > 0 on a configured,
non-suspended device whose OUT slot is queued returns -EAGAIN at once (no event is
waited for), delivers no byte and leaves the driver state, with the cursor and the
slot's queued flag, unchanged. -/
theorem bps_read_nonblock_queued (s : bps_state) (c : chan) (p_user : user_ptr) (len : Nat)
    (evs cevs : List event) (hp : p_user ≠ .NULL) (hlen : 0 < len)
    (hc : s.config_set = true) (hs : s.suspended = false)
    (hq : (get_ep s (.list (p_outep c))).queued = true) :
    (bps_read s c true p_user len evs cevs).out = .returned (- EAGAIN) ∧
      (bps_read s c true p_user len evs cevs).data = [] ∧
      ((bps_read s c true p_user len evs cevs).st.cdevs c).rx_bytes = (s.cdevs c).rx_bytes ∧
      (get_ep (bps_read s c true p_user len evs cevs).st (.list (p_outep c))).queued = true ∧
      (bps_read s c true p_user len evs cevs).st = s := by
  have h2 : bps_read s c true p_user len evs cevs = ⟨.returned (- EAGAIN), [], s⟩ := by
    have hf : 3 * evs.length + 3 = (3 * evs.length + 1) + 2 := rfl
    have hl : len ≠ 0 := by omega
    unfold bps_read
    rw [hf, bps_read_wait_would_block _ s c evs hc hs hq]
    simp [hp, hl, EAGAIN]
  simp [h2, hq]

theorem bps_read_nonblock_queued_witness :
    (bps_read opened_state .DATA_CHANNEL true (.addr [0, 0]) 2 [] []).out =
      .returned (- EAGAIN) :=
  (bps_read_nonblock_queued opened_state .DATA_CHANNEL (.addr [0, 0]) 2 [] []
    (by decide) (by decide) (by decide) (by decide) (by decide)).1

/-- The copy block of bps_read when the cursor stays below the transfer length and
nothing runs during the copy. -/
theorem bps_read_copy_some (s : bps_state) (c : chan) (p_user : user_ptr) (len : Nat)
    (hbuf : len ≤ p_user.size) (hlt : (s.cdevs c).rx_bytes + len < (out_req s c).actual) :
    bps_read_copy s c p_user len [] =
      ⟨.returned len, ((out_req s c).buf.drop (s.cdevs c).rx_bytes).take len,
        set_rx_bytes s c ((s.cdevs c).rx_bytes + len)⟩ := by
  have h1 : ¬ (s.cdevs c).rx_bytes > (out_req s c).actual := by omega
  have h2 : min len ((out_req s c).actual - (s.cdevs c).rx_bytes) = len := by omega
  have h3 : ¬ (p_user.size < len) := by omega
  have h4 : (s.cdevs c).rx_bytes + len ≠ (out_req s c).actual := by omega
  simp [bps_read_copy, h1, h2, h3, h4, copy_to_user]

/-- The copy block of bps_read when the read takes all the bytes left and nothing runs
during the copy. -/
theorem bps_read_copy_last (s : bps_state) (c : chan) (p_user : user_ptr) (len : Nat)
    (hrx : (s.cdevs c).rx_bytes ≤ (out_req s c).actual)
    (hbuf : (out_req s c).actual - (s.cdevs c).rx_bytes ≤ p_user.size)
    (hge : (out_req s c).actual ≤ (s.cdevs c).rx_bytes + len) :
    bps_read_copy s c p_user len [] =
      ⟨.returned (((out_req s c).actual - (s.cdevs c).rx_bytes : Nat) : Int),
        ((out_req s c).buf.drop (s.cdevs c).rx_bytes).take
          ((out_req s c).actual - (s.cdevs c).rx_bytes),
        (queue_out_request (set_rx_bytes s c (out_req s c).actual) c).2⟩ := by
  have h1 : ¬ (s.cdevs c).rx_bytes > (out_req s c).actual := by omega
  have h2 : min len ((out_req s c).actual - (s.cdevs c).rx_bytes) =
      (out_req s c).actual - (s.cdevs c).rx_bytes := by omega
  have h3 : ¬ (p_user.size < (out_req s c).actual - (s.cdevs c).rx_bytes) := by omega
  have h4 : (s.cdevs c).rx_bytes + ((out_req s c).actual - (s.cdevs c).rx_bytes) =
      (out_req s c).actual := by omega
  simp [bps_read_copy, h1, h2, h3, h4, copy_to_user]

/-- What the copy block of bps_read returns and delivers when the bytes it copies are
accessible in the user buffer, whatever runs during the copy. -/
theorem bps_read_copy_delivered (s : bps_state) (c : chan) (p_user : user_ptr) (len : Nat)
    (cevs : List event) (hrx : (s.cdevs c).rx_bytes ≤ (out_req s c).actual)
    (hbuf : min len ((out_req s c).actual - (s.cdevs c).rx_bytes) ≤ p_user.size) :
    (bps_read_copy s c p_user len cevs).out =
        .returned ((min len ((out_req s c).actual - (s.cdevs c).rx_bytes) : Nat) : Int) ∧
      (bps_read_copy s c p_user len cevs).data =
        ((out_req s c).buf.drop (s.cdevs c).rx_bytes).take
          (min len ((out_req s c).actual - (s.cdevs c).rx_bytes)) := by
  have h1 : ¬ (s.cdevs c).rx_bytes > (out_req s c).actual := by omega
  have h3 : ¬ (p_user.size < min len ((out_req s c).actual - (s.cdevs c).rx_bytes)) := by
    omega
  simp [bps_read_copy, h1, h3, copy_to_user]

/-- What the copy block of bps_read returns and delivers when the copy to the user
faults, whatever runs during the copy. -/
theorem bps_read_copy_fault (s : bps_state) (c : chan) (p_user : user_ptr) (len : Nat)
    (cevs : List event) (hrx : (s.cdevs c).rx_bytes ≤ (out_req s c).actual)
    (hbuf : p_user.size < min len ((out_req s c).actual - (s.cdevs c).rx_bytes)) :
    (bps_read_copy s c p_user len cevs).out = .returned (- EFAULT) ∧
      (bps_read_copy s c p_user len cevs).data = [] := by
  have h1 : ¬ (s.cdevs c).rx_bytes > (out_req s c).actual := by omega
  have h0 : 0 < min len ((out_req s c).actual - (s.cdevs c).rx_bytes) := by omega
  simp [bps_read_copy, h1, hbuf, h0, copy_to_user]

/-- The effect of queue_out_request on an open channel of a configured, running
device whose OUT slot is idle, when the transport accepts the request. -/
theorem queue_out_request_accepted (s : bps_state) (c : chan)
    (hc : s.config_set = true) (hs : s.suspended = false) (ho : (s.cdevs c).opened = true)
    (hq : (get_ep s (.list (p_outep c))).queued = false) (hrc : next_queue_rc s = 0) :
    (queue_out_request s c).1 = 0 ∧
      ((queue_out_request s c).2.cdevs c).rx_bytes = 0 ∧
      (get_ep (queue_out_request s c).2 (.list (p_outep c))).queued = true ∧
      (queue_out_request s c).2.udc.submitted = s.udc.submitted ++
        [⟨p_outep c, .list (p_outep c), { (out_req s c) with actual := 0 }⟩] := by
  unfold queue_out_request
  simp [hc, hs, ho, hq, hrc, set_req, set_queued, set_rx_bytes, get_ep_set_ep,
    submitted_usb_ep_queue, p_ep_of, out_req]

theorem take_drop_getElem? (l : List Nat) (c n k : Nat) (h : k < n) :
    ((l.drop c).take n)[k]? = l[c + k]? := by
  rw [List.getElem?_take_of_lt h, List.getElem?_drop]

theorem user_ptr_ne_null (p_user : user_ptr) (h : 0 < p_user.size) : p_user ≠ .NULL := by
  intro hp
  rw [hp] at h
  simp [user_ptr.size] at h

theorem bps_read_ready (s : bps_state) (c : chan) (nonblock : Bool) (p_user : user_ptr)
    (len : Nat) (evs cevs : List event) (hlen : 0 < len) (hp : p_user ≠ .NULL)
    (hc : s.config_set = true) (hs : s.suspended = false)
    (hq : (get_ep s (.list (p_outep c))).queued = false)
    (hst : (out_req s c).status = 0)
    (hrx : (s.cdevs c).rx_bytes < (out_req s c).actual) :
    bps_read s c nonblock p_user len evs cevs = bps_read_copy s c p_user len cevs := by
  have hf : 3 * evs.length + 3 = (3 * evs.length + 1) + 2 := rfl
  have hl : len ≠ 0 := by omega
  unfold bps_read
  rw [hf, bps_read_wait_ready _ s c nonblock evs hc hs hq hst (Or.inl hrx)]
  simp [hp, hl]

theorem wait_event_interruptible_rest (cond : bps_state → Bool) (evs : List event) :
    ∀ (s s1 : bps_state) (w : wait_result) (rest : List event),
      wait_event_interruptible cond s evs = (w, s1, rest) →
      rest.length ≤ evs.length ∧ (cond s = false → w = .woken → rest.length < evs.length) := by
  induction evs with
  | nil =>
    intro s s1 w rest h
    unfold wait_event_interruptible at h
    by_cases hc : cond s = true
    · simp [hc] at h
      simp [← h.2.2, hc]
    · simp [hc] at h
      refine ⟨by simp [← h.2.2], fun _ hw => ?_⟩
      rw [← h.1] at hw
      exact absurd hw (by decide)
  | cons e r ih =>
    intro s s1 w rest h
    unfold wait_event_interruptible at h
    by_cases hc : cond s = true
    · simp [hc] at h
      simp [← h.2.2, hc]
    · by_cases he : e = .signal
      · simp [hc, he] at h
        refine ⟨by simp [← h.2.2], fun _ hw => ?_⟩
        rw [← h.1] at hw
        exact absurd hw (by decide)
      · simp [hc, he] at h
        have h2 := ih _ _ _ _ h
        refine ⟨by simp; omega, fun _ _ => by simp; omega⟩

theorem queue_out_request_ok_queued (s : bps_state) (c : chan)
    (h : (queue_out_request s c).1 = 0) :
    (get_ep (queue_out_request s c).2 (.list (p_outep c))).queued = true := by
  by_cases h1 : s.config_set = false ∨ s.suspended = true ∨ (s.cdevs c).opened = false
  · simp [queue_out_request, h1, EINVAL] at h
  · cases h2 : (get_ep s (.list (p_outep c))).queued
    · by_cases hrc : next_queue_rc s = 0
      · simp [queue_out_request, h1, h2, hrc, set_rx_bytes, set_req, set_queued]
      · simp [queue_out_request, h1, h2, hrc, set_rx_bytes, set_req, EIO] at h
    · simp [queue_out_request, h1, h2]

/-- The number of label visits bps_read can still make. -/
theorem bps_read_wait_fuel (c : chan) (nonblock : Bool) (n : Nat) :
    ∀ (m : Nat) (l : read_label) (s : bps_state) (evs : List event),
      3 * evs.length + (match l with
        | .restart_read => 3
        | .check_queued_request =>
          if (get_ep s (.list (p_outep c))).queued = true then 1 else 2) ≤ n →
      3 * evs.length + (match l with
        | .restart_read => 3
        | .check_queued_request =>
          if (get_ep s (.list (p_outep c))).queued = true then 1 else 2) ≤ m →
      bps_read_wait n l s c nonblock evs = bps_read_wait m l s c nonblock evs := by
  induction n with
  | zero =>
    intro m l s evs hn
    cases l <;> simp only [] at hn
    · omega
    · split_ifs at hn <;> omega
  | succ n ih =>
    intro m l s evs hn hm
    cases m with
    | zero =>
      cases l <;> simp only [] at hm
      · omega
      · split_ifs at hm <;> omega
    | succ m =>
      cases l with
      | restart_read =>
        simp only [] at hn hm
        unfold bps_read_wait
        split_ifs
        · rfl
        · apply ih
          · simp only []; split_ifs <;> omega
          · simp only []; split_ifs <;> omega
      | check_queued_request =>
        cases hq : (get_ep s (.list (p_outep c))).queued
        · simp only [hq, Bool.false_eq_true, if_false] at hn hm
          rw [bps_read_wait, bps_read_wait]
          simp only [ep_list_eq_get_ep, hq, Bool.false_eq_true, if_false]
          have key : (queue_out_request s c).1 = 0 →
              bps_read_wait n .check_queued_request (queue_out_request s c).2 c nonblock evs =
                bps_read_wait m .check_queued_request (queue_out_request s c).2 c nonblock
                  evs := by
            intro hrc0
            have hq1 := queue_out_request_ok_queued s c hrc0
            apply ih
            · simp only [hq1, if_true]; omega
            · simp only [hq1, if_true]; omega
          split_ifs with h1 h2 h3
          · rfl
          · rfl
          · exact key (by simpa using h3)
          · rfl
        · simp only [hq, if_true] at hn hm
          rw [bps_read_wait, bps_read_wait]
          simp only [ep_list_eq_get_ep, hq, if_true]
          rcases hw : wait_event_interruptible
            (fun t => !(get_ep t (.list (p_outep c))).queued) s evs with ⟨w, s1, rest⟩
          have hr := (wait_event_interruptible_rest _ evs s s1 w rest hw).2 (by simp [hq])
          cases w with
          | asleep => rfl
          | interrupted => rfl
          | woken =>
            have hlt := hr rfl
            simp only []
            split_ifs
            · rfl
            · apply ih
              · simp only []; omega
              · simp only []; omega
            · rfl

/-- The result of bps_read does not depend on the bound given to its loops, once
the bound is at least the one bps_read passes. -/
theorem bps_read_wait_enough (s : bps_state) (c : chan) (nonblock : Bool) (evs : List event)
    (n : Nat) (h : 3 * evs.length + 3 ≤ n) :
    bps_read_wait n .restart_read s c nonblock evs =
      bps_read_wait (3 * evs.length + 3) .restart_read s c nonblock evs :=
  bps_read_wait_fuel c nonblock n (3 * evs.length + 3) .restart_read s evs h (Nat.le_refl _)

theorem wait_event_interruptible_woken (cond : bps_state → Bool) (evs : List event) :
    ∀ (s s1 : bps_state) (rest : List event),
      wait_event_interruptible cond s evs = (.woken, s1, rest) → cond s1 = true := by
  induction evs with
  | nil =>
    intro s s1 rest h
    unfold wait_event_interruptible at h
    by_cases hc : cond s = true
    · simp [hc] at h
      rw [← h.1]; exact hc
    · simp [hc] at h
  | cons e r ih =>
    intro s s1 rest h
    unfold wait_event_interruptible at h
    by_cases hc : cond s = true
    · simp [hc] at h
      rw [← h.1]; exact hc
    · by_cases he : e = .signal
      · simp [hc, he] at h
      · simp [hc, he] at h
        exact ih _ _ _ h

/-- When bps_read reaches its copy block, the OUT slot is idle. -/
theorem bps_read_wait_idle (c : chan) (nonblock : Bool) (s1 : bps_state) (fuel : Nat) :
    ∀ (l : read_label) (s : bps_state) (evs : List event),
      bps_read_wait fuel l s c nonblock evs = (.returned 0, s1) →
      (get_ep s1 (.list (p_outep c))).queued = false := by
  induction fuel with
  | zero =>
    intro l s evs h
    simp [bps_read_wait] at h
  | succ n ih =>
    intro l s evs h
    cases l with
    | restart_read =>
      rw [bps_read_wait] at h
      split_ifs at h
      · simp [ECOMM] at h
      · exact ih _ _ _ h
    | check_queued_request =>
      rw [bps_read_wait] at h
      cases hq : (get_ep s (.list (p_outep c))).queued
      · simp only [ep_list_eq_get_ep, hq, Bool.false_eq_true, if_false] at h
        split_ifs at h
        · simp at h
        · simp [ EIO] at h
        · exact ih _ _ _ h
        · simp at h
          rw [← h]; exact hq
      · simp only [ep_list_eq_get_ep, hq, if_true] at h
        rcases hw : wait_event_interruptible
          (fun t => !(get_ep t (.list (p_outep c))).queued) s evs with ⟨w, s2, rest⟩
        rw [hw] at h
        cases w with
        | asleep => split_ifs at h <;> simp [EAGAIN] at h
        | interrupted => split_ifs at h <;> simp [EAGAIN, EINTR] at h
        | woken =>
          have hc := wait_event_interruptible_woken _ evs s s2 rest hw
          simp only [] at h
          split_ifs at h
          · simp [EAGAIN] at h
          · exact ih _ _ _ h
          · simp at h
            rw [← h]
            simpa using hc

theorem bps_read_of_wait (s : bps_state) (c : chan) (nonblock : Bool) (p_user : user_ptr)
    (len : Nat) (evs cevs : List event) (s1 : bps_state)
    (hw : bps_read_wait (3 * evs.length + 3) .restart_read s c nonblock evs = (.returned 0, s1))
    (hlen : 0 < len) (hp : p_user ≠ .NULL) :
    bps_read s c nonblock p_user len evs cevs = bps_read_copy s1 c p_user len cevs := by
  have hl : len ≠ 0 := by omega
  unfold bps_read
  rw [hw]
  simp [hp, hl]

/-- What a bps_read that reaches its copy block does when the bytes it copies are
accessible in the user buffer and nothing runs during the copy; `s1` is the driver
state in which the copy block is entered.  If the read takes all the bytes left while
the channel is open, the device configured and not suspended and the transport accepts
the submission, the call returns the number of bytes copied, the cursor is 0
afterwards, the OUT slot is queued again and exactly that one request was handed to the
transport.  If the read leaves bytes undelivered, it returns max_len, advances the
cursor and submits nothing: the OUT slot stays idle. -/
theorem bps_read_exhausting_resubmits (s : bps_state) (c : chan) (nonblock : Bool)
    (p_user : user_ptr) (len : Nat) (evs : List event) (s1 : bps_state)
    (hw : bps_read_wait (3 * evs.length + 3) .restart_read s c nonblock evs = (.returned 0, s1))
    (hlen : 0 < len) (hp : p_user ≠ .NULL)
    (hbuf : min len ((out_req s1 c).actual - (s1.cdevs c).rx_bytes) ≤ p_user.size)
    (hrx : (s1.cdevs c).rx_bytes ≤ (out_req s1 c).actual) :
    ((out_req s1 c).actual ≤ (s1.cdevs c).rx_bytes + len → (s1.cdevs c).opened = true →
        s1.config_set = true → s1.suspended = false → next_queue_rc s1 = 0 →
        (bps_read s c nonblock p_user len evs []).out =
          .returned (((out_req s1 c).actual - (s1.cdevs c).rx_bytes : Nat) : Int) ∧
        (bps_read s c nonblock p_user len evs []).data =
          ((out_req s1 c).buf.drop (s1.cdevs c).rx_bytes).take
            ((out_req s1 c).actual - (s1.cdevs c).rx_bytes) ∧
        ((bps_read s c nonblock p_user len evs []).st.cdevs c).rx_bytes = 0 ∧
        (get_ep (bps_read s c nonblock p_user len evs []).st (.list (p_outep c))).queued =
          true ∧
        (bps_read s c nonblock p_user len evs []).st.udc.submitted = s1.udc.submitted ++
          [⟨p_outep c, .list (p_outep c), { (out_req s1 c) with actual := 0 }⟩]) ∧
      ((s1.cdevs c).rx_bytes + len < (out_req s1 c).actual →
        (bps_read s c nonblock p_user len evs []).out = .returned (len : Int) ∧
        (bps_read s c nonblock p_user len evs []).data =
          ((out_req s1 c).buf.drop (s1.cdevs c).rx_bytes).take len ∧
        ((bps_read s c nonblock p_user len evs []).st.cdevs c).rx_bytes =
          (s1.cdevs c).rx_bytes + len ∧
        (get_ep (bps_read s c nonblock p_user len evs []).st (.list (p_outep c))).queued =
          false ∧
        (bps_read s c nonblock p_user len evs []).st.udc.submitted = s1.udc.submitted) := by
  have hq := bps_read_wait_idle c nonblock s1 _ _ s evs hw
  rw [bps_read_of_wait s c nonblock p_user len evs [] s1 hw hlen hp]
  constructor
  · intro hge ho hc hs hrc
    rw [bps_read_copy_last s1 c p_user len hrx (by omega) hge]
    have hqa := queue_out_request_accepted (set_rx_bytes s1 c (out_req s1 c).actual) c
      (by simpa using hc) (by simpa using hs) (by simpa using ho) (by simpa using hq)
      (by simpa [next_queue_rc] using hrc)
    refine ⟨rfl, rfl, hqa.2.1, hqa.2.2.1, ?_⟩
    simpa using hqa.2.2.2
  · intro hlt
    rw [bps_read_copy_some s1 c p_user len (by omega) hlt]
    simp [hq]

/-- C8 (code bug): five bytes are pending on the idle OUT slot of the open DATA channel
(device configured and running, transport accepting) and bps_read is called with
max_len 5 and a buffer of which two bytes are accessible.  The copy faults: the call
returns -EFAULT and delivers no byte, so all five bytes are left undelivered.  Yet the
cursor was advanced over them and reached the transfer's length, so the call submitted
the OUT request again: afterwards the cursor is 0, the OUT slot is queued and one more
transfer was handed to the transport. -/
theorem bps_read_fault_resubmits :
    (received_state.cdevs .DATA_CHANNEL).opened = true ∧
      received_state.config_set = true ∧ received_state.suspended = false ∧
      next_queue_rc received_state = 0 ∧
      (get_ep received_state (.list .BULKOUT1)).queued = false ∧
      (out_req received_state .DATA_CHANNEL).actual = 5 ∧
      (received_state.cdevs .DATA_CHANNEL).rx_bytes = 0 ∧
      (bps_read received_state .DATA_CHANNEL false (.addr [0, 0]) 5 [] []).out =
        .returned (- EFAULT) ∧
      (bps_read received_state .DATA_CHANNEL false (.addr [0, 0]) 5 [] []).data = [] ∧
      ((bps_read received_state .DATA_CHANNEL false (.addr [0, 0]) 5 [] []).st.cdevs
        .DATA_CHANNEL).rx_bytes = 0 ∧
      (get_ep (bps_read received_state .DATA_CHANNEL false (.addr [0, 0]) 5 [] []).st
        (.list .BULKOUT1)).queued = true ∧
      (out_req (bps_read received_state .DATA_CHANNEL false (.addr [0, 0]) 5 [] []).st
        .DATA_CHANNEL).actual = 0 ∧
      (bps_read received_state .DATA_CHANNEL false (.addr [0, 0]) 5 [] []).st.udc.submitted.length =
        received_state.udc.submitted.length + 1 := by
  decide

/-- Reads of one completed transfer, started at any cursor: the reads up to the one
that exhausts the transfer return the bytes left, in order. -/
theorem read_calls_from_cursor (c : chan) (ks : List read_call) :
    ∀ s : bps_state, ks ≠ [] →
      (∀ k ∈ ks, 0 < k.len ∧ k.cevs = []) →
      buffers_hold ((out_req s c).actual - (s.cdevs c).rx_bytes) ks →
      s.config_set = true → s.suspended = false →
      (get_ep s (.list (p_outep c))).queued = false →
      (out_req s c).status = 0 →
      (s.cdevs c).rx_bytes + (ks.dropLast.map (fun k => k.len)).sum < (out_req s c).actual →
      (out_req s c).actual ≤ (s.cdevs c).rx_bytes + (ks.map (fun k => k.len)).sum →
      ((read_calls s c ks).map (fun r => r.data)).flatten =
          ((out_req s c).buf.drop (s.cdevs c).rx_bytes).take
            ((out_req s c).actual - (s.cdevs c).rx_bytes) ∧
        (∃ ns : List Nat, (read_calls s c ks).map (fun r => r.out) =
            ns.map (fun (n : Nat) => outcome.returned (n : Int)) ∧
          ns.sum = (out_req s c).actual - (s.cdevs c).rx_bytes) := by
  induction ks with
  | nil => intro s h; exact absurd rfl h
  | cons k ks ih =>
    intro s _ hk hb hc hs hq hst hlo hhi
    have hk0 := hk k (List.mem_cons_self _ _)
    obtain ⟨hb1, hb2⟩ := hb
    have hce : k.cevs = [] := hk0.2
    by_cases hnil : ks = []
    · subst hnil
      simp only [List.dropLast_single, List.map_nil, List.sum_nil, Nat.add_zero] at hlo
      simp only [List.map_cons, List.map_nil, List.sum_cons, List.sum_nil, Nat.add_zero] at hhi
      have hp : k.p_user ≠ .NULL := user_ptr_ne_null _ (by omega)
      have hr := bps_read_ready s c k.nonblock k.p_user k.len k.evs [] hk0.1 hp hc hs hq hst
        hlo
      have hcp := bps_read_copy_last s c k.p_user k.len (by omega) (by omega) hhi
      simp only [read_calls, List.map_cons, List.map_nil, List.flatten_cons, List.flatten_nil,
        List.append_nil, hce, hr, hcp]
      refine ⟨by simp, [(out_req s c).actual - (s.cdevs c).rx_bytes], by simp, by simp⟩
    · have hdl : (k :: ks).dropLast = k :: ks.dropLast := by
        cases ks with
        | nil => exact absurd rfl hnil
        | cons a t => rfl
      rw [hdl] at hlo
      simp only [List.map_cons, List.sum_cons] at hlo hhi
      have hlt : (s.cdevs c).rx_bytes + k.len < (out_req s c).actual := by omega
      have hp : k.p_user ≠ .NULL := user_ptr_ne_null _ (by omega)
      have hr := bps_read_ready s c k.nonblock k.p_user k.len k.evs [] hk0.1 hp hc hs hq hst
        (by omega)
      have hcp := bps_read_copy_some s c k.p_user k.len (by omega) hlt
      have ih2 := ih (set_rx_bytes s c ((s.cdevs c).rx_bytes + k.len)) hnil
        (fun x hx => hk x (List.mem_cons_of_mem _ hx))
        (by rw [out_req_set_rx_bytes, rx_bytes_set_rx_bytes, ← Nat.sub_sub]; exact hb2)
        (by simpa using hc) (by simpa using hs) (by simpa using hq) (by simpa using hst)
        (by rw [out_req_set_rx_bytes, rx_bytes_set_rx_bytes]; omega)
        (by rw [out_req_set_rx_bytes, rx_bytes_set_rx_bytes]; omega)
      simp only [out_req_set_rx_bytes, rx_bytes_set_rx_bytes] at ih2
      obtain ⟨hdata, ns, hns, hsum⟩ := ih2
      simp only [read_calls, List.map_cons, List.flatten_cons, hce, hr, hcp, hdata]
      constructor
      · have hsplit : (out_req s c).actual - (s.cdevs c).rx_bytes =
            k.len + ((out_req s c).actual - ((s.cdevs c).rx_bytes + k.len)) := by omega
        rw [hsplit, List.take_add, List.drop_drop]
      · refine ⟨k.len :: ns, ?_, ?_⟩
        · simp [hns]
        · simp [hsum]; omega

/-- C10: a non-blocking bps_write returns -EINVAL when the buffer is NULL or len = 0
and -EWOULDBLOCK otherwise, in every device state and whether the IN slot is busy or
idle; it submits no transfer and leaves the driver state unchanged. -/
theorem bps_write_nonblock (s : bps_state) (c : chan) (p_user : user_ptr) (len : Nat)
    (evs : List event) :
    (bps_write s c true p_user len evs).1 =
        .returned (if p_user = .NULL ∨ len = 0 then - EINVAL else - EWOULDBLOCK) ∧
      (bps_write s c true p_user len evs).2.udc.submitted = s.udc.submitted ∧
      (∀ r, get_ep (bps_write s c true p_user len evs).2 r = get_ep s r) ∧
      (bps_write s c true p_user len evs).2 = s := by
  have h : bps_write s c true p_user len evs =
      (.returned (if p_user = .NULL ∨ len = 0 then - EINVAL else - EWOULDBLOCK), s) := by
    unfold bps_write bps_write_impl
    by_cases hi : p_user = .NULL ∨ len = 0 <;> simp [hi]
  simp [h]

/-! ## More field lemmas -/

theorem get_ep_data_err (s : bps_state) : s.data_err_ep = get_ep s .data_err := rfl

@[simp] theorem get_ep_set_queued_same (s : bps_state) (r : bps_ep_ref) (q : Bool) :
    get_ep (set_queued s r q) r = { get_ep s r with queued := q } := by
  simp [set_queued]

theorem get_ep_set_queued_other (s : bps_state) (r r2 : bps_ep_ref) (q : Bool) (h : r2 ≠ r) :
    get_ep (set_queued s r q) r2 = get_ep s r2 := by
  simp [set_queued, get_ep_set_ep_other _ _ _ _ h]

@[simp] theorem udc_set_queued (s : bps_state) (r : bps_ep_ref) (q : Bool) :
    (set_queued s r q).udc = s.udc := by
  simp [set_queued]

@[simp] theorem config_set_set_queued (s : bps_state) (r : bps_ep_ref) (q : Bool) :
    (set_queued s r q).config_set = s.config_set := by
  simp [set_queued]

@[simp] theorem suspended_set_queued (s : bps_state) (r : bps_ep_ref) (q : Bool) :
    (set_queued s r q).suspended = s.suspended := by
  simp [set_queued]

@[simp] theorem get_ep_set_req_same (s : bps_state) (r : bps_ep_ref) (q : usb_request) :
    get_ep (set_req s r q) r = { get_ep s r with p_req := q } := by
  simp [set_req]

theorem get_ep_set_req_other (s : bps_state) (r r2 : bps_ep_ref) (q : usb_request)
    (h : r2 ≠ r) : get_ep (set_req s r q) r2 = get_ep s r2 := by
  simp [set_req, get_ep_set_ep_other _ _ _ _ h]

@[simp] theorem udc_set_req (s : bps_state) (r : bps_ep_ref) (q : usb_request) :
    (set_req s r q).udc = s.udc := by
  simp [set_req]

@[simp] theorem config_set_set_req (s : bps_state) (r : bps_ep_ref) (q : usb_request) :
    (set_req s r q).config_set = s.config_set := by
  simp [set_req]

@[simp] theorem suspended_set_req (s : bps_state) (r : bps_ep_ref) (q : usb_request) :
    (set_req s r q).suspended = s.suspended := by
  simp [set_req]

theorem udc_usb_ep_queue (s : bps_state) (r : bps_ep_ref) :
    (usb_ep_queue s r).2.udc = { s.udc with
      queue_rc := s.udc.queue_rc.tail
      submitted := if next_queue_rc s = 0 then
          s.udc.submitted ++ [⟨p_ep_of r, r, (get_ep s r).p_req⟩]
        else s.udc.submitted } := by
  by_cases h : next_queue_rc s = 0 <;> simp [usb_ep_queue, h]

/-! ## One round of the write loop -/

theorem wait_event_of_cond (cond : bps_state → Bool) (s : bps_state) (evs : List event)
    (h : cond s = true) : wait_event cond s evs = (true, s, evs) := by
  cases evs <;> simp [wait_event, h]

theorem has_req_in (c : chan) : has_req (.list (p_inep c)) = true := by
  cases c <;> rfl

/-- The bulk IN slot of a channel is completed: the handler only clears the flag. -/
theorem complete_request_in (s : bps_state) (c : chan) (status : Int) (actual : Nat)
    (data : List Nat) (hq : (get_ep s (.list (p_inep c))).queued = true) :
    complete_request s (.list (p_inep c)) status actual data =
      set_queued (set_req s (.list (p_inep c))
        { (get_ep s (.list (p_inep c))).p_req with status := status, actual := actual })
        (.list (p_inep c)) false := by
  cases c <;>
    simp [complete_request, has_req, p_inep, hq, give_back, bulk_urb_complete] at hq ⊢

theorem is_write_channel_busy_eq (s : bps_state) (c : chan) :
    is_write_channel_busy s c =
      ((get_ep s (.list (p_inep c))).queued ||
        (decide ((s.cdevs c).channel = .DATA_CHANNEL) && (get_ep s .data_err).queued)) := by
  unfold is_write_channel_busy
  by_cases h : (s.cdevs c).channel = .DATA_CHANNEL <;> simp [h, get_ep_data_err]

@[simp] theorem channel_set_queued (s : bps_state) (r : bps_ep_ref) (q : Bool) (c : chan) :
    ((set_queued s r q).cdevs c).channel = (s.cdevs c).channel := by
  simp [set_queued]

@[simp] theorem channel_set_req (s : bps_state) (r : bps_ep_ref) (q : usb_request) (c : chan) :
    ((set_req s r q).cdevs c).channel = (s.cdevs c).channel := by
  simp [set_req]

@[simp] theorem channel_usb_ep_queue (s : bps_state) (r : bps_ep_ref) (c : chan) :
    (((usb_ep_queue s r).2).cdevs c).channel = (s.cdevs c).channel := by
  simp

@[simp] theorem next_queue_rc_set_req (s : bps_state) (r : bps_ep_ref) (q : usb_request) :
    next_queue_rc (set_req s r q) = next_queue_rc s := by
  simp [set_req]

@[simp] theorem next_queue_rc_set_queued (s : bps_state) (r : bps_ep_ref) (q : Bool) :
    next_queue_rc (set_queued s r q) = next_queue_rc s := by
  simp [set_queued]

theorem set_ep_set_ep (s : bps_state) (r : bps_ep_ref) (a b : bps_ep) :
    set_ep (set_ep s r a) r b = set_ep s r b := by
  cases r <;> simp [set_ep]

@[simp] theorem set_req_set_req (s : bps_state) (r : bps_ep_ref) (a b : usb_request) :
    set_req (set_req s r a) r b = set_req s r b := by
  simp [set_req, set_ep_set_ep]

theorem in_ne_data_err (c : chan) : bps_ep_ref.data_err ≠ .list (p_inep c) := by
  intro h; cases h

/-- One round of the write loop of bps_write when the transport accepts the chunk and
the next event is the completion of that chunk. -/
theorem bps_write_round (fuel : Nat) (s : bps_state) (c : chan) (p_user : user_ptr)
    (len : Nat) (retval : Int) (status : Int) (actual : Nat) (data : List Nat)
    (rest : List event) (bytes : List Nat) (hlen : len ≠ 0)
    (hcopy : copy_from_user p_user
      (min (get_ep s (.list (p_inep c))).urb_buffer_size len) = some bytes)
    (hc : s.config_set = true) (hs : s.suspended = false) (hrc : next_queue_rc s = 0)
    (hidle : (s.cdevs c).channel = .DATA_CHANNEL → (get_ep s .data_err).queued = false) :
    ∃ s4 : bps_state,
      bps_write_loop (fuel + 1) s c p_user len retval (.list (p_inep c))
          (.complete (.list (p_inep c)) status actual data :: rest) =
        (if status = 0 then
          bps_write_loop fuel s4 c (p_user.add actual) (size_t_sub len actual)
            (ssize_t_add retval actual) (.list (p_inep c)) rest
        else (.returned (- EIO), s4)) ∧
      s4.config_set = true ∧ s4.suspended = false ∧
      s4.udc.queue_rc = s.udc.queue_rc.tail ∧
      s4.udc.submitted = s.udc.submitted ++
        [⟨p_inep c, .list (p_inep c), { (get_ep s (.list (p_inep c))).p_req with
          buf := bytes ++ (get_ep s (.list (p_inep c))).p_req.buf.drop bytes.length
          length := min (get_ep s (.list (p_inep c))).urb_buffer_size len }⟩] ∧
      (get_ep s4 (.list (p_inep c))).urb_buffer_size =
        (get_ep s (.list (p_inep c))).urb_buffer_size ∧
      (get_ep s4 (.list (p_inep c))).queued = false ∧
      (s4.cdevs c).channel = (s.cdevs c).channel ∧
      get_ep s4 .data_err = get_ep s .data_err := by
  -- the state when the caller goes to sleep
  let q2 : usb_request := { (get_ep s (.list (p_inep c))).p_req with
    buf := bytes ++ (get_ep s (.list (p_inep c))).p_req.buf.drop bytes.length
    length := min (get_ep s (.list (p_inep c))).urb_buffer_size len }
  let s3 := set_queued (usb_ep_queue (set_req s (.list (p_inep c)) q2) (.list (p_inep c))).2
    (.list (p_inep c)) true
  let s4 := set_queued (set_req s3 (.list (p_inep c))
    { (get_ep s3 (.list (p_inep c))).p_req with status := status, actual := actual })
    (.list (p_inep c)) false
  have hq3 : (get_ep s3 (.list (p_inep c))).queued = true := by simp [s3]
  have hbusy3 : is_write_channel_busy s3 c = true := by
    rw [is_write_channel_busy_eq, hq3]; rfl
  have hd4 : get_ep s4 .data_err = get_ep s .data_err := by
    simp [s4, s3, get_ep_set_queued_other _ _ _ _ (in_ne_data_err c),
      get_ep_set_req_other _ _ _ _ (in_ne_data_err c)]
  have hch4 : (s4.cdevs c).channel = (s.cdevs c).channel := by simp [s4, s3]
  have hbusy4 : is_write_channel_busy s4 c = false := by
    rw [is_write_channel_busy_eq, hd4, hch4]
    by_cases hch : (s.cdevs c).channel = .DATA_CHANNEL
    · simp [hch, hidle hch, s4]
    · simp [hch, s4]
  have hwait : wait_event (fun t => !is_write_channel_busy t c) s3
      (.complete (.list (p_inep c)) status actual data :: rest) = (true, s4, rest) := by
    rw [wait_event]
    simp only [hbusy3, Bool.not_true, Bool.false_eq_true, if_false, deliver]
    rw [complete_request_in s3 c status actual data hq3]
    exact wait_event_of_cond _ _ _ (by simp [hbusy4])
  refine ⟨s4, ?_, ?_, ?_, ?_, ?_, ?_, ?_, hch4, hd4⟩
  · rw [bps_write_loop]
    simp only [hlen, if_false, hcopy, config_set_set_req, suspended_set_req, hc, hs,
      Bool.true_eq_false, or_self, get_ep_set_req_same]
    simp only [set_req_set_req]
    have hrc2 : (usb_ep_queue (set_req s (.list (p_inep c)) q2) (.list (p_inep c))).1 = 0 := by
      simp [hrc]
    have hst4 : (get_ep s4 (.list (p_inep c))).p_req.status = status := by simp [s4]
    have hac4 : (get_ep s4 (.list (p_inep c))).p_req.actual = actual := by simp [s4]
    simp only [false_or, Bool.false_eq_true, if_false]
    show (if (usb_ep_queue (set_req s (.list (p_inep c)) q2) (.list (p_inep c))).1 ≠ 0 then _
      else (match wait_event (fun t => !is_write_channel_busy t c) s3
        (.complete (.list (p_inep c)) status actual data :: rest) with
        | (false, s4, _) => (outcome.asleep, s4)
        | (true, s4, rest) => _)) = _
    rw [hwait]
    simp only [hrc2, ne_eq, not_true_eq_false, if_false, hst4, hac4]
  all_goals (simp [s4, s3, udc_usb_ep_queue, hrc, hc, hs, p_ep_of, q2])

theorem size_t_sub_le (a b : Nat) (hb : b ≤ a) (ha : a < 2 ^ 32) : size_t_sub a b = a - b := by
  unfold size_t_sub
  have h32 : (2 : Nat) ^ 32 = 4294967296 := by norm_num
  rw [h32] at ha ⊢
  omega

theorem ssize_t_add_small (a : Int) (b : Nat) (h0 : 0 ≤ a) (h : a + b < 2 ^ 31) :
    ssize_t_add a b = a + b := by
  unfold ssize_t_add
  have h31 : (2 : Int) ^ 31 = 2147483648 := by norm_num
  have h32 : (2 : Int) ^ 32 = 4294967296 := by norm_num
  rw [h31] at h ⊢
  rw [h32]
  omega

theorem next_queue_rc_accepting (s : bps_state) (h : ∀ rc ∈ s.udc.queue_rc, rc = 0) :
    next_queue_rc s = 0 := by
  unfold next_queue_rc
  cases hq : s.udc.queue_rc with
  | nil => rfl
  | cons a l => exact h a (by rw [hq]; exact List.mem_cons_self _ _)

theorem carve_length (cap : Nat) (hcap : 1 ≤ cap) (f : Nat) :
    ∀ n, n ≤ f → (carve f cap n).length = (n + cap - 1) / cap := by
  induction f with
  | zero =>
    intro n hn
    have : n = 0 := by omega
    subst this
    have h2 : (cap - 1) / cap = 0 := Nat.div_eq_of_lt (by omega)
    simp [carve, h2]
  | succ f ih =>
    intro n hn
    by_cases h0 : n = 0
    · subst h0
      have h2 : (cap - 1) / cap = 0 := Nat.div_eq_of_lt (by omega)
      simp [carve, h2]
    · rw [carve]
      simp only [h0, if_false, List.length_cons]
      rw [ih _ (by omega)]
      by_cases hle : n ≤ cap
      · have h1 : min cap n = n := by omega
        rw [h1, Nat.sub_self]
        have h2 : (0 + cap - 1) / cap = 0 := Nat.div_eq_of_lt (by omega)
        have h3 : (n + cap - 1) / cap = 1 := by
          apply Nat.div_eq_of_lt_le <;> simp <;> omega
        rw [h2, h3]
      · have h1 : min cap n = cap := by omega
        rw [h1]
        have h2 : n + cap - 1 = (n - cap + cap - 1) + cap := by omega
        rw [h2, Nat.add_div_right _ (by omega : 0 < cap)]

theorem carve_getElem (cap : Nat) (hcap : 1 ≤ cap) (f : Nat) :
    ∀ n, n ≤ f → ∀ k (h : k < (carve f cap n).length),
      (carve f cap n)[k] = min (n - k * cap) cap := by
  induction f with
  | zero =>
    intro n hn k h
    simp [carve] at h
  | succ f ih =>
    intro n hn k h
    by_cases h0 : n = 0
    · subst h0
      simp [carve] at h
    · have hc : carve (f + 1) cap n = min cap n :: carve f cap (n - min cap n) := by
        rw [carve]; simp [h0]
      simp only [hc] at h ⊢
      cases k with
      | zero => simp [Nat.min_comm]
      | succ k =>
        simp only [List.getElem_cons_succ]
        rw [ih _ (by omega)]
        by_cases hle : n ≤ cap
        · have h1 : min cap n = n := by omega
          simp only [h1, Nat.sub_self, List.length_cons] at h
          rw [carve_length cap hcap f 0 (by omega)] at h
          have h2 : (0 + cap - 1) / cap = 0 := Nat.div_eq_of_lt (by omega)
          omega
        · have h1 : min cap n = cap := by omega
          rw [h1, Nat.succ_mul]
          congr 1
          omega

theorem carve_sum (cap : Nat) (hcap : 1 ≤ cap) (f : Nat) :
    ∀ n, n ≤ f → (carve f cap n).sum = n := by
  induction f with
  | zero =>
    intro n hn
    have : n = 0 := by omega
    subst this
    simp [carve]
  | succ f ih =>
    intro n hn
    by_cases h0 : n = 0
    · subst h0
      simp [carve]
    · rw [carve]
      simp only [h0, if_false, List.sum_cons]
      rw [ih _ (by omega)]
      omega

/-- The whole write loop of bps_write when the transport accepts every chunk and each
chunk completes cleanly with its full length. -/
theorem bps_write_loop_all (c : chan) (cap : Nat) (hcap : 1 ≤ cap) (f : Nat) :
    ∀ (fuel : Nat) (s : bps_state) (mem : List Nat) (len : Nat) (retval : Int)
      (rest : List event),
      len ≤ f → (carve f cap len).length + 1 ≤ fuel →
      len ≤ mem.length → 0 ≤ retval → retval + len < 2 ^ 31 →
      (get_ep s (.list (p_inep c))).urb_buffer_size = cap →
      s.config_set = true → s.suspended = false → (∀ rc ∈ s.udc.queue_rc, rc = 0) →
      ((s.cdevs c).channel = .DATA_CHANNEL → (get_ep s .data_err).queued = false) →
      ∃ s2 : bps_state,
        bps_write_loop fuel s c (.addr mem) len retval (.list (p_inep c))
          ((carve f cap len).map (fun m => event.complete (.list (p_inep c)) 0 m []) ++ rest) =
            (.returned (retval + len), s2) ∧
        ∃ xs : List usb_xfer, s2.udc.submitted = s.udc.submitted ++ xs ∧
          xs.map (fun x => x.req.length) = carve f cap len ∧
          (∀ x ∈ xs, x.ep = p_inep c ∧ x.slot = .list (p_inep c)) ∧
          (xs.map (fun x => x.req.buf.take x.req.length)).flatten = mem.take len := by
  induction f with
  | zero =>
    intro fuel s mem len retval rest hlf hfuel _ _ _ _ _ _ _ _
    have h0 : len = 0 := by omega
    subst h0
    obtain ⟨fuel, rfl⟩ : ∃ k, fuel = k + 1 := ⟨fuel - 1, by omega⟩
    refine ⟨s, ?_, [], ?_, ?_, ?_, ?_⟩ <;> simp [bps_write_loop, carve]
  | succ f ih =>
    intro fuel s mem len retval rest hlf hfuel hmem hr0 hr hcap_eq hc hs hacc hidle
    by_cases h0 : len = 0
    · subst h0
      obtain ⟨fuel, rfl⟩ : ∃ k, fuel = k + 1 := ⟨fuel - 1, by omega⟩
      refine ⟨s, ?_, [], ?_, ?_, ?_, ?_⟩ <;> simp [bps_write_loop, carve]
    · have hcv : carve (f + 1) cap len = min cap len :: carve f cap (len - min cap len) := by
        rw [carve]; simp [h0]
      rw [hcv] at hfuel ⊢
      simp only [List.length_cons] at hfuel
      obtain ⟨fuel, rfl⟩ : ∃ k, fuel = k + 1 := ⟨fuel - 1, by omega⟩
      have hm1 : 1 ≤ min cap len := by omega
      have hm2 : min cap len ≤ len := by omega
      have hcopy : copy_from_user (.addr mem)
          (min (get_ep s (.list (p_inep c))).urb_buffer_size len) =
          some (mem.take (min cap len)) := by
        rw [hcap_eq]
        have hne : min cap len ≠ 0 := by omega
        have hle : min cap len ≤ mem.length := by omega
        simp [copy_from_user, hne, hle]
      have hlen_take : (mem.take (min cap len)).length = min cap len := by
        rw [List.length_take]; omega
      obtain ⟨s4, hloop, hc4, hs4, hrc4, hsub4, hcap4, _, hch4, hd4⟩ :=
        bps_write_round fuel s c (.addr mem) len retval 0 (min cap len) []
          ((carve f cap (len - min cap len)).map
            (fun m => event.complete (.list (p_inep c)) 0 m []) ++ rest)
          (mem.take (min cap len)) h0 hcopy hc hs (next_queue_rc_accepting s hacc) hidle
      have hacc4 : ∀ rc ∈ s4.udc.queue_rc, rc = 0 := by
        intro rc hrc
        rw [hrc4] at hrc
        exact hacc rc (List.mem_of_mem_tail hrc)
      have h31 : (2 : Int) ^ 31 = 2147483648 := by norm_num
      have hlen32 : len < 2 ^ 32 := by
        have h32 : (2 : Nat) ^ 32 = 4294967296 := by norm_num
        rw [h32]; rw [h31] at hr; omega
      have hsz : size_t_sub len (min cap len) = len - min cap len :=
        size_t_sub_le _ _ hm2 hlen32
      have hss : ssize_t_add retval (min cap len) = retval + (min cap len : Nat) :=
        ssize_t_add_small _ _ hr0 (by rw [h31] at hr ⊢; omega)
      obtain ⟨s5, hloop5, xs, hsub5, hlens, hslots, hpay⟩ :=
        ih fuel s4 (mem.drop (min cap len)) (len - min cap len)
          (retval + (min cap len : Nat)) rest (by omega) (by omega)
          (by rw [List.length_drop]; omega) (by omega)
          (by rw [h31] at hr ⊢; omega) (by rw [hcap4, hcap_eq]) hc4 hs4 hacc4
          (by rw [hch4, hd4]; exact hidle)
      refine ⟨s5, ?_, ?_⟩
      · simp only [List.map_cons, List.cons_append]
        rw [hloop]
        simp only [if_true, hsz, hss, user_ptr.add]
        rw [hloop5]
        congr 2
        omega
      · refine ⟨(⟨p_inep c, .list (p_inep c), { (get_ep s (.list (p_inep c))).p_req with
            buf := mem.take (min cap len) ++
              (get_ep s (.list (p_inep c))).p_req.buf.drop (mem.take (min cap len)).length
            length := min (get_ep s (.list (p_inep c))).urb_buffer_size len }⟩ : usb_xfer) :: xs,
          ?_, ?_, ?_, ?_⟩
        · rw [hsub5, hsub4, List.append_assoc]
          rfl
        · simp [hlens, hcap_eq]
        · intro x hx
          rcases List.mem_cons.1 hx with hx | hx
          · subst hx; exact ⟨rfl, rfl⟩
          · exact hslots x hx
        · simp only [List.map_cons, List.flatten_cons, hpay, hcap_eq]
          rw [List.take_append_of_le_length (by omega), List.take_of_length_le (by omega)]
          have hsplit : len = min cap len + (len - min cap len) := by omega
          conv_rhs => rw [hsplit, List.take_add]

theorem new_xfers_append (s t : bps_state) (xs : List usb_xfer)
    (h : t.udc.submitted = s.udc.submitted ++ xs) : new_xfers s t = xs := by
  simp [new_xfers, h]

/-- C11: take a blocking bps_write of N >= 1 bytes (N below 2^31, as the VFS
guarantees, from a buffer with N accessible bytes) on a configured, non-suspended
device whose IN slot has capacity cap >= 1, with the error-report slot idle when the
handle is the DATA channel's.  If the transport accepts every submission and the
events are the completions of the chunks, each clean with actual equal to the
submitted length, then the call returns N; it hands exactly ceil(N / cap) transfers to
the transport, all on the channel's IN slot, the k-th of length min(N - k * cap, cap);
and the payloads, concatenated in order, are the N input bytes. -/
theorem bps_write_blocking (s : bps_state) (c : chan) (mem : List Nat) (N : Nat)
    (evs rest : List event) (hN1 : 1 ≤ N) (hN : N < 2 ^ 31) (hmem : N ≤ mem.length)
    (hcap : 1 ≤ (get_ep s (.list (p_inep c))).urb_buffer_size)
    (hc : s.config_set = true) (hs : s.suspended = false)
    (hacc : ∀ rc ∈ s.udc.queue_rc, rc = 0)
    (hidle : (s.cdevs c).channel = .DATA_CHANNEL → (get_ep s .data_err).queued = false)
    (hevs : evs = (chunk_lengths (get_ep s (.list (p_inep c))).urb_buffer_size N).map
      (fun m => event.complete (.list (p_inep c)) 0 m []) ++ rest) :
    (bps_write s c false (.addr mem) N evs).1 = .returned (N : Int) ∧
      (bps_write s c false (.addr mem) N evs).2.udc.submitted =
        s.udc.submitted ++ new_xfers s (bps_write s c false (.addr mem) N evs).2 ∧
      (new_xfers s (bps_write s c false (.addr mem) N evs).2).length =
        (N + (get_ep s (.list (p_inep c))).urb_buffer_size - 1) /
          (get_ep s (.list (p_inep c))).urb_buffer_size ∧
      (∀ k (hk : k < (new_xfers s (bps_write s c false (.addr mem) N evs).2).length),
        ((new_xfers s (bps_write s c false (.addr mem) N evs).2)[k]).req.length =
            min (N - k * (get_ep s (.list (p_inep c))).urb_buffer_size)
              (get_ep s (.list (p_inep c))).urb_buffer_size ∧
          ((new_xfers s (bps_write s c false (.addr mem) N evs).2)[k]).ep = p_inep c ∧
          ((new_xfers s (bps_write s c false (.addr mem) N evs).2)[k]).slot =
            .list (p_inep c)) ∧
      ((new_xfers s (bps_write s c false (.addr mem) N evs).2).map
        (fun x => x.req.buf.take x.req.length)).flatten = mem.take N := by
  have h31 : (2 : Int) ^ 31 = 2147483648 := by norm_num
  have h31n : (2 : Nat) ^ 31 = 2147483648 := by norm_num
  obtain ⟨s2, hloop, xs, hsub, hlens, hslots, hpay⟩ :=
    bps_write_loop_all c _ hcap N (evs.length + 1) s mem N 0 rest (Nat.le_refl _)
      (by rw [hevs]; simp [chunk_lengths]) hmem (Int.le_refl _)
      (by rw [h31]; rw [h31n] at hN; omega) rfl hc hs hacc hidle
  have hw : bps_write s c false (.addr mem) N evs = (.returned (N : Int), s2) := by
    have hN0 : N ≠ 0 := by omega
    unfold bps_write bps_write_impl
    simp only [hN0, or_false, Bool.false_eq_true, if_false]
    rw [if_neg (by intro h; cases h)]
    rw [hevs] at hloop ⊢
    simpa [chunk_lengths] using hloop
  rw [hw]
  simp only []
  rw [new_xfers_append s s2 xs hsub]
  have hlen : xs.length = (carve N (get_ep s (.list (p_inep c))).urb_buffer_size N).length := by
    rw [← hlens, List.length_map]
  refine ⟨trivial, hsub, ?_, ?_, hpay⟩
  · rw [hlen, carve_length _ hcap N N (Nat.le_refl _)]
  · intro k hk
    have hk2 : k < (carve N (get_ep s (.list (p_inep c))).urb_buffer_size N).length := by
      rw [← hlen]; exact hk
    have h1 := carve_getElem _ hcap N N (Nat.le_refl _) k hk2
    have hkm : k < (xs.map (fun x => x.req.length)).length := by
      rw [List.length_map]; exact hk
    have h2 : (xs.map (fun x => x.req.length))[k] = (xs[k]).req.length :=
      List.getElem_map _
    refine ⟨?_, hslots _ (List.getElem_mem _)⟩
    rw [← h2, ← h1]
    congr 1

theorem bps_write_blocking_witness :
    (bps_write small_buffer_state .DATA_CHANNEL false (.addr [1, 2, 3, 4, 5]) 5
        [.complete (.list .BULKIN1) 0 2 [], .complete (.list .BULKIN1) 0 2 [],
          .complete (.list .BULKIN1) 0 1 []]).1 = .returned 5 ∧
      ((new_xfers small_buffer_state
        (bps_write small_buffer_state .DATA_CHANNEL false (.addr [1, 2, 3, 4, 5]) 5
          [.complete (.list .BULKIN1) 0 2 [], .complete (.list .BULKIN1) 0 2 [],
            .complete (.list .BULKIN1) 0 1 []]).2).map
        (fun x => x.req.buf.take x.req.length)).flatten = [1, 2, 3, 4, 5] :=
  have h := bps_write_blocking small_buffer_state .DATA_CHANNEL [1, 2, 3, 4, 5] 5
    [.complete (.list .BULKIN1) 0 2 [], .complete (.list .BULKIN1) 0 2 [],
      .complete (.list .BULKIN1) 0 1 []] [] (by decide) (by decide) (by decide) (by decide)
    (by decide) (by decide) (by decide) (by decide) (by decide)
  ⟨h.1, h.2.2.2.2⟩

/-- C12: a blocking bps_write with len >= 1 is the write loop started with a count of
0.  Take any round of that loop, with bytes still to send (len not 0, readable from the
user buffer) and any count accumulated by earlier chunks.  If the device is
unconfigured or suspended when the chunk is about to be submitted, the call returns
-ECOMM; if the transport rejects the chunk, or the chunk completes with a status other
than 0, the call returns -EIO; in each case the accumulated count is not returned.  A
chunk that completes cleanly adds its actual length to the count and the loop goes on;
when nothing is left to send the call returns the count. -/
theorem bps_write_errors (fuel : Nat) (s : bps_state) (c : chan) (p_user : user_ptr)
    (len : Nat) (retval : Int) (bytes : List Nat) (hlen : len ≠ 0)
    (hcopy : copy_from_user p_user
      (min (get_ep s (.list (p_inep c))).urb_buffer_size len) = some bytes) :
    (∀ evs, p_user ≠ .NULL →
        bps_write s c false p_user len evs =
          bps_write_loop (evs.length + 1) s c p_user len 0 (.list (p_inep c)) evs) ∧
      (∀ evs, (s.config_set = false ∨ s.suspended = true) →
        (bps_write_loop (fuel + 1) s c p_user len retval (.list (p_inep c)) evs).1 =
          .returned (- ECOMM)) ∧
      (∀ evs, s.config_set = true → s.suspended = false → next_queue_rc s ≠ 0 →
        (bps_write_loop (fuel + 1) s c p_user len retval (.list (p_inep c)) evs).1 =
          .returned (- EIO)) ∧
      (∀ status actual data rest, s.config_set = true → s.suspended = false →
        next_queue_rc s = 0 →
        ((s.cdevs c).channel = .DATA_CHANNEL → (get_ep s .data_err).queued = false) →
        status ≠ 0 →
        (bps_write_loop (fuel + 1) s c p_user len retval (.list (p_inep c))
          (.complete (.list (p_inep c)) status actual data :: rest)).1 = .returned (- EIO)) ∧
      (∀ actual data rest, s.config_set = true → s.suspended = false →
        next_queue_rc s = 0 →
        ((s.cdevs c).channel = .DATA_CHANNEL → (get_ep s .data_err).queued = false) →
        ∃ s4, bps_write_loop (fuel + 1) s c p_user len retval (.list (p_inep c))
            (.complete (.list (p_inep c)) 0 actual data :: rest) =
          bps_write_loop fuel s4 c (p_user.add actual) (size_t_sub len actual)
            (ssize_t_add retval actual) (.list (p_inep c)) rest) ∧
      (∀ t evs, bps_write_loop (fuel + 1) t c p_user 0 retval (.list (p_inep c)) evs =
        (.returned retval, t)) := by
  refine ⟨?_, ?_, ?_, ?_, ?_, ?_⟩
  · intro evs hp
    simp [bps_write, bps_write_impl, hp, hlen]
  · intro evs h
    rw [bps_write_loop]
    simp only [hlen, if_false, hcopy, config_set_set_req, suspended_set_req, h, if_true]
  · intro evs hc hs hrc
    rw [bps_write_loop]
    simp [hlen, hcopy, hc, hs, hrc]
  · intro status actual data rest hc hs hrc hidle hst
    obtain ⟨s4, hloop, _⟩ := bps_write_round fuel s c p_user len retval status actual data
      rest bytes hlen hcopy hc hs hrc hidle
    rw [hloop, if_neg hst]
  · intro actual data rest hc hs hrc hidle
    obtain ⟨s4, hloop, _⟩ := bps_write_round fuel s c p_user len retval 0 actual data
      rest bytes hlen hcopy hc hs hrc hidle
    exact ⟨s4, by rw [hloop]; simp⟩
  · intro t evs
    simp [bps_write_loop]

theorem bps_write_errors_witness :
    (bps_write_loop 1 rejecting_state .DATA_CHANNEL (.addr [3]) 1 2 (.list .BULKIN1) []).1 =
        .returned (- EIO) ∧
      (bps_write small_buffer_state .DATA_CHANNEL false (.addr [1, 2, 3]) 3
        [.complete (.list .BULKIN1) 0 2 [], .complete (.list .BULKIN1) (- 71) 0 []]).1 =
        .returned (- EIO) :=
  ⟨(bps_write_errors 0 rejecting_state .DATA_CHANNEL (.addr [3]) 1 2 [3] (by decide)
      (by decide)).2.2.1 [] (by decide) (by decide) (by decide), by decide⟩

/-! ## send_intr_notification -/

/-- C13: for every value other than the DATA sentinel (1) and the CONFIG sentinel (2),
send_intr_notification returns -EINVAL on either channel, in blocking and non-blocking
mode and in every device state; it submits no transfer and changes no state (the notify
buffer and the queued flag are the ones before the call). -/
theorem send_intr_notification_bad_value (s : bps_state) (c : chan) (nonblock : Bool)
    (value : Nat) (evs : List event)
    (h1 : value ≠ DATA_CHANNEL_INTR_VALUE) (h2 : value ≠ CONFIG_CHANNEL_INTR_VALUE) :
    (send_intr_notification s c nonblock value evs).1 = .returned (- EINVAL) ∧
      (send_intr_notification s c nonblock value evs).2.udc.submitted = s.udc.submitted ∧
      get_ep (send_intr_notification s c nonblock value evs).2 (.intr c) = get_ep s (.intr c) ∧
      (send_intr_notification s c nonblock value evs).2 = s := by
  have h : send_intr_notification s c nonblock value evs = (.returned (- EINVAL), s) := by
    unfold send_intr_notification
    simp [Ne.symm h1, Ne.symm h2]
  simp [h]

theorem send_intr_notification_bad_value_witness :
    (send_intr_notification configured_state .CONFIG_CHANNEL false 3 []).1 =
        .returned (- EINVAL) ∧
      (send_intr_notification configured_state .CONFIG_CHANNEL false 3 []).2.udc.submitted = [] :=
  have h := send_intr_notification_bad_value configured_state .CONFIG_CHANNEL false 3 []
    (by decide) (by decide)
  ⟨h.1, h.2.1⟩

/-! ## bps_poll -/


/-- C15: for every channel and driver state, bps_poll sets POLLIN if and only if the
device is configured, not suspended, the channel's OUT slot is idle and the status of
that slot's last transfer is 0; in particular POLLIN is not set while the device is
suspended or unconfigured. -/
theorem bps_poll_pollin (s : bps_state) (c : chan) :
    ((bps_poll s c &&& POLLIN ≠ 0) ↔
        (s.config_set = true ∧ s.suspended = false ∧
          (get_ep s (.list (p_outep c))).queued = false ∧ (out_req s c).status = 0)) ∧
      ((s.config_set = false ∨ s.suspended = true) → bps_poll s c &&& POLLIN = 0) := by
  unfold bps_poll
  by_cases hc : s.config_set = true <;> by_cases hs : s.suspended = true <;>
    by_cases hq : (get_ep s (.list (p_outep c))).queued = true <;>
    by_cases hst : (out_req s c).status = 0 <;>
    by_cases hb : is_write_channel_busy s c = true <;>
    simp [hc, hs, hq, hst, hb, POLLIN, POLLOUT, POLLERR]

/-- C16: for a channel's file (the channel number stored by bps_open is the one of the
device node), bps_poll returns exactly POLLERR when the device is unconfigured or
suspended; otherwise POLLERR is not set, and POLLOUT is set if and only if the channel's
IN slot is idle and, for the DATA channel only, the error-report slot is idle as well. -/
theorem bps_poll_pollout (s : bps_state) (c : chan) (hch : (s.cdevs c).channel = c) :
    ((s.config_set = false ∨ s.suspended = true) → bps_poll s c = POLLERR) ∧
      ((s.config_set = true ∧ s.suspended = false) →
        bps_poll s c &&& POLLERR = 0 ∧
        ((bps_poll s c &&& POLLOUT ≠ 0) ↔
          ((get_ep s (.list (p_inep c))).queued = false ∧
            (c = .DATA_CHANNEL → (get_ep s .data_err).queued = false)))) := by
  have hbusy : is_write_channel_busy s c =
      ((get_ep s (.list (p_inep c))).queued ||
        (decide (c = .DATA_CHANNEL) && (get_ep s .data_err).queued)) := by
    unfold is_write_channel_busy
    rw [hch]
    cases c <;> simp [get_ep_data_err]
  unfold bps_poll
  rw [hbusy]
  by_cases hc : s.config_set = true <;> by_cases hs : s.suspended = true <;>
    cases hq : (get_ep s (.list (p_outep c))).queued <;>
    by_cases hst : (out_req s c).status = 0 <;>
    cases hi : (get_ep s (.list (p_inep c))).queued <;>
    cases he : (get_ep s .data_err).queued <;>
    cases c <;>
    simp [hc, hs, hq, hst, hi, he, POLLIN, POLLOUT, POLLERR] <;>
    decide

theorem bps_poll_pollout_witness :
    bps_poll configured_state .DATA_CHANNEL &&& POLLOUT ≠ 0 ∧
      bps_poll bound_state .DATA_CHANNEL = POLLERR :=
  ⟨((bps_poll_pollout configured_state .DATA_CHANNEL rfl).2 ⟨rfl, rfl⟩).2.2
      ⟨by decide, fun _ => by decide⟩,
    (bps_poll_pollout bound_state .DATA_CHANNEL rfl).1 (Or.inl rfl)⟩

/-! ## bulk_urb_complete -/

/-- C19: take a completion handled by bulk_urb_complete for the request of a queued
slot.  The handler resubmits the request (asks the transport once more) if and only if
the transfer failed (status not 0), the slot is the bulk OUT slot of a channel, that
channel is open, and the device is configured and not suspended; a bulk IN completion
is never resubmitted.  When the handler returns, the slot's queued flag is true exactly
when a resubmission was made and the transport accepted it; a rejected resubmission
leaves queued false.  The request handed over is the slot's own request. -/
theorem bulk_urb_complete_resubmits (s : bps_state) (i : ep_info)
    (hq : (get_ep s (.list i)).queued = true) :
    (resubmit_wanted s i →
        (bulk_urb_complete s i).udc.queue_rc = s.udc.queue_rc.tail ∧
        (next_queue_rc s = 0 →
          (bulk_urb_complete s i).udc.submitted =
            s.udc.submitted ++ [⟨i, .list i, (get_ep s (.list i)).p_req⟩]) ∧
        (next_queue_rc s ≠ 0 → (bulk_urb_complete s i).udc.submitted = s.udc.submitted)) ∧
      (¬ resubmit_wanted s i → (bulk_urb_complete s i).udc = s.udc) ∧
      ((get_ep (bulk_urb_complete s i) (.list i)).queued = true ↔
        resubmit_wanted s i ∧ next_queue_rc s = 0) ∧
      ((i = .BULKIN1 ∨ i = .BULKIN2) →
        (bulk_urb_complete s i).udc = s.udc ∧
        (get_ep (bulk_urb_complete s i) (.list i)).queued = false) := by
  have hex : resubmit_wanted s i ↔
      ((get_ep s (.list i)).p_req.status ≠ 0 ∧
        ((s.cdevs (if i = .BULKOUT1 ∨ i = .BULKIN1 then chan.DATA_CHANNEL
          else chan.CONFIG_CHANNEL)).opened = true ∧ s.config_set = true ∧
          s.suspended = false ∧ (i = .BULKOUT1 ∨ i = .BULKOUT2))) := by
    unfold resubmit_wanted
    constructor
    · rintro ⟨h0, ⟨c, rfl, ho⟩, h2, h3⟩
      refine ⟨h0, ?_, h2, h3, ?_⟩ <;> cases c <;> simp [p_outep, ho]
    · rintro ⟨h0, ho, h2, h3, hi | hi⟩
      · subst hi
        exact ⟨h0, ⟨.DATA_CHANNEL, rfl, by simpa using ho⟩, h2, h3⟩
      · subst hi
        exact ⟨h0, ⟨.CONFIG_CHANNEL, rfl, by simpa using ho⟩, h2, h3⟩
  have hin : (i = .BULKIN1 ∨ i = .BULKIN2) → ¬ resubmit_wanted s i := by
    rw [hex]
    rintro (hi | hi) ⟨_, _, _, _, h4⟩ <;> subst hi <;> simp at h4
  by_cases hw : resubmit_wanted s i
  · have hw2 := hex.1 hw
    by_cases hrc : next_queue_rc s = 0
    · have hb : bulk_urb_complete s i = (usb_ep_queue s (.list i)).2 := by
        unfold bulk_urb_complete
        simp only [ep_list_eq_get_ep]
        rw [if_pos hw2]
        simp [hrc]
      rw [hb]
      simp [hw, hrc, udc_usb_ep_queue, hq, p_ep_of]
      exact ⟨fun h => hin (Or.inl h) hw, fun h => hin (Or.inr h) hw⟩
    · have hb : bulk_urb_complete s i =
          set_queued (usb_ep_queue s (.list i)).2 (.list i) false := by
        unfold bulk_urb_complete
        simp only [ep_list_eq_get_ep]
        rw [if_pos hw2]
        simp [hrc]
      rw [hb]
      simp [hw, hrc, udc_usb_ep_queue]
      intro hi
      exact absurd hw (hin hi)
  · have hw2 := fun h => hw (hex.2 h)
    have hb : bulk_urb_complete s i = set_queued s (.list i) false := by
      unfold bulk_urb_complete
      simp only [ep_list_eq_get_ep]
      rw [if_neg hw2]
    rw [hb]
    simp [hw]

theorem bulk_urb_complete_resubmits_witness :
    (get_ep (bulk_urb_complete failed_state .BULKOUT1) (.list .BULKOUT1)).queued = true :=
  ((bulk_urb_complete_resubmits failed_state .BULKOUT1 (by decide)).2.2.1).2
    ⟨⟨by decide, ⟨.DATA_CHANNEL, rfl, by decide⟩, by decide, by decide⟩, by decide⟩

/-! ## Which transfers each function hands to the transport -/

theorem only_adds_of_eq (P : usb_xfer → Prop) (s t : bps_state)
    (h : t.udc.submitted = s.udc.submitted) : only_adds P s t :=
  ⟨[], by simp [h], by simp⟩

theorem only_adds_refl (P : usb_xfer → Prop) (s : bps_state) : only_adds P s s :=
  only_adds_of_eq P s s rfl

theorem only_adds_trans {P : usb_xfer → Prop} {s t u : bps_state}
    (h1 : only_adds P s t) (h2 : only_adds P t u) : only_adds P s u := by
  obtain ⟨xs, hxs, hP⟩ := h1
  obtain ⟨ys, hys, hQ⟩ := h2
  refine ⟨xs ++ ys, by rw [hys, hxs, List.append_assoc], ?_⟩
  intro x hx
  rcases List.mem_append.1 hx with h | h
  · exact hP x h
  · exact hQ x h

theorem only_adds_mono {P Q : usb_xfer → Prop} {s t : bps_state} (h : ∀ x, P x → Q x)
    (h1 : only_adds P s t) : only_adds Q s t := by
  obtain ⟨xs, hxs, hP⟩ := h1
  exact ⟨xs, hxs, fun x hx => h x (hP x hx)⟩

theorem only_adds_congr {P : usb_xfer → Prop} {s t s2 t2 : bps_state}
    (hs : s2.udc.submitted = s.udc.submitted) (ht : t2.udc.submitted = t.udc.submitted)
    (h : only_adds P s t) : only_adds P s2 t2 := by
  obtain ⟨xs, hxs, hP⟩ := h
  exact ⟨xs, by rw [hs, ht, hxs], hP⟩

theorem foldl_only_adds {α : Type} (P : usb_xfer → Prop) (f : bps_state → α → bps_state)
    (h : ∀ t a, only_adds P t (f t a)) (l : List α) (s : bps_state) :
    only_adds P s (l.foldl f s) := by
  induction l generalizing s with
  | nil => exact only_adds_refl P s
  | cons a l ih => exact only_adds_trans (h s a) (ih (f s a))

theorem usb_ep_queue_only_adds (P : usb_xfer → Prop) (s : bps_state) (r : bps_ep_ref)
    (h : P ⟨p_ep_of r, r, (get_ep s r).p_req⟩) : only_adds P s (usb_ep_queue s r).2 := by
  by_cases hrc : next_queue_rc s = 0
  · refine ⟨[⟨p_ep_of r, r, (get_ep s r).p_req⟩], by simp [submitted_usb_ep_queue, hrc], ?_⟩
    intro x hx
    rw [List.mem_singleton] at hx
    rw [hx]
    exact h
  · exact only_adds_of_eq P _ _ (by simp [submitted_usb_ep_queue, hrc])

theorem only_adds_queue (P : usb_xfer → Prop) (s s1 : bps_state) (r : bps_ep_ref)
    (h1 : s1.udc.submitted = s.udc.submitted) (hP : ∀ q, P ⟨p_ep_of r, r, q⟩) :
    only_adds P s (usb_ep_queue s1 r).2 :=
  only_adds_congr h1.symm rfl (usb_ep_queue_only_adds P s1 r (hP _))

theorem only_adds_set_queued {P : usb_xfer → Prop} {s t : bps_state} (r : bps_ep_ref)
    (q : Bool) (h : only_adds P s t) : only_adds P s (set_queued t r q) :=
  only_adds_congr rfl (by simp) h

theorem only_adds_set_req {P : usb_xfer → Prop} {s t : bps_state} (r : bps_ep_ref)
    (q : usb_request) (h : only_adds P s t) : only_adds P s (set_req t r q) :=
  only_adds_congr rfl (by simp) h

theorem bulk_urb_complete_only_adds (s : bps_state) (i : ep_info) :
    only_adds handler_xfer s (bulk_urb_complete s i) := by
  by_cases hout : i = .BULKOUT1 ∨ i = .BULKOUT2
  · have hq : only_adds handler_xfer s (usb_ep_queue s (.list i)).2 :=
      usb_ep_queue_only_adds _ s (.list i) ⟨rfl, Or.inr hout⟩
    have hq2 : only_adds handler_xfer s
        (set_queued (usb_ep_queue s (.list i)).2 (.list i) false) :=
      only_adds_congr rfl (by simp) hq
    unfold bulk_urb_complete
    simp only []
    split_ifs
    all_goals first
      | exact hq
      | exact hq2
      | exact only_adds_of_eq _ _ _ (by simp)
  · have hb : bulk_urb_complete s i = set_queued s (.list i) false := by
      unfold bulk_urb_complete
      simp [hout]
    rw [hb]
    exact only_adds_of_eq _ _ _ (by simp)

theorem give_back_only_adds (s : bps_state) (r : bps_ep_ref) (status : Int) (actual : Nat) :
    only_adds handler_xfer s (give_back s r status actual) := by
  have hb : ∀ i, only_adds handler_xfer s
      (bulk_urb_complete
        (set_req s (.list i) { (get_ep s (.list i)).p_req with
          status := status, actual := actual }) i) :=
    fun i => only_adds_congr (by simp) rfl (bulk_urb_complete_only_adds _ _)
  cases r with
  | list i =>
    cases i with
    | EP0 => exact only_adds_of_eq _ _ _ (by simp [give_back, ep0_complete])
    | INTRIN1 => exact only_adds_refl _ _
    | BULKOUT1 => exact hb _
    | BULKIN1 => exact hb _
    | BULKOUT2 => exact hb _
    | BULKIN2 => exact hb _
  | data_err => exact only_adds_of_eq _ _ _ (by simp [give_back, data_err_urb_complete])
  | intr c => exact only_adds_of_eq _ _ _ (by simp [give_back, intr_urb_complete])

theorem usb_ep_dequeue_only_adds (s : bps_state) (r : bps_ep_ref) :
    only_adds handler_xfer s (usb_ep_dequeue s r) := by
  unfold usb_ep_dequeue
  split_ifs
  · exact give_back_only_adds _ _ _ _
  · exact only_adds_refl _ _

theorem dequeue_request_only_adds (s : bps_state) (r : bps_ep_ref) :
    only_adds handler_xfer s (dequeue_request s r) := by
  unfold dequeue_request
  split_ifs
  · exact usb_ep_dequeue_only_adds _ _
  · exact only_adds_refl _ _
  · exact only_adds_refl _ _

theorem usb_ep_disable_only_adds (s : bps_state) (i : ep_info) :
    only_adds handler_xfer s (usb_ep_disable s i) := by
  unfold usb_ep_disable
  apply foldl_only_adds
  intro t r
  split_ifs
  · exact give_back_only_adds _ _ _ _
  · exact only_adds_refl _ _

theorem disable_bps_eps_only_adds (s : bps_state) :
    only_adds handler_xfer s (disable_bps_eps s) := by
  unfold disable_bps_eps
  refine only_adds_trans (dequeue_request_only_adds s .data_err) ?_
  refine only_adds_trans (dequeue_request_only_adds _ (.intr .DATA_CHANNEL)) ?_
  refine only_adds_trans (dequeue_request_only_adds _ (.intr .CONFIG_CHANNEL)) ?_
  apply foldl_only_adds
  intro t i
  exact only_adds_trans (dequeue_request_only_adds t (.list i)) (usb_ep_disable_only_adds _ i)

theorem reset_config_only_adds (s : bps_state) :
    only_adds handler_xfer s (reset_config s) :=
  only_adds_congr rfl rfl (disable_bps_eps_only_adds { s with config_set := false })

theorem usb_ep_enable_submitted (s : bps_state) (i : ep_info) (hs : Bool) :
    (usb_ep_enable s i hs).2.udc.submitted = s.udc.submitted := by
  unfold usb_ep_enable
  split <;> rfl

theorem enable_eps_submitted (l : List ep_info) (s : bps_state) :
    (enable_eps s l).2.udc.submitted = s.udc.submitted := by
  induction l generalizing s with
  | nil => rfl
  | cons i l ih =>
    rw [enable_eps]
    simp only []
    split_ifs
    · exact usb_ep_enable_submitted _ _ _
    · rw [ih, usb_ep_enable_submitted]

theorem udc_set_urb_buffer_size (s : bps_state) (r : bps_ep_ref) (n : Nat) :
    (set_urb_buffer_size s r n).udc = s.udc := by
  simp [set_urb_buffer_size]

theorem udc_save_urb_length (s : bps_state) (i : ep_info) :
    (save_urb_length s i).udc = s.udc := by
  unfold save_urb_length
  simp only []
  split_ifs <;> simp [udc_set_urb_buffer_size]

theorem udc_save_urb_lengths (s : bps_state) : (save_urb_lengths s).udc = s.udc := by
  unfold save_urb_lengths
  simp only []
  have h1 := foldl_keeps save_urb_length (fun t => t.udc) udc_save_urb_length bps_eps s
  have h2 := fun (u : bps_state) => foldl_keeps
    (fun (t : bps_state) (c : chan) =>
      set_urb_buffer_size t (.intr c) (t.cdevs c).intr_ep.p_req.length)
    (fun t => t.udc) (fun t c => udc_set_urb_buffer_size t _ _)
    [chan.DATA_CHANNEL, chan.CONFIG_CHANNEL] u
  simp only [] at h1 h2
  rw [h2, udc_set_urb_buffer_size, h1]

theorem set_config_only_adds (s : bps_state) :
    only_adds handler_xfer s (set_config s).2 := by
  have h1 : only_adds handler_xfer s (enable_eps (reset_config s) bps_eps).2 :=
    only_adds_congr rfl (enable_eps_submitted bps_eps (reset_config s))
      (reset_config_only_adds s)
  unfold set_config
  simp only []
  split_ifs
  · exact only_adds_congr rfl (by simp [udc_save_urb_lengths]) h1
  · exact h1

theorem setup_retval_only_adds (s : bps_state) (ctrl : usb_ctrlrequest) :
    only_adds handler_xfer s (setup_retval s ctrl).2 := by
  unfold setup_retval
  simp only []
  split_ifs
  all_goals first
    | exact only_adds_refl _ _
    | exact set_config_only_adds _

theorem setup_gadget_only_adds (s : bps_state) (ctrl : usb_ctrlrequest) :
    only_adds handler_xfer s (setup_gadget s ctrl).2 := by
  have h1 := setup_retval_only_adds s ctrl
  have h2 : ∀ q, only_adds handler_xfer (setup_retval s ctrl).2
      (usb_ep_queue (set_req (setup_retval s ctrl).2 (.list .EP0) q) (.list .EP0)).2 :=
    fun q => only_adds_queue _ _ _ _ (by simp) (fun _ => ⟨rfl, Or.inl rfl⟩)
  unfold setup_gadget
  simp only []
  split_ifs
  · exact only_adds_trans h1 (only_adds_set_queued _ _ (h2 _))
  · exact only_adds_trans h1 (h2 _)
  · exact h1

theorem queue_out_request_only_adds (s : bps_state) (c : chan) :
    only_adds (fun x => x.slot = .list (p_outep c) ∧ x.ep = p_outep c) s
      (queue_out_request s c).2 := by
  have h2 : ∀ q, only_adds (fun x => x.slot = .list (p_outep c) ∧ x.ep = p_outep c) s
      (usb_ep_queue (set_req (set_rx_bytes s c 0) (.list (p_outep c)) q)
        (.list (p_outep c))).2 :=
    fun q => only_adds_queue _ _ _ _ (by simp) (fun _ => ⟨rfl, rfl⟩)
  unfold queue_out_request
  simp only []
  split_ifs
  · exact only_adds_refl _ _
  · exact h2 _
  · exact only_adds_set_queued _ _ (h2 _)
  · exact only_adds_refl _ _

theorem out_xfer_handler (c : chan) (x : usb_xfer)
    (h : x.slot = .list (p_outep c) ∧ x.ep = p_outep c) : handler_xfer x := by
  refine ⟨by rw [h.1, h.2], ?_⟩
  rw [h.2]
  cases c <;> simp [p_outep]

theorem suspend_gadget_only_adds (s : bps_state) :
    only_adds handler_xfer s (suspend_gadget s) := by
  unfold suspend_gadget
  refine only_adds_congr (s := { s with suspended := true }) rfl rfl ?_
  refine only_adds_trans (dequeue_request_only_adds _ .data_err) ?_
  refine only_adds_trans (dequeue_request_only_adds _ (.intr .DATA_CHANNEL)) ?_
  refine only_adds_trans (dequeue_request_only_adds _ (.intr .CONFIG_CHANNEL)) ?_
  apply foldl_only_adds
  intro t i
  exact dequeue_request_only_adds t (.list i)

theorem resume_gadget_only_adds (s : bps_state) :
    only_adds handler_xfer s (resume_gadget s) := by
  unfold resume_gadget
  refine only_adds_congr (s := { s with suspended := false }) rfl rfl ?_
  apply foldl_only_adds
  intro t c
  exact only_adds_mono (out_xfer_handler c) (queue_out_request_only_adds t c)

theorem complete_request_only_adds (s : bps_state) (r : bps_ep_ref) (status : Int)
    (actual : Nat) (data : List Nat) :
    only_adds handler_xfer s (complete_request s r status actual data) := by
  unfold complete_request
  simp only []
  split_ifs
  · exact only_adds_congr (by simp) rfl (give_back_only_adds _ _ _ _)
  · exact give_back_only_adds _ _ _ _
  · exact only_adds_refl _ _

theorem deliver_only_adds (s : bps_state) (e : event) :
    only_adds handler_xfer s (deliver s e) := by
  cases e with
  | complete r status actual data => exact complete_request_only_adds _ _ _ _ _
  | setup ctrl => exact setup_gadget_only_adds _ _
  | disconnect => exact reset_config_only_adds _
  | suspend => exact suspend_gadget_only_adds _
  | resume => exact resume_gadget_only_adds _
  | signal => exact only_adds_refl _ _

theorem wait_event_only_adds (Q : usb_xfer → Prop) (cond : bps_state → Bool)
    (evs : List event) :
    ∀ s, (∀ e ∈ evs, ∀ t, only_adds Q t (deliver t e)) →
      only_adds Q s (wait_event cond s evs).2.1 ∧
        ∀ e ∈ (wait_event cond s evs).2.2, e ∈ evs := by
  induction evs with
  | nil =>
    intro s _
    exact ⟨only_adds_refl _ _, by simp [wait_event]⟩
  | cons e rest ih =>
    intro s h
    rw [wait_event]
    split_ifs
    · exact ⟨only_adds_refl _ _, fun _ h => h⟩
    · obtain ⟨h1, h2⟩ := ih (deliver s e) (fun e2 he2 => h e2 (List.mem_cons_of_mem _ he2))
      exact ⟨only_adds_trans (h e (List.mem_cons_self _ _) s) h1,
        fun e2 he2 => List.mem_cons_of_mem _ (h2 e2 he2)⟩

theorem bps_write_loop_only_adds (Q : usb_xfer → Prop) (c : chan) (r : bps_ep_ref)
    (fuel : Nat) :
    ∀ (s : bps_state) (p_user : user_ptr) (len : Nat) (retval : Int) (evs : List event),
      (∀ e ∈ evs, ∀ t, only_adds Q t (deliver t e)) →
      only_adds (fun x => (x.slot = r ∧ x.ep = p_ep_of r) ∨ Q x) s
        (bps_write_loop fuel s c p_user len retval r evs).2 := by
  induction fuel with
  | zero =>
    intro s p_user len retval evs _
    exact only_adds_refl _ _
  | succ fuel ih =>
    intro s p_user len retval evs h
    have hq : ∀ q1 q2, only_adds (fun x => (x.slot = r ∧ x.ep = p_ep_of r) ∨ Q x) s
        (usb_ep_queue (set_req (set_req s r q1) r q2) r).2 :=
      fun q1 q2 => only_adds_queue _ _ _ _ (by simp) (fun _ => Or.inl ⟨rfl, rfl⟩)
    rw [bps_write_loop]
    by_cases hlen : len = 0
    · rw [if_pos hlen]
      exact only_adds_refl _ _
    rw [if_neg hlen]
    simp only []
    cases hcp : copy_from_user p_user (min (get_ep s r).urb_buffer_size len) with
    | none => exact only_adds_refl _ _
    | some bytes =>
      simp only []
      split_ifs with h1 h2
      · exact only_adds_set_req _ _ (only_adds_refl _ _)
      · exact hq _ _
      · rcases hw : wait_event (fun t => !is_write_channel_busy t c)
            (set_queued (usb_ep_queue (set_req (set_req s r
              { (get_ep s r).p_req with
                buf := bytes ++ (get_ep s r).p_req.buf.drop bytes.length }) r
              { (get_ep (set_req s r { (get_ep s r).p_req with
                    buf := bytes ++ (get_ep s r).p_req.buf.drop bytes.length }) r).p_req with
                length := min (get_ep s r).urb_buffer_size len }) r).2 r true) evs
          with ⟨b, s4, rest⟩
        obtain ⟨hw1, hw2⟩ := wait_event_only_adds Q (fun t => !is_write_channel_busy t c) evs
          (set_queued (usb_ep_queue (set_req (set_req s r
              { (get_ep s r).p_req with
                buf := bytes ++ (get_ep s r).p_req.buf.drop bytes.length }) r
              { (get_ep (set_req s r { (get_ep s r).p_req with
                    buf := bytes ++ (get_ep s r).p_req.buf.drop bytes.length }) r).p_req with
                length := min (get_ep s r).urb_buffer_size len }) r).2 r true) h
        rw [hw] at hw1 hw2
        have h04 : only_adds (fun x => (x.slot = r ∧ x.ep = p_ep_of r) ∨ Q x) s s4 :=
          only_adds_trans (only_adds_set_queued _ _ (hq _ _))
            (only_adds_mono (fun _ hx => Or.inr hx) hw1)
        cases b with
        | false => exact h04
        | true =>
          simp only []
          split_ifs
          · exact only_adds_trans h04 (ih _ _ _ _ _ (fun e he => h e (hw2 e he)))
          · exact h04

/-! ## send_data_error -/

theorem bps_write_impl_only_adds (Q : usb_xfer → Prop) (s : bps_state) (c : chan)
    (nonblock : Bool) (p_user : user_ptr) (len : Nat) (r : bps_ep_ref) (evs : List event)
    (h : ∀ e ∈ evs, ∀ t, only_adds Q t (deliver t e)) :
    only_adds (fun x => (x.slot = r ∧ x.ep = p_ep_of r) ∨ Q x) s
      (bps_write_impl s c nonblock p_user len r evs).2 := by
  unfold bps_write_impl
  split_ifs
  · exact only_adds_refl _ _
  · exact only_adds_refl _ _
  · exact bps_write_loop_only_adds Q c r _ s p_user len 0 evs h

theorem send_data_error_only_adds (Q : usb_xfer → Prop) (s : bps_state) (c : chan)
    (nonblock : Bool) (ioarg : ioctl_arg) (evs : List event)
    (h : ∀ e ∈ evs, ∀ t, only_adds Q t (deliver t e)) :
    only_adds (fun x => (x.slot = .data_err ∧ x.ep = .BULKIN2) ∨ Q x) s
      (send_data_error s c nonblock ioarg evs).2 := by
  unfold send_data_error
  split_ifs
  · exact only_adds_refl _ _
  · cases hd : ioarg.data_error with
    | none => exact only_adds_refl _ _
    | some pl => exact bps_write_impl_only_adds Q s c nonblock pl.1 pl.2 .data_err evs h

/-- C14: send_data_error called on the CONFIG channel's handle returns -EOPNOTSUPP,
hands nothing to the transport and leaves the driver state unchanged.  Called on the
DATA channel's handle, the transfers handed to the transport during the call are
appended to the log; each of them is either on the shared error-report slot, whose
endpoint is the CONFIG channel's IN endpoint, or a request that code running from the
USB core queued while the caller slept (the control response, an OUT request); none is
on the DATA channel's IN slot, the CONFIG channel's IN slot or a notify slot.  When the
events that arrive while the caller sleeps queue nothing themselves, every transfer
handed over during the call is on the error-report slot. -/
theorem send_data_error_slot (s : bps_state) (c : chan) (nonblock : Bool)
    (ioarg : ioctl_arg) (evs : List event) :
    ((s.cdevs c).channel = .CONFIG_CHANNEL →
        send_data_error s c nonblock ioarg evs = (.returned (- EOPNOTSUPP), s)) ∧
      ((s.cdevs c).channel = .DATA_CHANNEL →
        (send_data_error s c nonblock ioarg evs).2.udc.submitted =
            s.udc.submitted ++ new_xfers s (send_data_error s c nonblock ioarg evs).2 ∧
          (∀ x ∈ new_xfers s (send_data_error s c nonblock ioarg evs).2,
            ((x.slot = .data_err ∧ x.ep = p_inep .CONFIG_CHANNEL) ∨ handler_xfer x) ∧
              x.slot ≠ .list (p_inep .DATA_CHANNEL) ∧
              x.slot ≠ .list (p_inep .CONFIG_CHANNEL) ∧ ∀ c2, x.slot ≠ .intr c2) ∧
          ((∀ e ∈ evs, ∀ t, (deliver t e).udc.submitted = t.udc.submitted) →
            ∀ x ∈ new_xfers s (send_data_error s c nonblock ioarg evs).2,
              x.slot = .data_err ∧ x.ep = p_inep .CONFIG_CHANNEL)) := by
  constructor
  · intro h
    simp [send_data_error, h]
  · intro _
    obtain ⟨xs, hxs, hP⟩ := send_data_error_only_adds handler_xfer s c nonblock ioarg evs
      (fun e _ t => deliver_only_adds t e)
    rw [new_xfers_append s _ xs hxs]
    refine ⟨hxs, ?_, ?_⟩
    · intro x hx
      rcases hP x hx with h | h
      · exact ⟨Or.inl h, by rw [h.1]; simp, by rw [h.1]; simp, fun c2 => by rw [h.1]; simp⟩
      · refine ⟨Or.inr h, ?_, ?_, ?_⟩
        · rw [h.1]
          rcases h.2 with h2 | h2 | h2 <;> simp [h2, p_inep]
        · rw [h.1]
          rcases h.2 with h2 | h2 | h2 <;> simp [h2, p_inep]
        · intro c2
          rw [h.1]
          simp
    · intro hquiet
      obtain ⟨ys, hys, hQ⟩ := send_data_error_only_adds (fun _ => False) s c nonblock ioarg
        evs (fun e he t => only_adds_of_eq _ _ _ (hquiet e he t))
      have hxy : xs = ys := List.append_cancel_left (hxs.symm.trans hys)
      intro x hx
      rw [hxy] at hx
      rcases hQ x hx with h | h
      · exact h
      · exact h.elim

theorem send_data_error_slot_witness :
    (send_data_error configured_state .DATA_CHANNEL false ⟨0, some (.addr [7, 8, 9], 3)⟩
        [.complete .data_err 0 3 []]).1 = .returned 3 ∧
      (new_xfers configured_state
        (send_data_error configured_state .DATA_CHANNEL false ⟨0, some (.addr [7, 8, 9], 3)⟩
          [.complete .data_err 0 3 []]).2).map (fun x => (x.ep, x.slot)) =
        [(.BULKIN2, .data_err)] ∧
      ∀ x ∈ new_xfers configured_state
        (send_data_error configured_state .DATA_CHANNEL false ⟨0, some (.addr [7, 8, 9], 3)⟩
          [.complete .data_err 0 3 []]).2,
        x.slot = .data_err ∧ x.ep = p_inep .CONFIG_CHANNEL :=
  ⟨by decide, by decide,
    ((send_data_error_slot configured_state .DATA_CHANNEL false
      ⟨0, some (.addr [7, 8, 9], 3)⟩ [.complete .data_err 0 3 []]).2 rfl).2.2
      (by
        intro e he t
        rw [List.mem_singleton] at he
        rw [he]
        cases hq : (get_ep t .data_err).queued <;>
          simp [deliver, complete_request, has_req, hq, give_back, data_err_urb_complete])⟩

/-! ## suspend_gadget -/

theorem dequeue_request_suspended (t : bps_state) (r : bps_ep_ref)
    (hs : t.suspended = true) (hgb : t.udc.dequeue_gives_back = true) :
    dequeue_request t r =
      if has_req r = true ∧ (get_ep t r).queued = true then
        set_queued (set_req t r { (get_ep t r).p_req with status := - ECONNRESET }) r false
      else t := by
  by_cases hq : (get_ep t r).queued = true
  · cases r with
    | list i =>
      cases i <;>
        simp [dequeue_request, has_req, hq, usb_ep_dequeue, hgb, give_back, ep0_complete,
          bulk_urb_complete, hs]
    | data_err =>
      simp [dequeue_request, has_req, hq, usb_ep_dequeue, hgb, give_back,
        data_err_urb_complete]
    | intr c =>
      simp [dequeue_request, has_req, hq, usb_ep_dequeue, hgb, give_back, intr_urb_complete]
  · simp [dequeue_request, hq]

theorem dequeue_request_suspended_frame (t : bps_state) (r : bps_ep_ref)
    (hs : t.suspended = true) (hgb : t.udc.dequeue_gives_back = true) :
    (dequeue_request t r).suspended = true ∧ (dequeue_request t r).udc = t.udc ∧
      (has_req r = true → (get_ep (dequeue_request t r) r).queued = false) ∧
      (∀ r2, r2 ≠ r → get_ep (dequeue_request t r) r2 = get_ep t r2) ∧
      (∀ r2, (get_ep t r2).queued = false →
        (get_ep (dequeue_request t r) r2).queued = false) := by
  rw [dequeue_request_suspended t r hs hgb]
  by_cases h : has_req r = true ∧ (get_ep t r).queued = true
  · rw [if_pos h]
    refine ⟨by simp [hs], by simp, fun _ => by simp, ?_, ?_⟩
    · intro r2 h2
      rw [get_ep_set_queued_other _ _ _ _ h2, get_ep_set_req_other _ _ _ _ h2]
    · intro r2 h2
      by_cases h3 : r2 = r
      · rw [h3]
        simp
      · rw [get_ep_set_queued_other _ _ _ _ h3, get_ep_set_req_other _ _ _ _ h3]
        exact h2
  · rw [if_neg h]
    refine ⟨hs, rfl, ?_, fun _ _ => rfl, fun _ h2 => h2⟩
    intro hr
    cases hq : (get_ep t r).queued
    · rfl
    · exact absurd ⟨hr, hq⟩ h

theorem dequeue_all_suspended (l : List bps_ep_ref) :
    ∀ t : bps_state, t.suspended = true → t.udc.dequeue_gives_back = true →
      (l.foldl dequeue_request t).suspended = true ∧
        (l.foldl dequeue_request t).udc = t.udc ∧
        (∀ r ∈ l, has_req r = true → (get_ep (l.foldl dequeue_request t) r).queued = false) ∧
        (∀ r2, r2 ∉ l → get_ep (l.foldl dequeue_request t) r2 = get_ep t r2) ∧
        (∀ r2, (get_ep t r2).queued = false →
          (get_ep (l.foldl dequeue_request t) r2).queued = false) := by
  induction l with
  | nil =>
    intro t hs _
    exact ⟨hs, rfl, by simp, fun _ _ => rfl, fun _ h => h⟩
  | cons r l ih =>
    intro t hs hgb
    obtain ⟨h1, h2, h3, h4, h5⟩ := dequeue_request_suspended_frame t r hs hgb
    obtain ⟨k1, k2, k3, k4, k5⟩ := ih (dequeue_request t r) h1 (by rw [h2]; exact hgb)
    rw [List.foldl_cons]
    refine ⟨k1, by rw [k2, h2], ?_, ?_, ?_⟩
    · intro r2 hr2 hreq
      rcases List.mem_cons.1 hr2 with h | h
      · rw [h]
        exact k5 r (h3 (h ▸ hreq))
      · exact k3 r2 h hreq
    · intro r2 hr2
      rw [List.mem_cons, not_or] at hr2
      rw [k4 r2 hr2.2, h4 r2 hr2.1]
    · intro r2 hq
      exact k5 r2 (h5 r2 hq)

theorem suspend_gadget_eq (s : bps_state) :
    suspend_gadget s = suspend_slots.foldl dequeue_request { s with suspended := true } :=
  rfl

/-- C17 (amended): after suspend_gadget, with the transport delivering the completion of
every transfer it is asked to cancel, the device is marked suspended and none of the
slots the function walks reports queued = true: the error-report slot, the two notify
slots, and the data/config OUT and IN slots.  The control slot is not walked (the loop
starts at FIRST_BPS_EP): it is left exactly as it was.  Nothing is handed to the
transport, so no cancelled OUT transfer is resubmitted. -/
theorem suspend_gadget_dequeues (s : bps_state) (hgb : s.udc.dequeue_gives_back = true) :
    (suspend_gadget s).suspended = true ∧
      (get_ep (suspend_gadget s) .data_err).queued = false ∧
      (∀ c, (get_ep (suspend_gadget s) (.intr c)).queued = false ∧
        (get_ep (suspend_gadget s) (.list (p_outep c))).queued = false ∧
        (get_ep (suspend_gadget s) (.list (p_inep c))).queued = false) ∧
      get_ep (suspend_gadget s) (.list .EP0) = get_ep s (.list .EP0) ∧
      (suspend_gadget s).udc = s.udc ∧
      new_xfers s (suspend_gadget s) = [] := by
  obtain ⟨h1, h2, h3, h4, _⟩ :=
    dequeue_all_suspended suspend_slots { s with suspended := true } rfl hgb
  rw [suspend_gadget_eq]
  refine ⟨h1, h3 _ (by simp [suspend_slots]) rfl, ?_, ?_, h2, ?_⟩
  · intro c
    cases c <;>
      exact ⟨h3 _ (by simp [suspend_slots]) rfl, h3 _ (by simp [suspend_slots, p_outep]) rfl,
        h3 _ (by simp [suspend_slots, p_inep]) rfl⟩
  · exact h4 _ (by simp [suspend_slots])
  · simp [new_xfers, h2]

theorem suspend_gadget_dequeues_witness :
    (suspend_gadget opened_state).suspended = true ∧
      (get_ep opened_state (.list .BULKOUT1)).queued = true ∧
      (get_ep (suspend_gadget opened_state) (.list .BULKOUT1)).queued = false ∧
      new_xfers opened_state (suspend_gadget opened_state) = [] :=
  have h := suspend_gadget_dequeues opened_state (by decide)
  ⟨h.1, by decide, (h.2.2.1 .DATA_CHANNEL).2.1, h.2.2.2.2.2⟩

/-- C17, as stated, fails for the control slot: suspend_gadget on a transport that
delivers the completion of every cancelled transfer leaves the queued control response
queued. -/
theorem suspend_gadget_control_counterexample :
    ep0_busy_state.udc.dequeue_gives_back = true ∧
      (get_ep ep0_busy_state (.list .EP0)).queued = true ∧
      (suspend_gadget ep0_busy_state).suspended = true ∧
      (get_ep (suspend_gadget ep0_busy_state) (.list .EP0)).queued = true := by
  decide

/-! ## resume_gadget -/

theorem get_ep_set_rx_bytes (s : bps_state) (c : chan) (n : Nat) (r : bps_ep_ref) :
    get_ep (set_rx_bytes s c n) r = get_ep s r := by
  cases r with
  | list i => rfl
  | data_err => rfl
  | intr c2 =>
    by_cases h : c2 = c
    · subst h
      simp [-ep_list_eq_get_ep, get_ep, set_rx_bytes, set_cdev]
    · simp [-ep_list_eq_get_ep, get_ep, set_rx_bytes, set_cdev, Function.update, h]

theorem queue_out_request_closed (t : bps_state) (c : chan)
    (h : (t.cdevs c).opened = false) : queue_out_request t c = (- EINVAL, t) := by
  simp [queue_out_request, h]

theorem queue_out_request_frame (t : bps_state) (c : chan) :
    (queue_out_request t c).2.config_set = t.config_set ∧
      (queue_out_request t c).2.suspended = t.suspended ∧
      ((∀ rc ∈ t.udc.queue_rc, rc = 0) →
        ∀ rc ∈ (queue_out_request t c).2.udc.queue_rc, rc = 0) ∧
      (∀ r2, r2 ≠ .list (p_outep c) →
        get_ep (queue_out_request t c).2 r2 = get_ep t r2) ∧
      ((get_ep t (.list (p_outep c))).queued = true →
        (get_ep (queue_out_request t c).2 (.list (p_outep c))).queued = true) := by
  have htail : (∀ rc ∈ t.udc.queue_rc, rc = 0) → ∀ rc ∈ t.udc.queue_rc.tail, rc = 0 :=
    fun h rc hrc => h rc (List.mem_of_mem_tail hrc)
  have hu : ∀ q, (usb_ep_queue (set_req (set_rx_bytes t c 0) (.list (p_outep c)) q)
      (.list (p_outep c))).2.udc.queue_rc = t.udc.queue_rc.tail := by
    intro q
    simp [udc_usb_ep_queue]
  unfold queue_out_request
  simp only []
  split_ifs with h1 h2 h3
  · exact ⟨rfl, rfl, fun h => h, fun _ _ => rfl, fun h => h⟩
  · refine ⟨by simp, by simp, fun h => by rw [hu]; exact htail h, ?_, ?_⟩
    · intro r2 hr2
      simp [get_ep_set_req_other _ _ _ _ hr2, get_ep_set_rx_bytes]
    · intro hq
      simp [hq] at h2
  · refine ⟨by simp, by simp, ?_, ?_, by simp⟩
    · intro h
      simp only [udc_set_queued]
      rw [hu]
      exact htail h
    · intro r2 hr2
      simp [get_ep_set_queued_other _ _ _ _ hr2, get_ep_set_req_other _ _ _ _ hr2,
        get_ep_set_rx_bytes]
  · exact ⟨rfl, rfl, fun h => h, fun _ _ => rfl, fun h => h⟩

theorem resume_gadget_eq (s : bps_state) :
    resume_gadget s =
      (queue_out_request (queue_out_request { s with suspended := false } .DATA_CHANNEL).2
        .CONFIG_CHANNEL).2 :=
  rfl

theorem p_outep_ne (c d : chan) (h : c ≠ d) :
    bps_ep_ref.list (p_outep c) ≠ bps_ep_ref.list (p_outep d) := by
  cases c <;> cases d <;> simp [p_outep] at h ⊢

theorem queue_out_request_queues (t : bps_state) (c : chan) (hc : t.config_set = true)
    (hs : t.suspended = false) (ho : (t.cdevs c).opened = true)
    (hacc : ∀ rc ∈ t.udc.queue_rc, rc = 0) :
    (get_ep (queue_out_request t c).2 (.list (p_outep c))).queued = true := by
  cases hq : (get_ep t (.list (p_outep c))).queued
  · exact (queue_out_request_accepted t c hc hs ho hq (next_queue_rc_accepting t hacc)).2.2.1
  · exact (queue_out_request_frame t c).2.2.2.2 hq

theorem queue_both (t : bps_state) (hs : t.suspended = false) :
    (queue_out_request (queue_out_request t .DATA_CHANNEL).2 .CONFIG_CHANNEL).2.suspended =
        false ∧
      (∀ c, (t.cdevs c).opened = true → t.config_set = true →
        (∀ rc ∈ t.udc.queue_rc, rc = 0) →
        (get_ep (queue_out_request (queue_out_request t .DATA_CHANNEL).2 .CONFIG_CHANNEL).2
          (.list (p_outep c))).queued = true) ∧
      (∀ c, (t.cdevs c).opened = false →
        get_ep (queue_out_request (queue_out_request t .DATA_CHANNEL).2 .CONFIG_CHANNEL).2
          (.list (p_outep c)) = get_ep t (.list (p_outep c))) ∧
      only_adds (fun x => ∃ c, (t.cdevs c).opened = true ∧
          x.slot = .list (p_outep c) ∧ x.ep = p_outep c) t
        (queue_out_request (queue_out_request t .DATA_CHANNEL).2 .CONFIG_CHANNEL).2 ∧
      (t.config_set = false →
        (queue_out_request (queue_out_request t .DATA_CHANNEL).2 .CONFIG_CHANNEL).2 = t) := by
  have hD := queue_out_request_frame t .DATA_CHANNEL
  have hC := queue_out_request_frame (queue_out_request t .DATA_CHANNEL).2 .CONFIG_CHANNEL
  have hoD : ∀ c, ((queue_out_request t .DATA_CHANNEL).2.cdevs c).opened =
      (t.cdevs c).opened := fun c => by simp
  have hxD : only_adds (fun x => (t.cdevs .DATA_CHANNEL).opened = true ∧
      x.slot = .list (p_outep .DATA_CHANNEL) ∧ x.ep = p_outep .DATA_CHANNEL) t
      (queue_out_request t .DATA_CHANNEL).2 := by
    cases ho : (t.cdevs .DATA_CHANNEL).opened
    · rw [queue_out_request_closed t _ ho]
      exact only_adds_refl _ _
    · exact only_adds_mono (fun x hx => ⟨rfl, hx⟩) (queue_out_request_only_adds _ _)
  have hxC : only_adds (fun x => (t.cdevs .CONFIG_CHANNEL).opened = true ∧
      x.slot = .list (p_outep .CONFIG_CHANNEL) ∧ x.ep = p_outep .CONFIG_CHANNEL)
      (queue_out_request t .DATA_CHANNEL).2
      (queue_out_request (queue_out_request t .DATA_CHANNEL).2 .CONFIG_CHANNEL).2 := by
    cases ho : (t.cdevs .CONFIG_CHANNEL).opened
    · rw [queue_out_request_closed (queue_out_request t .DATA_CHANNEL).2 .CONFIG_CHANNEL
        (by rw [hoD]; exact ho)]
      exact only_adds_refl _ _
    · exact only_adds_mono (fun x hx => ⟨rfl, hx⟩) (queue_out_request_only_adds _ _)
  refine ⟨?_, ?_, ?_, ?_, ?_⟩
  · rw [hC.2.1, hD.2.1, hs]
  · intro c ho hc hacc
    cases c with
    | DATA_CHANNEL =>
      rw [hC.2.2.2.1 _ (p_outep_ne _ _ (by decide))]
      exact queue_out_request_queues t _ hc hs ho hacc
    | CONFIG_CHANNEL =>
      exact queue_out_request_queues _ _ (by rw [hD.1]; exact hc) (by rw [hD.2.1]; exact hs)
        (by rw [hoD]; exact ho) (hD.2.2.1 hacc)
  · intro c ho
    cases c with
    | DATA_CHANNEL =>
      rw [hC.2.2.2.1 _ (p_outep_ne _ _ (by decide)), queue_out_request_closed t _ ho]
    | CONFIG_CHANNEL =>
      rw [queue_out_request_closed (queue_out_request t .DATA_CHANNEL).2 .CONFIG_CHANNEL
        (by rw [hoD]; exact ho), hD.2.2.2.1 _ (p_outep_ne _ _ (by decide))]
  · exact only_adds_trans (only_adds_mono (fun x hx => ⟨.DATA_CHANNEL, hx⟩) hxD)
      (only_adds_mono (fun x hx => ⟨.CONFIG_CHANNEL, hx⟩) hxC)
  · intro hc
    simp [queue_out_request, hc]

/-- C18 (amended): after resume_gadget the suspended flag is clear.  If the device is
configured and the transport accepts the submissions, the OUT slot of every channel
that is open is queued = true again.  The OUT slot of a channel that is not open is
left as it was and no transfer is handed to the transport on it; every transfer that is
handed over is on the OUT slot of an open channel.  While the device is not configured
nothing is handed over and every slot is left as it was. -/
theorem resume_gadget_requeues (s : bps_state) :
    (resume_gadget s).suspended = false ∧
      (∀ c, (s.cdevs c).opened = true → s.config_set = true →
        (∀ rc ∈ s.udc.queue_rc, rc = 0) →
        (get_ep (resume_gadget s) (.list (p_outep c))).queued = true) ∧
      (∀ c, (s.cdevs c).opened = false →
        get_ep (resume_gadget s) (.list (p_outep c)) = get_ep s (.list (p_outep c)) ∧
          ∀ x ∈ new_xfers s (resume_gadget s), x.slot ≠ .list (p_outep c)) ∧
      (resume_gadget s).udc.submitted = s.udc.submitted ++ new_xfers s (resume_gadget s) ∧
      (∀ x ∈ new_xfers s (resume_gadget s),
        ∃ c, (s.cdevs c).opened = true ∧ x.slot = .list (p_outep c) ∧ x.ep = p_outep c) ∧
      (s.config_set = false → resume_gadget s = { s with suspended := false }) := by
  obtain ⟨h1, h2, h3, ⟨xs, hxs, hP⟩, h5⟩ := queue_both { s with suspended := false } rfl
  have hxs2 : (resume_gadget s).udc.submitted = s.udc.submitted ++ xs := hxs
  rw [new_xfers_append s _ xs hxs2]
  refine ⟨h1, h2, ?_, hxs2, hP, h5⟩
  intro c ho
  refine ⟨h3 c ho, ?_⟩
  intro x hx hslot
  obtain ⟨c2, ho2, hs2, _⟩ := hP x hx
  rw [hs2] at hslot
  have hcc : c2 = c := by
    cases c2 <;> cases c <;> simp [p_outep] at hslot ⊢
  rw [hcc] at ho2
  exact absurd (ho.symm.trans ho2) (by decide)

theorem resume_gadget_requeues_witness :
    (get_ep open_suspended_state (.list .BULKOUT1)).queued = false ∧
      (resume_gadget open_suspended_state).suspended = false ∧
      (get_ep (resume_gadget open_suspended_state) (.list .BULKOUT1)).queued = true ∧
      (get_ep (resume_gadget open_suspended_state) (.list .BULKOUT2)).queued = false :=
  have h := resume_gadget_requeues open_suspended_state
  ⟨by decide, h.1, h.2.1 .DATA_CHANNEL (by decide) (by decide) (by decide), by decide⟩

/-- C18, as stated, fails when the device is not configured: after a disconnect that
found the DATA channel open, resume_gadget clears the suspended flag and leaves the
OUT slot of the open channel idle; nothing is handed to the transport.  It also fails
on a configured device when the transport rejects the submission: the OUT slot of the
open channel stays idle. -/
theorem resume_gadget_unconfigured_counterexample :
    ((open_unconfigured_state.cdevs .DATA_CHANNEL).opened = true ∧
        open_unconfigured_state.suspended = true ∧
        (resume_gadget open_unconfigured_state).suspended = false ∧
        (get_ep (resume_gadget open_unconfigured_state)
          (.list (p_outep .DATA_CHANNEL))).queued = false ∧
        (resume_gadget open_unconfigured_state).udc.submitted =
          open_unconfigured_state.udc.submitted) ∧
      ((open_suspended_rejecting_state.cdevs .DATA_CHANNEL).opened = true ∧
        open_suspended_rejecting_state.config_set = true ∧
        (resume_gadget open_suspended_rejecting_state).suspended = false ∧
        (get_ep (resume_gadget open_suspended_rejecting_state)
          (.list (p_outep .DATA_CHANNEL))).queued = false) := by
  decide

/-! ## Submitting on a slot that is already queued -/

theorem submitted_starts (P : usb_xfer → Prop) (s s3 t : bps_state) (x : usb_xfer)
    (h3 : s3.udc.submitted = s.udc.submitted ++ [x]) (h : only_adds P s3 t) :
    ∃ xs, t.udc.submitted = s.udc.submitted ++ x :: xs := by
  obtain ⟨xs, hxs, _⟩ := h
  exact ⟨xs, by rw [hxs, h3, List.append_assoc]; rfl⟩

theorem bps_write_loop_submits (c : chan) (r : bps_ep_ref) (fuel : Nat) (s : bps_state)
    (p_user : user_ptr) (len : Nat) (retval : Int) (evs : List event) (bytes : List Nat)
    (hlen : len ≠ 0)
    (hcopy : copy_from_user p_user (min (get_ep s r).urb_buffer_size len) = some bytes)
    (hc : s.config_set = true) (hs : s.suspended = false) (hrc : next_queue_rc s = 0) :
    ∃ x xs, (bps_write_loop (fuel + 1) s c p_user len retval r evs).2.udc.submitted =
        s.udc.submitted ++ x :: xs ∧ x.slot = r ∧ x.ep = p_ep_of r := by
  have hq : ∀ q1 q2, (set_queued (usb_ep_queue (set_req (set_req s r q1) r q2) r).2 r
      true).udc.submitted = s.udc.submitted ++ [⟨p_ep_of r, r, q2⟩] := by
    intro q1 q2
    simp [submitted_usb_ep_queue, hrc]
  have hrc1 : ∀ q1 q2, (usb_ep_queue (set_req (set_req s r q1) r q2) r).1 = 0 := by
    intro q1 q2
    simp [hrc]
  have hev : ∀ e ∈ evs, ∀ t, only_adds handler_xfer t (deliver t e) :=
    fun e _ t => deliver_only_adds t e
  rw [bps_write_loop, if_neg hlen]
  simp only [hcopy]
  split_ifs with h1 h2
  · simp [hc, hs] at h1
  · exact absurd (hrc1 _ _) h2
  · rcases hw : wait_event (fun t => !is_write_channel_busy t c)
        (set_queued (usb_ep_queue (set_req (set_req s r
          { (get_ep s r).p_req with
            buf := bytes ++ (get_ep s r).p_req.buf.drop bytes.length }) r
          { (get_ep (set_req s r { (get_ep s r).p_req with
                buf := bytes ++ (get_ep s r).p_req.buf.drop bytes.length }) r).p_req with
            length := min (get_ep s r).urb_buffer_size len }) r).2 r true) evs
      with ⟨b, s4, rest⟩
    obtain ⟨hw1, hw2⟩ := wait_event_only_adds handler_xfer
      (fun t => !is_write_channel_busy t c) evs
      (set_queued (usb_ep_queue (set_req (set_req s r
          { (get_ep s r).p_req with
            buf := bytes ++ (get_ep s r).p_req.buf.drop bytes.length }) r
          { (get_ep (set_req s r { (get_ep s r).p_req with
                buf := bytes ++ (get_ep s r).p_req.buf.drop bytes.length }) r).p_req with
            length := min (get_ep s r).urb_buffer_size len }) r).2 r true) hev
    rw [hw] at hw1 hw2
    have h34 := only_adds_mono (Q := fun x => (x.slot = r ∧ x.ep = p_ep_of r) ∨ handler_xfer x)
      (fun _ hx => Or.inr hx) hw1
    cases b with
    | false =>
      obtain ⟨xs, hxs⟩ := submitted_starts _ s _ s4 _ (hq _ _) hw1
      exact ⟨_, xs, hxs, rfl, rfl⟩
    | true =>
      simp only []
      split_ifs
      · obtain ⟨xs, hxs⟩ := submitted_starts _ s _ _ _ (hq _ _)
          (only_adds_trans h34 (bps_write_loop_only_adds handler_xfer c r fuel s4
            (p_user.add (get_ep s4 r).p_req.actual)
            (size_t_sub len (get_ep s4 r).p_req.actual)
            (ssize_t_add retval (get_ep s4 r).p_req.actual) rest
            (fun e _ t => deliver_only_adds t e)))
        exact ⟨_, xs, hxs, rfl, rfl⟩
      · obtain ⟨xs, hxs⟩ := submitted_starts _ s _ s4 _ (hq _ _) hw1
        exact ⟨_, xs, hxs, rfl, rfl⟩

theorem send_zlp_submits (s : bps_state) (c : chan) (evs : List event)
    (hc : s.config_set = true) (hs : s.suspended = false) (hrc : next_queue_rc s = 0) :
    ∃ x xs, (send_zlp s c false evs).2.udc.submitted = s.udc.submitted ++ x :: xs ∧
      x.slot = .list (p_inep c) ∧ x.ep = p_inep c := by
  have hq : ∀ q, (set_queued (usb_ep_queue (set_req s (.list (p_inep c)) q)
      (.list (p_inep c))).2 (.list (p_inep c)) true).udc.submitted =
      s.udc.submitted ++ [⟨p_inep c, .list (p_inep c), q⟩] := by
    intro q
    simp [submitted_usb_ep_queue, hrc, p_ep_of]
  have hrc1 : ∀ q, (usb_ep_queue (set_req s (.list (p_inep c)) q) (.list (p_inep c))).1 = 0 := by
    intro q
    simp [hrc]
  unfold send_zlp
  simp only [Bool.false_eq_true, if_false]
  split_ifs with h1 h2
  · simp [hc, hs] at h1
  · exact absurd (hrc1 _) h2
  · rcases hw : wait_event (fun t => !is_write_channel_busy t c)
        (set_queued (usb_ep_queue (set_req s (.list (p_inep c))
          { (get_ep s (.list (p_inep c))).p_req with length := 0, zero := true })
          (.list (p_inep c))).2 (.list (p_inep c)) true) evs
      with ⟨b, s3, rest⟩
    obtain ⟨hw1, _⟩ := wait_event_only_adds handler_xfer
      (fun t => !is_write_channel_busy t c) evs
      (set_queued (usb_ep_queue (set_req s (.list (p_inep c))
          { (get_ep s (.list (p_inep c))).p_req with length := 0, zero := true })
          (.list (p_inep c))).2 (.list (p_inep c)) true) (fun e _ t => deliver_only_adds t e)
    rw [hw] at hw1
    cases b with
    | false =>
      obtain ⟨xs, hxs⟩ := submitted_starts _ s _ s3 _ (hq _) hw1
      exact ⟨_, xs, hxs, rfl, rfl⟩
    | true =>
      obtain ⟨xs, hxs⟩ := submitted_starts _ s _ _ _ (hq _)
        (only_adds_set_req (.list (p_inep c))
          { (get_ep s3 (.list (p_inep c))).p_req with zero := false } hw1)
      exact ⟨_, xs, hxs, rfl, rfl⟩

theorem send_intr_notification_submits (s : bps_state) (c : chan) (value : Nat)
    (evs : List event) (hv : value = DATA_CHANNEL_INTR_VALUE ∨ value = CONFIG_CHANNEL_INTR_VALUE)
    (hc : s.config_set = true) (hs : s.suspended = false) (hrc : next_queue_rc s = 0) :
    ∃ x xs, (send_intr_notification s c false value evs).2.udc.submitted =
        s.udc.submitted ++ x :: xs ∧ x.slot = .intr c ∧ x.ep = .INTRIN1 := by
  have hq : ∀ q, (set_queued (usb_ep_queue (set_req s (.intr c) q) (.intr c)).2 (.intr c)
      true).udc.submitted = s.udc.submitted ++ [⟨.INTRIN1, .intr c, q⟩] := by
    intro q
    simp [submitted_usb_ep_queue, hrc, p_ep_of]
  have hrc1 : ∀ q, (usb_ep_queue (set_req s (.intr c) q) (.intr c)).1 = 0 := by
    intro q
    simp [hrc]
  have hv2 : ¬ (DATA_CHANNEL_INTR_VALUE ≠ value ∧ CONFIG_CHANNEL_INTR_VALUE ≠ value) := by
    rcases hv with h | h <;> simp [h]
  unfold send_intr_notification
  simp only [Bool.false_eq_true, if_false]
  rw [if_neg hv2]
  split_ifs with h1 h2
  · simp [hc, hs] at h1
  · exact absurd (hrc1 _) h2
  · rcases hw : wait_event (fun t => !(get_ep t (.intr c)).queued)
        (set_queued (usb_ep_queue (set_req s (.intr c)
          { (get_ep s (.intr c)).p_req with
            buf := (value % 256) :: (get_ep s (.intr c)).p_req.buf.drop 1 })
          (.intr c)).2 (.intr c) true) evs
      with ⟨b, s3, rest⟩
    obtain ⟨hw1, _⟩ := wait_event_only_adds handler_xfer
      (fun t => !(get_ep t (.intr c)).queued) evs
      (set_queued (usb_ep_queue (set_req s (.intr c)
          { (get_ep s (.intr c)).p_req with
            buf := (value % 256) :: (get_ep s (.intr c)).p_req.buf.drop 1 })
          (.intr c)).2 (.intr c) true) (fun e _ t => deliver_only_adds t e)
    rw [hw] at hw1
    obtain ⟨xs, hxs⟩ := submitted_starts _ s _ s3 _ (hq _) hw1
    cases b <;> exact ⟨_, xs, hxs, rfl, rfl⟩

/-- C20 (amended): take a slot whose queued flag is already true.  queue_out_request on
it (the OUT slot of a channel) hands nothing to the transport and leaves the driver
state unchanged; it returns 0, or -EINVAL when the device is unconfigured or suspended
or the channel closed, not Busy.  bps_write_impl, send_zlp and send_intr_notification
in non-blocking mode fail with WouldBlock (-EWOULDBLOCK) and leave the state unchanged.
In blocking mode these three do not test the queued flag: on a configured,
non-suspended device whose transport accepts the submission they hand the slot's
request to the transport once more. -/
theorem submit_on_queued_slot (s : bps_state) (r : bps_ep_ref)
    (hq : (get_ep s r).queued = true) :
    (∀ c, r = .list (p_outep c) →
        (queue_out_request s c).2 = s ∧
          (queue_out_request s c).1 =
            if s.config_set = false ∨ s.suspended = true ∨ (s.cdevs c).opened = false
            then - EINVAL else 0) ∧
      (∀ c p_user len evs, p_user ≠ .NULL → len ≠ 0 →
        bps_write_impl s c true p_user len r evs = (.returned (- EWOULDBLOCK), s)) ∧
      (∀ c evs, r = .list (p_inep c) →
        send_zlp s c true evs = (.returned (- EWOULDBLOCK), s)) ∧
      (∀ c value evs, r = .intr c →
        value = DATA_CHANNEL_INTR_VALUE ∨ value = CONFIG_CHANNEL_INTR_VALUE →
        send_intr_notification s c true value evs = (.returned (- EWOULDBLOCK), s)) ∧
      (s.config_set = true → s.suspended = false → next_queue_rc s = 0 →
        (∀ c p_user len evs bytes, p_user ≠ .NULL → len ≠ 0 →
          copy_from_user p_user (min (get_ep s r).urb_buffer_size len) = some bytes →
          ∃ x xs, (bps_write_impl s c false p_user len r evs).2.udc.submitted =
            s.udc.submitted ++ x :: xs ∧ x.slot = r ∧ x.ep = p_ep_of r) ∧
        (∀ c evs, r = .list (p_inep c) →
          ∃ x xs, (send_zlp s c false evs).2.udc.submitted =
            s.udc.submitted ++ x :: xs ∧ x.slot = r ∧ x.ep = p_ep_of r) ∧
        (∀ c value evs, r = .intr c →
          value = DATA_CHANNEL_INTR_VALUE ∨ value = CONFIG_CHANNEL_INTR_VALUE →
          ∃ x xs, (send_intr_notification s c false value evs).2.udc.submitted =
            s.udc.submitted ++ x :: xs ∧ x.slot = r ∧ x.ep = p_ep_of r)) := by
  refine ⟨?_, ?_, ?_, ?_, ?_⟩
  · intro c hr
    rw [hr] at hq
    by_cases h1 : s.config_set = false ∨ s.suspended = true ∨ (s.cdevs c).opened = false
    · simp only [queue_out_request, if_pos h1, and_self]
    · simp [queue_out_request, h1, hq]
  · intro c p_user len evs hp hlen
    simp [bps_write_impl, hp, hlen]
  · intro c evs _
    simp [send_zlp]
  · intro c value evs _ hv
    rcases hv with h | h <;> simp [send_intr_notification, h]
  · intro hc hs hrc
    refine ⟨?_, ?_, ?_⟩
    · intro c p_user len evs bytes hp hlen hcopy
      have hw : bps_write_impl s c false p_user len r evs =
          bps_write_loop (evs.length + 1) s c p_user len 0 r evs := by
        simp [bps_write_impl, hp, hlen]
      rw [hw]
      exact bps_write_loop_submits c r _ s p_user len 0 evs bytes hlen hcopy hc hs hrc
    · intro c evs hr
      rw [hr]
      exact send_zlp_submits s c evs hc hs hrc
    · intro c value evs hr hv
      rw [hr]
      exact send_intr_notification_submits s c value evs hv hc hs hrc

theorem submit_on_queued_slot_witness :
    (get_ep opened_state (.list .BULKOUT1)).queued = true ∧
      (queue_out_request opened_state .DATA_CHANNEL).2 = opened_state ∧
      (queue_out_request opened_state .DATA_CHANNEL).1 = 0 ∧
      bps_write_impl writing_state .DATA_CHANNEL true (.addr [8]) 1 (.list .BULKIN1) [] =
        (.returned (- EWOULDBLOCK), writing_state) :=
  ⟨by decide,
    ((submit_on_queued_slot opened_state (.list .BULKOUT1) (by decide)).1 .DATA_CHANNEL rfl).1,
    by decide,
    (submit_on_queued_slot writing_state (.list .BULKIN1) (by decide)).2.1 .DATA_CHANNEL
      (.addr [8]) 1 [] (by decide) (by decide)⟩

/-- C20, as stated, fails: queue_out_request on an OUT slot that is already queued
returns 0, not Busy; and a blocking bps_write on a DATA IN slot that is already queued
(an earlier writer sleeps on it) hands a second transfer on that slot to the transport
and, when the transfer completes, returns the byte count. -/
theorem submit_on_queued_slot_counterexample :
    ((get_ep opened_state (.list (p_outep .DATA_CHANNEL))).queued = true ∧
        (queue_out_request opened_state .DATA_CHANNEL).1 = 0) ∧
      ((get_ep writing_state (.list (p_inep .DATA_CHANNEL))).queued = true ∧
        (writing_state.udc.submitted.map (fun x => x.slot)) =
          [.list .BULKOUT1, .list .BULKIN1] ∧
        (bps_write writing_state .DATA_CHANNEL false (.addr [8]) 1
          [.complete (.list .BULKIN1) 0 1 []]).1 = .returned 1 ∧
        ((bps_write writing_state .DATA_CHANNEL false (.addr [8]) 1
          [.complete (.list .BULKIN1) 0 1 []]).2.udc.submitted.map (fun x => x.slot)) =
          [.list .BULKOUT1, .list .BULKIN1, .list .BULKIN1]) := by
  decide

/-! ## A submission the transport rejects -/

@[simp] theorem next_queue_rc_set_rx_bytes (s : bps_state) (c : chan) (n : Nat) :
    next_queue_rc (set_rx_bytes s c n) = next_queue_rc s := rfl

/-- C21: take a configured, non-suspended device whose transport rejects the next
submission (usb_ep_queue returns non-zero).  Each operation that reaches its submit on
an idle slot returns -EIO, leaves the slot's queued flag false and hands nothing to
the transport: queue_out_request on the OUT slot of an open channel; bps_write_impl in
blocking mode, at its first chunk and at any later round of its loop; send_zlp; and
send_intr_notification with a valid value. -/
theorem submit_rejected (s : bps_state) (hc : s.config_set = true)
    (hs : s.suspended = false) (hrc : next_queue_rc s ≠ 0) :
    (∀ c, (s.cdevs c).opened = true → (get_ep s (.list (p_outep c))).queued = false →
        (queue_out_request s c).1 = - EIO ∧
          (get_ep (queue_out_request s c).2 (.list (p_outep c))).queued = false ∧
          (queue_out_request s c).2.udc.submitted = s.udc.submitted) ∧
      (∀ fuel c p_user len retval r evs bytes, len ≠ 0 →
        copy_from_user p_user (min (get_ep s r).urb_buffer_size len) = some bytes →
        (get_ep s r).queued = false →
        (bps_write_loop (fuel + 1) s c p_user len retval r evs).1 = .returned (- EIO) ∧
          (get_ep (bps_write_loop (fuel + 1) s c p_user len retval r evs).2 r).queued =
            false ∧
          (bps_write_loop (fuel + 1) s c p_user len retval r evs).2.udc.submitted =
            s.udc.submitted) ∧
      (∀ c p_user len r evs bytes, p_user ≠ .NULL → len ≠ 0 →
        copy_from_user p_user (min (get_ep s r).urb_buffer_size len) = some bytes →
        (get_ep s r).queued = false →
        (bps_write_impl s c false p_user len r evs).1 = .returned (- EIO) ∧
          (get_ep (bps_write_impl s c false p_user len r evs).2 r).queued = false ∧
          (bps_write_impl s c false p_user len r evs).2.udc.submitted = s.udc.submitted) ∧
      (∀ c evs, (get_ep s (.list (p_inep c))).queued = false →
        (send_zlp s c false evs).1 = .returned (- EIO) ∧
          (get_ep (send_zlp s c false evs).2 (.list (p_inep c))).queued = false ∧
          (send_zlp s c false evs).2.udc.submitted = s.udc.submitted) ∧
      (∀ c value evs,
        value = DATA_CHANNEL_INTR_VALUE ∨ value = CONFIG_CHANNEL_INTR_VALUE →
        (get_ep s (.intr c)).queued = false →
        (send_intr_notification s c false value evs).1 = .returned (- EIO) ∧
          (get_ep (send_intr_notification s c false value evs).2 (.intr c)).queued = false ∧
          (send_intr_notification s c false value evs).2.udc.submitted =
            s.udc.submitted) := by
  have hloop : ∀ fuel c p_user len retval r evs bytes, len ≠ 0 →
      copy_from_user p_user (min (get_ep s r).urb_buffer_size len) = some bytes →
      (get_ep s r).queued = false →
      (bps_write_loop (fuel + 1) s c p_user len retval r evs).1 = .returned (- EIO) ∧
        (get_ep (bps_write_loop (fuel + 1) s c p_user len retval r evs).2 r).queued =
          false ∧
        (bps_write_loop (fuel + 1) s c p_user len retval r evs).2.udc.submitted =
          s.udc.submitted := by
    intro fuel c p_user len retval r evs bytes hlen hcopy hq
    rw [bps_write_loop, if_neg hlen]
    simp [hcopy, hc, hs, hrc, hq, submitted_usb_ep_queue]
  refine ⟨?_, hloop, ?_, ?_, ?_⟩
  · intro c ho hq
    have hq2 : (s.ep_list (p_outep c)).queued = false := hq
    simp [queue_out_request, hc, hs, ho, hq2, hq, hrc, submitted_usb_ep_queue,
      get_ep_set_rx_bytes]
  · intro c p_user len r evs bytes hp hlen hcopy hq
    have hw : bps_write_impl s c false p_user len r evs =
        bps_write_loop (evs.length + 1) s c p_user len 0 r evs := by
      simp [bps_write_impl, hp, hlen]
    rw [hw]
    exact hloop _ c p_user len 0 r evs bytes hlen hcopy hq
  · intro c evs hq
    simp [send_zlp, hc, hs, hrc, hq, submitted_usb_ep_queue]
  · intro c value evs hv hq
    rcases hv with h | h <;>
      simp [send_intr_notification, h, hc, hs, hrc, hq, submitted_usb_ep_queue,
        DATA_CHANNEL_INTR_VALUE, CONFIG_CHANNEL_INTR_VALUE]

theorem submit_rejected_witness :
    (bps_write_impl rejecting_state .DATA_CHANNEL false (.addr [1]) 1 (.list .BULKIN1) []).1 =
        .returned (- EIO) ∧
      (get_ep (bps_write_impl rejecting_state .DATA_CHANNEL false (.addr [1]) 1
        (.list .BULKIN1) []).2 (.list .BULKIN1)).queued = false :=
  have h := (submit_rejected rejecting_state (by decide) (by decide) (by decide)).2.2.1
    .DATA_CHANNEL (.addr [1]) 1 (.list .BULKIN1) [] [1] (by decide) (by decide) (by decide)
    (by decide)
  ⟨h.1, h.2.1⟩

/-! ## reset_config and set_config -/

theorem foldl_inv {α β : Type} (P : β → Prop) (f : β → α → β)
    (h : ∀ t a, P t → P (f t a)) (l : List α) (s : β) (hs : P s) : P (l.foldl f s) := by
  induction l generalizing s with
  | nil => exact hs
  | cons a l ih => exact ih (f s a) (h s a hs)

theorem give_back_unconfigured (t : bps_state) (r : bps_ep_ref) (status : Int)
    (actual : Nat) (h : t.config_set = false) :
    (give_back t r status actual).config_set = false ∧
      (give_back t r status actual).udc = t.udc ∧
      (give_back t r status actual).suspended = t.suspended := by
  cases r with
  | list i =>
    cases i <;> simp [give_back, ep0_complete, bulk_urb_complete, h]
  | data_err => simp [give_back, data_err_urb_complete, h]
  | intr c => simp [give_back, intr_urb_complete, h]

theorem dequeue_request_unconfigured (t : bps_state) (r : bps_ep_ref)
    (h : t.config_set = false) :
    (dequeue_request t r).config_set = false ∧ (dequeue_request t r).udc = t.udc ∧
      (dequeue_request t r).suspended = t.suspended := by
  unfold dequeue_request usb_ep_dequeue
  split_ifs
  · exact give_back_unconfigured t r _ _ h
  all_goals exact ⟨h, rfl, rfl⟩

theorem usb_ep_disable_unconfigured (t : bps_state) (i : ep_info)
    (h : t.config_set = false) :
    (usb_ep_disable t i).config_set = false ∧ (usb_ep_disable t i).udc = t.udc ∧
      (usb_ep_disable t i).suspended = t.suspended := by
  unfold usb_ep_disable
  simp only []
  refine foldl_inv (fun (u : bps_state) => u.config_set = false ∧ u.udc = t.udc ∧ u.suspended = t.suspended)
    _ ?_ _ _ ?_
  · intro u r hu
    split_ifs
    · obtain ⟨h1, h2, h3⟩ := give_back_unconfigured u r (- ESHUTDOWN)
        (get_ep u r).p_req.actual hu.1
      exact ⟨h1, h2.trans hu.2.1, h3.trans hu.2.2⟩
    · exact hu
  · exact ⟨h, rfl, rfl⟩

theorem reset_config_frame (s : bps_state) :
    (reset_config s).config_set = false ∧ (reset_config s).udc = s.udc ∧
      (reset_config s).suspended = s.suspended := by
  have step : ∀ (u : bps_state) (r : bps_ep_ref),
      (u.config_set = false ∧ u.udc = s.udc ∧ u.suspended = s.suspended) →
      ((dequeue_request u r).config_set = false ∧ (dequeue_request u r).udc = s.udc ∧
        (dequeue_request u r).suspended = s.suspended) := by
    intro u r hu
    obtain ⟨h1, h2, h3⟩ := dequeue_request_unconfigured u r hu.1
    exact ⟨h1, h2.trans hu.2.1, h3.trans hu.2.2⟩
  unfold reset_config disable_bps_eps
  simp only []
  refine foldl_inv (fun (u : bps_state) => u.config_set = false ∧ u.udc = s.udc ∧ u.suspended = s.suspended)
    _ ?_ _ _ ?_
  · intro u i hu
    have hd := step u (.list i) hu
    obtain ⟨h1, h2, h3⟩ := usb_ep_disable_unconfigured (dequeue_request u (.list i)) i hd.1
    exact ⟨h1, h2.trans hd.2.1, h3.trans hd.2.2⟩
  · exact step _ _ (step _ _ (step _ _ ⟨rfl, rfl, rfl⟩))

theorem usb_ep_enable_frame (s : bps_state) (i : ep_info) (hs : Bool) :
    (usb_ep_enable s i hs).2.config_set = s.config_set ∧
      (usb_ep_enable s i hs).2.suspended = s.suspended ∧
      (usb_ep_enable s i hs).2.udc.speed_high = s.udc.speed_high ∧
      (usb_ep_enable s i hs).2.udc.enable_log =
        s.udc.enable_log ++ [⟨i, hs, (usb_ep_enable s i hs).1⟩] := by
  unfold usb_ep_enable
  split <;> simp

theorem enable_eps_spec (l : List ep_info) :
    ∀ s : bps_state,
      (enable_eps s l).2.config_set = s.config_set ∧
        (enable_eps s l).2.suspended = s.suspended ∧
        (((enable_eps s l).1 = 0 ∧
            (enable_eps s l).2.udc.enable_log =
              s.udc.enable_log ++ l.map (fun i => ⟨i, s.udc.speed_high, 0⟩)) ∨
          ((enable_eps s l).1 = - ENODEV ∧
            ∃ k i rc, l[k]? = some i ∧ rc ≠ 0 ∧
              (enable_eps s l).2.udc.enable_log =
                s.udc.enable_log ++ ((l.take k).map (fun i => ⟨i, s.udc.speed_high, 0⟩) ++
                  [⟨i, s.udc.speed_high, rc⟩]))) := by
  induction l with
  | nil =>
    intro s
    simp [enable_eps]
  | cons i l ih =>
    intro s
    obtain ⟨e1, e2, e3, e4⟩ := usb_ep_enable_frame s i s.udc.speed_high
    rw [enable_eps]
    simp only [select_ep_descriptor]
    split_ifs with hrc
    · refine ⟨e1, e2, Or.inr ⟨rfl, 0, i, (usb_ep_enable s i s.udc.speed_high).1,
        by simp, hrc, ?_⟩⟩
      simpa using e4
    · have hrc0 : (usb_ep_enable s i s.udc.speed_high).1 = 0 := by
        by_contra h
        exact hrc h
      obtain ⟨i1, i2, i3⟩ := ih (usb_ep_enable s i s.udc.speed_high).2
      refine ⟨i1.trans e1, i2.trans e2, ?_⟩
      rcases i3 with ⟨r0, hlog⟩ | ⟨r1, k, j, rc, hk, hrcj, hlog⟩
      · left
        refine ⟨r0, ?_⟩
        rw [hlog, e4, e3, hrc0]
        simp
      · right
        refine ⟨r1, k + 1, j, rc, by simpa using hk, hrcj, ?_⟩
        rw [hlog, e4, e3, hrc0]
        simp

theorem udc_config_set_update (s : bps_state) (b : Bool) :
    ({ s with config_set := b } : bps_state).udc = s.udc := rfl

/-- C22: for every prior state and negotiated speed, set_config either returns 0 with
the device configured, after enabling all five non-control endpoints successfully, or
returns -ENODEV with the device unconfigured (also when it was configured before the
call), after stopping at the first endpoint whose enable failed.  Every
usb_ep_enable call is made with the high-speed descriptor exactly when the gadget
speed is high.  So set_config returns 0 if and only if the device is configured
afterwards, and if and only if the five endpoints were enabled successfully. -/
theorem set_config_enables (s : bps_state) :
    (((set_config s).1 = 0 ∧ (set_config s).2.config_set = true ∧
          new_enables s (set_config s).2 =
            bps_eps.map (fun i => ⟨i, s.udc.speed_high, 0⟩)) ∨
        ((set_config s).1 = - ENODEV ∧ (set_config s).2.config_set = false ∧
          ∃ k i rc, bps_eps[k]? = some i ∧ rc ≠ 0 ∧
            new_enables s (set_config s).2 =
              (bps_eps.take k).map (fun i => ⟨i, s.udc.speed_high, 0⟩) ++
                [⟨i, s.udc.speed_high, rc⟩])) ∧
      ((set_config s).1 = 0 ↔ (set_config s).2.config_set = true) ∧
      ((set_config s).1 = 0 ↔
        new_enables s (set_config s).2 = bps_eps.map (fun i => ⟨i, s.udc.speed_high, 0⟩)) := by
  obtain ⟨r1, r2, _⟩ := reset_config_frame s
  obtain ⟨e1, _, e3⟩ := enable_eps_spec bps_eps (reset_config s)
  rw [r2] at e3
  rw [r1] at e1
  have hmain : ((set_config s).1 = 0 ∧ (set_config s).2.config_set = true ∧
        new_enables s (set_config s).2 =
          bps_eps.map (fun i => ⟨i, s.udc.speed_high, 0⟩)) ∨
      ((set_config s).1 = - ENODEV ∧ (set_config s).2.config_set = false ∧
        ∃ k i rc, bps_eps[k]? = some i ∧ rc ≠ 0 ∧
          new_enables s (set_config s).2 =
            (bps_eps.take k).map (fun i => ⟨i, s.udc.speed_high, 0⟩) ++
              [⟨i, s.udc.speed_high, rc⟩]) := by
    rcases e3 with ⟨h0, hlog⟩ | ⟨h1, k, i, rc, hk, hrc, hlog⟩
    · left
      have hsc : set_config s =
          (0, { save_urb_lengths (enable_eps (reset_config s) bps_eps).2 with
            config_set := true }) := by
        unfold set_config
        simp only [h0, if_true]
      rw [hsc]
      refine ⟨rfl, rfl, ?_⟩
      simp [new_enables, udc_save_urb_lengths, hlog]
    · right
      have hne : (enable_eps (reset_config s) bps_eps).1 ≠ 0 := by
        rw [h1]
        decide
      have hsc : set_config s = ((enable_eps (reset_config s) bps_eps).1,
          (enable_eps (reset_config s) bps_eps).2) := by
        unfold set_config
        simp only [hne, if_false]
      rw [hsc]
      refine ⟨h1, e1, k, i, rc, hk, hrc, ?_⟩
      simp [new_enables, hlog]
  refine ⟨hmain, ?_, ?_⟩
  · rcases hmain with ⟨h0, hc, _⟩ | ⟨h1, hc, _⟩
    · simp [h0, hc]
    · simp [h1, hc, ENODEV]
  · rcases hmain with ⟨h0, _, hl⟩ | ⟨h1, _, k, i, rc, hk, hrc, hl⟩
    · simp [h0, hl]
    · have hne : (set_config s).1 ≠ 0 := by
        rw [h1]
        decide
      refine ⟨fun h => absurd h hne, fun h => ?_⟩
      exfalso
      rw [hl] at h
      have hk5 : k < 5 := by
        by_contra hk5
        have : bps_eps[k]? = none := by
          simp [bps_eps]
          omega
        rw [this] at hk
        cases hk
      have hlen := congrArg List.length h
      have hget := congrArg (fun l => (l[k]?).map (fun e => e.rc)) h
      simp [bps_eps] at hlen hget
      interval_cases k <;> simp_all [bps_eps]

/-! ## The length of a Get-Descriptor response -/

theorem setup_retval_capped (s : bps_state) (ctrl : usb_ctrlrequest)
    (hstd : ctrl.bRequestType &&& USB_TYPE_MASK = USB_TYPE_STANDARD)
    (hreq : ctrl.bRequest = USB_REQ_GET_DESCRIPTOR)
    (hty : (ctrl.wValue % 65536) >>> 8 = USB_DT_DEVICE ∨
      (ctrl.wValue % 65536) >>> 8 = USB_DT_CONFIG ∨
      (ctrl.wValue % 65536) >>> 8 = USB_DT_STRING) :
    (setup_retval s ctrl).1 ≤ ((ctrl.wLength % 65536 : Nat) : Int) := by
  unfold setup_retval
  simp only [hstd, hreq, if_true]
  rcases hty with h | h | h
  · simp only [h, if_true]
    exact Int.ofNat_le.2 (Nat.min_le_left _ _)
  · simp only [h, USB_DT_CONFIG, USB_DT_DEVICE, if_true]
    simp only [show ¬ (2 = 1) by decide, if_false]
    split_ifs with hr
    · exact Int.ofNat_le.2 (Nat.min_le_left _ _)
    · have : populate_config_buf ctrl (ctrl.wValue % 65536 &&& 255) < 0 := by omega
      omega
  · simp only [h, USB_DT_CONFIG, USB_DT_DEVICE, USB_DT_STRING, if_true]
    simp only [show ¬ (3 = 1) by decide, show ¬ (3 = 2) by decide, if_false]
    split_ifs with hr
    · exact Int.ofNat_le.2 (Nat.min_le_left _ _)
    · have : ctrl.string_len < 0 := by omega
      omega

/-- C23: on a dual-speed gadget setup_gadget answers a Get-Descriptor request for the
device qualifier in which the host asks for 4 bytes (wLength = 4) by queueing a
response of 10 bytes, the size of the qualifier, on the control endpoint: this reply
is not capped to wLength, unlike the device, configuration and string replies. -/
theorem setup_gadget_qualifier_uncapped :
    configured_state.udc.is_dualspeed = true ∧ qualifier_request.wLength = 4 ∧
      (setup_gadget configured_state qualifier_request).1 = 0 ∧
      (new_xfers configured_state (setup_gadget configured_state qualifier_request).2).map
        (fun x => (x.slot, x.req.length)) = [(.list .EP0, 10)] ∧
      (get_ep (setup_gadget configured_state qualifier_request).2 (.list .EP0)).queued =
        true := by
  decide

/-! ## Resubmitting an OUT slot that is already queued -/

/-- C26: take an open channel on a configured, non-suspended device.  If the channel's
OUT slot is already queued, queue_out_request returns 0 and leaves the whole driver
state as it was: nothing is handed to the transport, and the queued flag, the receive
cursor and the request's actual length are unchanged; so a second call in a row gives
the state of the first.  More generally, after any call that returned 0 (it queued the
slot or found it queued) a second call returns 0 and changes nothing. -/
theorem queue_out_request_idempotent (s : bps_state) (c : chan)
    (hc : s.config_set = true) (hs : s.suspended = false)
    (ho : (s.cdevs c).opened = true) :
    ((get_ep s (.list (p_outep c))).queued = true →
        queue_out_request s c = (0, s) ∧
          new_xfers s (queue_out_request s c).2 = [] ∧
          (get_ep (queue_out_request s c).2 (.list (p_outep c))).queued = true ∧
          ((queue_out_request s c).2.cdevs c).rx_bytes = (s.cdevs c).rx_bytes ∧
          (out_req (queue_out_request s c).2 c).actual = (out_req s c).actual ∧
          (queue_out_request (queue_out_request s c).2 c).2 = (queue_out_request s c).2) ∧
      ((queue_out_request s c).1 = 0 →
        queue_out_request (queue_out_request s c).2 c = (0, (queue_out_request s c).2)) := by
  have hidem : ∀ t : bps_state, t.config_set = true → t.suspended = false →
      (t.cdevs c).opened = true → (get_ep t (.list (p_outep c))).queued = true →
      queue_out_request t c = (0, t) := by
    intro t h1 h2 h3 h4
    have h5 : (t.ep_list (p_outep c)).queued = true := h4
    simp [queue_out_request, h1, h2, h3, h4]
  constructor
  · intro hq
    have h := hidem s hc hs ho hq
    rw [h]
    refine ⟨rfl, by simp [new_xfers], hq, rfl, rfl, ?_⟩
    show (queue_out_request s c).2 = s
    rw [h]
  · intro h0
    obtain ⟨f1, f2, _⟩ := queue_out_request_frame s c
    exact hidem _ (f1.trans hc) (f2.trans hs) (by simp [ho])
      (queue_out_request_ok_queued s c h0)

theorem queue_out_request_idempotent_witness :
    queue_out_request opened_state .DATA_CHANNEL = (0, opened_state) ∧
      (queue_out_request (queue_out_request opened_state .DATA_CHANNEL).2 .DATA_CHANNEL).2 =
        (queue_out_request opened_state .DATA_CHANNEL).2 :=
  have h := (queue_out_request_idempotent opened_state .DATA_CHANNEL (by decide) (by decide)
    (by decide)).1 (by decide)
  ⟨h.1, h.2.2.2.2.2⟩

/-! ## Receiving a zero-length packet -/

theorem suspended_set_urb_buffer_size (s : bps_state) (r : bps_ep_ref) (n : Nat) :
    (set_urb_buffer_size s r n).suspended = s.suspended := by
  simp [set_urb_buffer_size]

theorem suspended_save_urb_length (s : bps_state) (i : ep_info) :
    (save_urb_length s i).suspended = s.suspended := by
  unfold save_urb_length
  simp only []
  split_ifs <;> simp [suspended_set_urb_buffer_size]

theorem suspended_save_urb_lengths (s : bps_state) :
    (save_urb_lengths s).suspended = s.suspended := by
  unfold save_urb_lengths
  simp only []
  have h1 := foldl_keeps save_urb_length (fun t => t.suspended) suspended_save_urb_length
    bps_eps s
  have h2 := fun (u : bps_state) => foldl_keeps
    (fun (t : bps_state) (c : chan) =>
      set_urb_buffer_size t (.intr c) (t.cdevs c).intr_ep.p_req.length)
    (fun t => t.suspended) (fun t c => suspended_set_urb_buffer_size t _ _)
    [chan.DATA_CHANNEL, chan.CONFIG_CHANNEL] u
  simp only [] at h1 h2
  rw [h2, suspended_set_urb_buffer_size, h1]

theorem suspended_set_config (s : bps_state) : (set_config s).2.suspended = s.suspended := by
  obtain ⟨_, _, r3⟩ := reset_config_frame s
  obtain ⟨_, e2, _⟩ := enable_eps_spec bps_eps (reset_config s)
  unfold set_config
  split
  rename_i retval s1 heq
  have h1 : s1 = (enable_eps (reset_config s) bps_eps).2 := by rw [heq]
  split
  · show (save_urb_lengths s1).suspended = _
    rw [suspended_save_urb_lengths, h1, e2, r3]
  · show s1.suspended = _
    rw [h1, e2, r3]

theorem suspended_setup_gadget (s : bps_state) (ctrl : usb_ctrlrequest) :
    (setup_gadget s ctrl).2.suspended = s.suspended := by
  have h1 : (setup_retval s ctrl).2.suspended = s.suspended := by
    unfold setup_retval
    simp only []
    split_ifs <;> simp [suspended_set_config]
  unfold setup_gadget
  simp only []
  split_ifs <;> simp [h1]

/-- C30: reset_config (a host disconnect) and set_config change neither the open flag
of any channel nor the suspended flag, and neither does setup_gadget, whatever the
request.  So after a disconnect followed by a setup request (the Set-Configuration of
the re-configuration), a channel that was open is still open and bps_open on it fails
(-EBUSY when the device is configured again, -EIO otherwise); and a device that was
suspended is still suspended: bps_read and a blocking bps_write with valid arguments
return -ECOMM and the is-suspended ioctl returns 1, until resume_gadget clears the
flag. -/
theorem reconfiguration_keeps_flags (s : bps_state) (ctrl : usb_ctrlrequest) :
    ((∀ c, ((reset_config s).cdevs c).opened = (s.cdevs c).opened) ∧
        (reset_config s).suspended = s.suspended) ∧
      ((∀ c, ((set_config s).2.cdevs c).opened = (s.cdevs c).opened) ∧
        (set_config s).2.suspended = s.suspended) ∧
      ((∀ c, ((deliver (deliver s .disconnect) (.setup ctrl)).cdevs c).opened =
          (s.cdevs c).opened) ∧
        (deliver (deliver s .disconnect) (.setup ctrl)).suspended = s.suspended) ∧
      (∀ c, (s.cdevs c).opened = true →
        (bps_open (deliver (deliver s .disconnect) (.setup ctrl)) c).1 =
            (if (deliver (deliver s .disconnect) (.setup ctrl)).config_set = true
              then - EBUSY else - EIO) ∧
          (bps_open (deliver (deliver s .disconnect) (.setup ctrl)) c).2 =
            deliver (deliver s .disconnect) (.setup ctrl)) ∧
      (s.suspended = true →
        (∀ c nonblock p_user len evs cevs, p_user ≠ .NULL → len ≠ 0 →
          (bps_read (deliver (deliver s .disconnect) (.setup ctrl)) c nonblock p_user len
            evs cevs).out = .returned (- ECOMM)) ∧
        (∀ c p_user len evs bytes, p_user ≠ .NULL → len ≠ 0 →
          copy_from_user p_user
            (min (get_ep (deliver (deliver s .disconnect) (.setup ctrl))
              (.list (p_inep c))).urb_buffer_size len) = some bytes →
          (bps_write (deliver (deliver s .disconnect) (.setup ctrl)) c false p_user len
            evs).1 = .returned (- ECOMM)) ∧
        (∀ sku c nonblock ioarg evs,
          (bps_ioctl sku (deliver (deliver s .disconnect) (.setup ctrl)) c nonblock
            .IOCTL_BPS_IS_SUSPENDED ioarg evs).1 = .returned 1) ∧
        (resume_gadget (deliver (deliver s .disconnect) (.setup ctrl))).suspended =
          false) := by
  have hsusp : (deliver (deliver s .disconnect) (.setup ctrl)).suspended = s.suspended := by
    simp only [deliver, disconnect_gadget]
    rw [suspended_setup_gadget, (reset_config_frame s).2.2]
  have hopen : ∀ c, ((deliver (deliver s .disconnect) (.setup ctrl)).cdevs c).opened =
      (s.cdevs c).opened := fun c => by simp
  refine ⟨⟨fun c => by simp, (reset_config_frame s).2.2⟩,
    ⟨fun c => by simp, suspended_set_config s⟩, ⟨hopen, hsusp⟩, ?_, ?_⟩
  · intro c ho
    have ho2 := (hopen c).trans ho
    by_cases hc : (deliver (deliver s .disconnect) (.setup ctrl)).config_set = true
    · simp [bps_open, hc, ho2, ho]
    · simp [bps_open, hc]
  · intro hs
    have hs2 := hsusp.trans hs
    refine ⟨?_, ?_, ?_, ?_⟩
    · intro c nonblock p_user len evs cevs hp hlen
      unfold bps_read
      have hf : 3 * evs.length + 3 = (3 * evs.length + 2) + 1 := rfl
      rw [hf, bps_read_wait_not_ready _ _ c nonblock evs (Or.inr hs2)]
      simp [hp, hlen, ECOMM]
    · intro c p_user len evs bytes hp hlen hcopy
      have hw : bps_write (deliver (deliver s .disconnect) (.setup ctrl)) c false p_user len
          evs = bps_write_loop (evs.length + 1) (deliver (deliver s .disconnect)
            (.setup ctrl)) c p_user len 0 (.list (p_inep c)) evs := by
        simp [bps_write, bps_write_impl, hp, hlen]
      rw [hw, bps_write_loop]
      simp only [hlen, if_false, hcopy, config_set_set_req, suspended_set_req, hs2, or_true,
        if_true]
    · intro sku c nonblock ioarg evs
      simp [bps_ioctl, hs2]
    · exact (queue_both
        { deliver (deliver s .disconnect) (.setup ctrl) with suspended := false } rfl).1

/-! ## The capacities saved by save_urb_lengths -/

set_option maxRecDepth 20000

/-- C24: after a successful bind, and after the first Set-Configuration, every slot has
the capacity fixed for its role (2048 for the bulk-IN slots, min(512, max packet) for
the bulk-OUT slots, 1 for the notify slots, 64 for the error-report slot).  After a
blocking write of three bytes on the DATA channel, a disconnect and a second successful
Set-Configuration, the capacity of the DATA IN slot is 3, not 2048: save_urb_lengths
saved the length the write left in the request. -/
theorem save_urb_lengths_after_write :
    (bind_gadget bind_ok (loaded_state demo_udc)).1 = 0 ∧
      ((get_ep after_bind (.list .BULKIN1)).urb_buffer_size = 2048 ∧
        (get_ep after_bind (.list .BULKIN2)).urb_buffer_size = 2048 ∧
        (get_ep after_bind (.list .BULKOUT1)).urb_buffer_size = 512 ∧
        (get_ep after_bind (.list .BULKOUT2)).urb_buffer_size = 512 ∧
        (get_ep after_bind (.intr .DATA_CHANNEL)).urb_buffer_size = 1 ∧
        (get_ep after_bind (.intr .CONFIG_CHANNEL)).urb_buffer_size = 1 ∧
        (get_ep after_bind .data_err).urb_buffer_size = 64) ∧
      ((setup_gadget after_bind set_configuration_request).1 = 0 ∧
        (get_ep (setup_gadget after_bind set_configuration_request).2
          (.list .BULKIN1)).urb_buffer_size = 2048) ∧
      (rewritten_state.config_set = true ∧
        (get_ep rewritten_state (.list .BULKIN1)).urb_buffer_size = 3 ∧
        BULK_IN_URB_BUFFER_SIZE = 2048) := by
  decide

/-! ## A write through a slot whose saved capacity is 0 -/

theorem copy_from_user_zero (p_user : user_ptr) : copy_from_user p_user 0 = some [] := by
  cases p_user <;> simp [copy_from_user]

theorem user_ptr_add_zero (p_user : user_ptr) : p_user.add 0 = p_user := by
  cases p_user <;> simp [user_ptr.add]

theorem size_t_sub_zero (len : Nat) (h : len < 2 ^ 32) : size_t_sub len 0 = len := by
  have h32 : (2 : Nat) ^ 32 = 4294967296 := by norm_num
  unfold size_t_sub
  rw [h32] at h ⊢
  omega

theorem bps_write_loop_stuck (c : chan) (k : Nat) :
    ∀ (fuel : Nat) (s : bps_state) (p_user : user_ptr) (len : Nat) (retval : Int),
      k + 1 ≤ fuel → len ≠ 0 → len < 2 ^ 32 →
      (get_ep s (.list (p_inep c))).urb_buffer_size = 0 →
      s.config_set = true → s.suspended = false →
      (∀ rc ∈ s.udc.queue_rc, rc = 0) →
      ((s.cdevs c).channel = .DATA_CHANNEL → (get_ep s .data_err).queued = false) →
      (bps_write_loop fuel s c p_user len retval (.list (p_inep c))
        (List.replicate k (.complete (.list (p_inep c)) 0 0 []))).1 = .asleep := by
  induction k with
  | zero =>
    intro fuel s p_user len retval hf hlen _ hcap hc hs hacc _
    obtain ⟨f, rfl⟩ : ∃ f, fuel = f + 1 := ⟨fuel - 1, by omega⟩
    have hrc := next_queue_rc_accepting s hacc
    rw [List.replicate_zero, bps_write_loop, if_neg hlen]
    simp [hcap, copy_from_user_zero, hc, hs, hrc, wait_event, is_write_channel_busy_eq]
  | succ k ih =>
    intro fuel s p_user len retval hf hlen hlt hcap hc hs hacc hidle
    obtain ⟨f, rfl⟩ : ∃ f, fuel = f + 1 := ⟨fuel - 1, by omega⟩
    have hrc := next_queue_rc_accepting s hacc
    obtain ⟨s4, hloop, h4c, h4s, h4rc, _, h4cap, _, h4ch, h4d⟩ :=
      bps_write_round f s c p_user len retval 0 0 []
        (List.replicate k (.complete (.list (p_inep c)) 0 0 [])) [] hlen
        (by rw [hcap]; simpa using copy_from_user_zero p_user) hc hs hrc hidle
    rw [List.replicate_succ, hloop, if_pos rfl, user_ptr_add_zero, size_t_sub_zero len hlt]
    exact ih f s4 p_user len _ (by omega) hlen hlt (h4cap.trans hcap) h4c h4s
      (fun rc hrc2 => hacc rc (List.mem_of_mem_tail (h4rc ▸ hrc2)))
      (fun h => by rw [h4d]; exact hidle (h4ch ▸ h))

/-- C28: after bind, Set-Configuration, an open of the DATA channel, a zero-length
packet sent on it and a second successful Set-Configuration, the saved capacity of the
DATA IN slot is 0: save_urb_lengths saved the length 0 that send_zlp
left in the request.  A blocking write of one byte then submits chunks of 0 bytes: for
every number k of clean completions with the full actual length 0 that arrive, the
call has not returned. -/
theorem write_after_zlp_stuck (k : Nat) :
    zlp_sent_state.config_set = true ∧ zlp_sent_state.suspended = false ∧
      (zlp_sent_state.cdevs .DATA_CHANNEL).opened = true ∧
      (get_ep zlp_sent_state (.list .BULKIN1)).urb_buffer_size = 0 ∧
      (bps_write zlp_sent_state .DATA_CHANNEL false (.addr [7]) 1
        (List.replicate k (.complete (.list .BULKIN1) 0 0 []))).1 = .asleep := by
  refine ⟨by decide, by decide, by decide, by decide, ?_⟩
  have hw : bps_write zlp_sent_state .DATA_CHANNEL false (.addr [7]) 1
      (List.replicate k (.complete (.list .BULKIN1) 0 0 [])) =
      bps_write_loop (k + 1) zlp_sent_state .DATA_CHANNEL (.addr [7]) 1 0
        (.list (p_inep .DATA_CHANNEL))
        (List.replicate k (.complete (.list (p_inep .DATA_CHANNEL)) 0 0 [])) := by
    simp [bps_write, bps_write_impl, p_inep]
  rw [hw]
  exact bps_write_loop_stuck .DATA_CHANNEL k (k + 1) zlp_sent_state (.addr [7]) 1 0
    (Nat.le_refl _) (by decide) (by norm_num) (by decide) (by decide) (by decide)
    (by decide) (by decide)

/-! ## What giving a request back can change -/

theorem completes_only_refl (s : bps_state) : completes_only s s :=
  ⟨fun _ => rfl, fun _ => ⟨rfl, rfl, fun h => h, fun _ => rfl⟩⟩

theorem completes_only_trans {s t u : bps_state} (h1 : completes_only s t)
    (h2 : completes_only t u) : completes_only s u := by
  refine ⟨fun c => (h2.1 c).trans (h1.1 c), fun r => ?_⟩
  obtain ⟨a1, a2, a3, a4⟩ := h1.2 r
  obtain ⟨b1, b2, b3, b4⟩ := h2.2 r
  refine ⟨b1.trans a1, b2.trans a2, fun h => a3 (b3 h), fun h => ?_⟩
  have ht : (get_ep t r).queued = false := by
    cases hq : (get_ep t r).queued
    · rfl
    · rw [a3 hq] at h
      cases h
  rw [b4 ht, a4 h]

theorem foldl_completes_only {α : Type} (f : bps_state → α → bps_state)
    (h : ∀ t a, completes_only t (f t a)) (l : List α) (s : bps_state) :
    completes_only s (l.foldl f s) := by
  induction l generalizing s with
  | nil => exact completes_only_refl s
  | cons a l ih => exact completes_only_trans (h s a) (ih (f s a))

theorem completes_only_of_eq (s t : bps_state)
    (h1 : ∀ c, (t.cdevs c).rx_bytes = (s.cdevs c).rx_bytes)
    (h2 : ∀ r, get_ep t r = get_ep s r) : completes_only s t :=
  ⟨h1, fun r => by rw [h2 r]; exact ⟨rfl, rfl, fun h => h, fun _ => rfl⟩⟩

@[simp] theorem rx_bytes_set_queued (s : bps_state) (r : bps_ep_ref) (q : Bool) (c : chan) :
    ((set_queued s r q).cdevs c).rx_bytes = (s.cdevs c).rx_bytes := by
  simp [set_queued]

@[simp] theorem rx_bytes_set_req (s : bps_state) (r : bps_ep_ref) (q : usb_request)
    (c : chan) : ((set_req s r q).cdevs c).rx_bytes = (s.cdevs c).rx_bytes := by
  simp [set_req]

@[simp] theorem rx_bytes_set_urb_buffer_size (s : bps_state) (r : bps_ep_ref) (n : Nat)
    (c : chan) : ((set_urb_buffer_size s r n).cdevs c).rx_bytes = (s.cdevs c).rx_bytes := by
  simp [set_urb_buffer_size]

theorem get_ep_set_queued (s : bps_state) (r r2 : bps_ep_ref) (q : Bool) :
    get_ep (set_queued s r q) r2 =
      if r2 = r then { get_ep s r with queued := q } else get_ep s r2 := by
  simp [set_queued, get_ep_set_ep]

theorem get_ep_set_req (s : bps_state) (r r2 : bps_ep_ref) (q : usb_request) :
    get_ep (set_req s r q) r2 =
      if r2 = r then { get_ep s r with p_req := q } else get_ep s r2 := by
  simp [set_req, get_ep_set_ep]

theorem get_ep_set_urb_buffer_size (s : bps_state) (r r2 : bps_ep_ref) (n : Nat) :
    get_ep (set_urb_buffer_size s r n) r2 =
      if r2 = r then { get_ep s r with urb_buffer_size := n } else get_ep s r2 := by
  simp [set_urb_buffer_size, get_ep_set_ep]

theorem completes_only_set_queued_false (s : bps_state) (r : bps_ep_ref) :
    completes_only s (set_queued s r false) := by
  refine ⟨fun c => by simp, fun r2 => ?_⟩
  rw [get_ep_set_queued]
  by_cases h : r2 = r
  · subst h
    simp
  · simp [h]

theorem completes_only_set_req (s : bps_state) (r : bps_ep_ref) (q : usb_request)
    (hlen : q.length = (get_ep s r).p_req.length)
    (hact : (get_ep s r).queued = true ∨ q.actual = (get_ep s r).p_req.actual) :
    completes_only s (set_req s r q) := by
  refine ⟨fun c => by simp, fun r2 => ?_⟩
  rw [get_ep_set_req]
  by_cases h : r2 = r
  · subst h
    rcases hact with hq | ha
    · simp [hlen, hq]
    · simp [hlen, ha]
  · simp [h]

theorem completes_only_usb_ep_queue (s : bps_state) (r : bps_ep_ref) :
    completes_only s (usb_ep_queue s r).2 :=
  completes_only_of_eq _ _ (fun c => by simp) (fun r2 => by simp)

theorem completes_only_bulk_urb_complete (s : bps_state) (i : ep_info) :
    completes_only s (bulk_urb_complete s i) := by
  have h1 := completes_only_usb_ep_queue s (.list i)
  have h2 := completes_only_trans h1
    (completes_only_set_queued_false (usb_ep_queue s (.list i)).2 (.list i))
  unfold bulk_urb_complete
  simp only []
  split_ifs
  all_goals first
    | exact h1
    | exact h2
    | exact completes_only_set_queued_false s (.list i)

theorem completes_only_give_back (s : bps_state) (r : bps_ep_ref) (status : Int)
    (actual : Nat) (hq : (get_ep s r).queued = true) :
    completes_only s (give_back s r status actual) := by
  have h1 : completes_only s
      (set_req s r { (get_ep s r).p_req with status := status, actual := actual }) :=
    completes_only_set_req s r _ rfl (Or.inl hq)
  cases r with
  | list i =>
    cases i with
    | INTRIN1 => exact completes_only_refl s
    | EP0 => exact completes_only_trans h1 (completes_only_set_queued_false _ (.list .EP0))
    | BULKOUT1 => exact completes_only_trans h1 (completes_only_bulk_urb_complete _ _)
    | BULKIN1 => exact completes_only_trans h1 (completes_only_bulk_urb_complete _ _)
    | BULKOUT2 => exact completes_only_trans h1 (completes_only_bulk_urb_complete _ _)
    | BULKIN2 => exact completes_only_trans h1 (completes_only_bulk_urb_complete _ _)
  | data_err => exact completes_only_trans h1 (completes_only_set_queued_false _ .data_err)
  | intr c => exact completes_only_trans h1 (completes_only_set_queued_false _ (.intr c))

theorem completes_only_dequeue_request (s : bps_state) (r : bps_ep_ref) :
    completes_only s (dequeue_request s r) := by
  unfold dequeue_request usb_ep_dequeue
  split_ifs with h1 h2 h3
  · exact completes_only_give_back s r _ _ h2
  all_goals exact completes_only_refl s

theorem completes_only_usb_ep_disable (s : bps_state) (i : ep_info) :
    completes_only s (usb_ep_disable s i) := by
  unfold usb_ep_disable
  simp only []
  refine foldl_completes_only _ ?_ _ _
  intro t r
  split_ifs with h
  · exact completes_only_give_back t r _ _ h.2.2
  · exact completes_only_refl t

theorem completes_only_config_set (s : bps_state) (b : Bool) :
    completes_only s { s with config_set := b } :=
  completes_only_of_eq _ _ (fun _ => rfl) (fun r => by cases r <;> rfl)

theorem completes_only_suspended (s : bps_state) (b : Bool) :
    completes_only s { s with suspended := b } :=
  completes_only_of_eq _ _ (fun _ => rfl) (fun r => by cases r <;> rfl)

theorem completes_only_disable_bps_eps (s : bps_state) :
    completes_only s (disable_bps_eps s) := by
  unfold disable_bps_eps
  simp only []
  refine completes_only_trans (completes_only_dequeue_request s .data_err) ?_
  refine completes_only_trans (completes_only_dequeue_request _ (.intr .DATA_CHANNEL)) ?_
  refine completes_only_trans (completes_only_dequeue_request _ (.intr .CONFIG_CHANNEL)) ?_
  refine foldl_completes_only _ ?_ _ _
  intro t i
  exact completes_only_trans (completes_only_dequeue_request t (.list i))
    (completes_only_usb_ep_disable _ i)

theorem completes_only_reset_config (s : bps_state) : completes_only s (reset_config s) :=
  completes_only_trans (completes_only_config_set s false) (completes_only_disable_bps_eps _)

theorem completes_only_usb_ep_enable (s : bps_state) (i : ep_info) (hs : Bool) :
    completes_only s (usb_ep_enable s i hs).2 := by
  refine completes_only_of_eq _ _ (fun c => ?_) (fun r => ?_)
  · unfold usb_ep_enable
    split <;> rfl
  · unfold usb_ep_enable
    split <;> cases r <;> rfl

theorem completes_only_enable_eps (l : List ep_info) :
    ∀ s, completes_only s (enable_eps s l).2 := by
  induction l with
  | nil => exact fun s => completes_only_refl s
  | cons i l ih =>
    intro s
    rw [enable_eps]
    simp only []
    split_ifs
    · exact completes_only_usb_ep_enable s i _
    · exact completes_only_trans (completes_only_usb_ep_enable s i _) (ih _)

theorem completes_only_suspend_gadget (s : bps_state) :
    completes_only s (suspend_gadget s) := by
  rw [suspend_gadget_eq]
  exact completes_only_trans (completes_only_suspended s true)
    (foldl_completes_only _ (fun t r => completes_only_dequeue_request t r) _ _)

theorem completes_only_complete_request (s : bps_state) (r : bps_ep_ref) (status : Int)
    (actual : Nat) (data : List Nat) :
    completes_only s (complete_request s r status actual data) := by
  unfold complete_request
  simp only []
  split_ifs with h1 h2
  · refine completes_only_trans (completes_only_set_req s r
      { (get_ep s r).p_req with buf := data ++ (get_ep s r).p_req.buf.drop data.length }
      rfl (Or.inr rfl)) ?_
    exact completes_only_give_back _ r _ _ (by rw [get_ep_set_req, if_pos rfl]; exact h1.2)
  · exact completes_only_give_back s r _ _ h1.2
  · exact completes_only_refl s

/-! ## The capacity invariant is kept by every operation -/

theorem within_alloc_of_completes_only {s t : bps_state} (h : completes_only s t)
    (hi : within_alloc s) : within_alloc t := by
  intro r hr
  obtain ⟨a1, a2, _, _⟩ := h.2 r
  rw [a1, a2]
  exact hi r hr

theorem within_alloc_set_req (s : bps_state) (r : bps_ep_ref) (q : usb_request)
    (hi : within_alloc s) (hlen : r = .list .EP0 ∨ q.length ≤ alloc_size r) :
    within_alloc (set_req s r q) := by
  intro r2 hr2
  rw [get_ep_set_req]
  by_cases h : r2 = r
  · rw [if_pos h]
    subst h
    rcases hlen with h0 | hl
    · exact absurd h0 hr2
    · exact ⟨(hi r2 hr2).1, hl⟩
  · rw [if_neg h]
    exact hi r2 hr2

theorem within_alloc_set_queued (s : bps_state) (r : bps_ep_ref) (b : Bool)
    (hi : within_alloc s) : within_alloc (set_queued s r b) := by
  intro r2 hr2
  rw [get_ep_set_queued]
  by_cases h : r2 = r
  · rw [if_pos h]
    subst h
    exact hi r2 hr2
  · rw [if_neg h]
    exact hi r2 hr2

theorem within_alloc_set_urb_buffer_size (s : bps_state) (r : bps_ep_ref) (n : Nat)
    (hi : within_alloc s) (hn : r = .list .EP0 ∨ n ≤ alloc_size r) :
    within_alloc (set_urb_buffer_size s r n) := by
  intro r2 hr2
  rw [get_ep_set_urb_buffer_size]
  by_cases h : r2 = r
  · rw [if_pos h]
    subst h
    rcases hn with h0 | hl
    · exact absurd h0 hr2
    · exact ⟨hl, (hi r2 hr2).2⟩
  · rw [if_neg h]
    exact hi r2 hr2

theorem within_alloc_usb_ep_queue (s : bps_state) (r : bps_ep_ref) (hi : within_alloc s) :
    within_alloc (usb_ep_queue s r).2 :=
  within_alloc_of_completes_only (completes_only_usb_ep_queue s r) hi

theorem get_ep_set_cdev (s : bps_state) (c : chan) (d : bps_cdev) (r : bps_ep_ref)
    (h : d.intr_ep = (s.cdevs c).intr_ep) : get_ep (set_cdev s c d) r = get_ep s r := by
  cases r with
  | list i => rfl
  | data_err => rfl
  | intr c2 =>
    by_cases hc : c2 = c
    · subst hc
      simp [-ep_list_eq_get_ep, get_ep, set_cdev, h]
    · simp [-ep_list_eq_get_ep, get_ep, set_cdev, Function.update, hc]

theorem within_alloc_set_cdev (s : bps_state) (c : chan) (d : bps_cdev) (hi : within_alloc s)
    (hintr : d.intr_ep = (s.cdevs c).intr_ep) : within_alloc (set_cdev s c d) := by
  intro r hr
  rw [get_ep_set_cdev s c d _ hintr]
  exact hi r hr

theorem within_alloc_set_rx_bytes (s : bps_state) (c : chan) (n : Nat) (hi : within_alloc s) :
    within_alloc (set_rx_bytes s c n) :=
  within_alloc_set_cdev s c _ hi rfl

theorem within_alloc_set_opened (s : bps_state) (c : chan) (b : Bool) (hi : within_alloc s) :
    within_alloc (set_opened s c b) :=
  within_alloc_set_cdev s c _ hi rfl

theorem out_ne_ep0 (c : chan) : bps_ep_ref.list (p_outep c) ≠ .list .EP0 := by
  cases c <;> simp [p_outep]

theorem within_alloc_save_urb_length (s : bps_state) (i : ep_info) (hi : within_alloc s) :
    within_alloc (save_urb_length s i) := by
  unfold save_urb_length
  simp only []
  by_cases h0 : i = .INTRIN1
  · simp [h0, hi]
  · rw [if_pos h0]
    have himp : ∀ t : bps_state, within_alloc t → i ≠ .EP0 →
        within_alloc (set_urb_buffer_size t (.list i) (t.ep_list i).p_req.length) := by
      intro t ht hne
      exact within_alloc_set_urb_buffer_size t _ _ ht
        (Or.inr (ht (.list i) (by simpa using hne)).2)
    split_ifs with hout
    · have hne : i ≠ .EP0 := by
        rcases hout with h | h <;> simp [h]
      apply himp _ _ hne
      apply within_alloc_set_req _ _ _ hi
      right
      rcases hout with h | h <;>
        simp [h, alloc_size]
    · by_cases hne : i = .EP0
      · subst hne
        exact within_alloc_set_urb_buffer_size s _ _ hi (Or.inl rfl)
      · exact himp s hi hne

theorem foldl_within_alloc {α : Type} (f : bps_state → α → bps_state)
    (h : ∀ t a, within_alloc t → within_alloc (f t a)) (l : List α) (s : bps_state)
    (hi : within_alloc s) : within_alloc (l.foldl f s) :=
  foldl_inv within_alloc f h l s hi

theorem within_alloc_save_urb_lengths (s : bps_state) (hi : within_alloc s) :
    within_alloc (save_urb_lengths s) := by
  unfold save_urb_lengths
  simp only []
  refine foldl_within_alloc _ ?_ _ _ ?_
  · intro t c ht
    exact within_alloc_set_urb_buffer_size t _ _ ht
      (Or.inr (ht (.intr c) (by simp)).2)
  · have h1 := foldl_within_alloc save_urb_length within_alloc_save_urb_length bps_eps s hi
    exact within_alloc_set_urb_buffer_size _ _ _ h1 (Or.inr (h1 .data_err (by simp)).2)

theorem within_alloc_config_set (s : bps_state) (b : Bool) (hi : within_alloc s) :
    within_alloc { s with config_set := b } :=
  within_alloc_of_completes_only (completes_only_config_set s b) hi

theorem within_alloc_set_config (s : bps_state) (hi : within_alloc s) :
    within_alloc (set_config s).2 := by
  have h1 : within_alloc (enable_eps (reset_config s) bps_eps).2 :=
    within_alloc_of_completes_only
      (completes_only_trans (completes_only_reset_config s) (completes_only_enable_eps _ _)) hi
  unfold set_config
  split
  rename_i retval s1 heq
  have hs1 : s1 = (enable_eps (reset_config s) bps_eps).2 := by rw [heq]
  split
  · exact within_alloc_config_set _ true (within_alloc_save_urb_lengths s1 (hs1 ▸ h1))
  · exact hs1 ▸ h1

theorem within_alloc_setup_retval (s : bps_state) (ctrl : usb_ctrlrequest)
    (hi : within_alloc s) : within_alloc (setup_retval s ctrl).2 := by
  unfold setup_retval
  simp only []
  split_ifs
  all_goals first
    | exact within_alloc_set_config s hi
    | exact hi

theorem within_alloc_setup_gadget (s : bps_state) (ctrl : usb_ctrlrequest)
    (hi : within_alloc s) : within_alloc (setup_gadget s ctrl).2 := by
  have h1 := within_alloc_setup_retval s ctrl hi
  have h2 : ∀ q, within_alloc
      (usb_ep_queue (set_req (setup_retval s ctrl).2 (.list .EP0) q) (.list .EP0)).2 :=
    fun q => within_alloc_usb_ep_queue _ _ (within_alloc_set_req _ _ q h1 (Or.inl rfl))
  unfold setup_gadget
  split
  rename_i retval s1 heq
  have hs1 : s1 = (setup_retval s ctrl).2 := by rw [heq]
  subst hs1
  simp only []
  split_ifs
  · exact within_alloc_set_queued _ (.list .EP0) true (h2 _)
  · exact h2 _
  · exact h1

theorem within_alloc_queue_out_request (s : bps_state) (c : chan) (hi : within_alloc s) :
    within_alloc (queue_out_request s c).2 := by
  have h1 : within_alloc (set_rx_bytes s c 0) := within_alloc_set_rx_bytes s c 0 hi
  have h2 : within_alloc (set_req (set_rx_bytes s c 0) (.list (p_outep c))
      { ((set_rx_bytes s c 0).ep_list (p_outep c)).p_req with actual := 0 }) :=
    within_alloc_set_req _ _ _ h1 (Or.inr (h1 _ (out_ne_ep0 c)).2)
  have h3 := within_alloc_usb_ep_queue _ (.list (p_outep c)) h2
  have h4 := within_alloc_set_queued _ (.list (p_outep c)) true h3
  unfold queue_out_request
  simp only []
  split_ifs
  · exact hi
  · exact h3
  · exact h4
  · exact hi

theorem within_alloc_suspended (s : bps_state) (b : Bool) (hi : within_alloc s) :
    within_alloc { s with suspended := b } :=
  within_alloc_of_completes_only (completes_only_suspended s b) hi

theorem within_alloc_resume_gadget (s : bps_state) (hi : within_alloc s) :
    within_alloc (resume_gadget s) := by
  unfold resume_gadget
  simp only []
  exact foldl_within_alloc _ (fun t c ht => within_alloc_queue_out_request t c ht) _ _
    (within_alloc_suspended s false hi)

theorem within_alloc_deliver (s : bps_state) (e : event) (hi : within_alloc s) :
    within_alloc (deliver s e) := by
  cases e with
  | complete r status actual data =>
    exact within_alloc_of_completes_only (completes_only_complete_request s r status actual data) hi
  | setup ctrl => exact within_alloc_setup_gadget s ctrl hi
  | disconnect => exact within_alloc_of_completes_only (completes_only_reset_config s) hi
  | suspend => exact within_alloc_of_completes_only (completes_only_suspend_gadget s) hi
  | resume => exact within_alloc_resume_gadget s hi
  | signal => exact hi

theorem within_alloc_wait_event (cond : bps_state → Bool) (evs : List event) :
    ∀ s, within_alloc s → within_alloc (wait_event cond s evs).2.1 := by
  induction evs with
  | nil => exact fun s hi => hi
  | cons e rest ih =>
    intro s hi
    rw [wait_event]
    split_ifs
    · exact hi
    · exact ih _ (within_alloc_deliver s e hi)

theorem within_alloc_wait_event_interruptible (cond : bps_state → Bool) (evs : List event) :
    ∀ s, within_alloc s → within_alloc (wait_event_interruptible cond s evs).2.1 := by
  induction evs with
  | nil => exact fun s hi => hi
  | cons e rest ih =>
    intro s hi
    rw [wait_event_interruptible]
    split_ifs
    · exact hi
    · exact hi
    · exact ih _ (within_alloc_deliver s e hi)

theorem within_alloc_bps_read_wait (c : chan) (nonblock : Bool) (fuel : Nat) :
    ∀ (l : read_label) (s : bps_state) (evs : List event), within_alloc s →
      within_alloc (bps_read_wait fuel l s c nonblock evs).2 := by
  induction fuel with
  | zero =>
    intro l s evs hi
    exact hi
  | succ n ih =>
    intro l s evs hi
    cases l with
    | restart_read =>
      rw [bps_read_wait]
      split_ifs
      · exact hi
      · exact ih _ s evs hi
    | check_queued_request =>
      rw [bps_read_wait]
      split_ifs with h1 h2 h3 h4
      · exact hi
      · have hw := within_alloc_wait_event_interruptible
          (fun t => !(t.ep_list (p_outep c)).queued) evs s hi
        rcases hres : wait_event_interruptible
            (fun t => !(t.ep_list (p_outep c)).queued) s evs with ⟨w, s1, rest⟩
        rw [hres] at hw
        cases w with
        | asleep => exact hw
        | interrupted => exact hw
        | woken =>
          simp only []
          split_ifs
          · exact ih _ s1 rest hw
          · exact hw
      · exact hi
      · have hq := within_alloc_queue_out_request s c hi
        simp only []
        split_ifs
        · exact hq
        · exact ih _ _ evs hq
      · exact hi

theorem within_alloc_bps_read_copy (s : bps_state) (c : chan) (p_user : user_ptr) (len : Nat)
    (cevs : List event) (hi : within_alloc s) :
    within_alloc (bps_read_copy s c p_user len cevs).st := by
  have h0 : within_alloc (cevs.foldl deliver s) :=
    foldl_within_alloc deliver within_alloc_deliver cevs s hi
  have h1 : ∀ n, within_alloc (set_rx_bytes (cevs.foldl deliver s) c n) :=
    fun n => within_alloc_set_rx_bytes _ c n h0
  unfold bps_read_copy
  simp only []
  split_ifs
  all_goals first
    | exact hi
    | exact within_alloc_queue_out_request _ c (h1 _)
    | exact h1 _

theorem within_alloc_bps_read (s : bps_state) (c : chan) (nonblock : Bool) (p_user : user_ptr)
    (len : Nat) (evs cevs : List event) (hi : within_alloc s) :
    within_alloc (bps_read s c nonblock p_user len evs cevs).st := by
  have hw := within_alloc_bps_read_wait c nonblock (3 * evs.length + 3) .restart_read s evs hi
  unfold bps_read
  split_ifs
  · exact hi
  · split
    · rename_i s1 heq
      rw [heq] at hw
      exact within_alloc_bps_read_copy s1 c p_user len cevs hw
    · rename_i o s1 _ heq
      rw [heq] at hw
      exact hw

theorem within_alloc_bps_write_loop (c : chan) (r : bps_ep_ref) (fuel : Nat) :
    ∀ (s : bps_state) (p_user : user_ptr) (len : Nat) (retval : Int) (evs : List event),
      within_alloc s → within_alloc (bps_write_loop fuel s c p_user len retval r evs).2 := by
  induction fuel with
  | zero => exact fun s _ _ _ _ hi => hi
  | succ fuel ih =>
    intro s p_user len retval evs hi
    have hlen0 : r = .list .EP0 ∨ (get_ep s r).p_req.length ≤ alloc_size r := by
      by_cases h : r = .list .EP0
      · exact Or.inl h
      · exact Or.inr (hi r h).2
    have hcap : r = .list .EP0 ∨ min (get_ep s r).urb_buffer_size len ≤ alloc_size r := by
      by_cases h : r = .list .EP0
      · exact Or.inl h
      · exact Or.inr ((Nat.min_le_left _ _).trans (hi r h).1)
    have h1 : ∀ bytes : List Nat, within_alloc (set_req s r { (get_ep s r).p_req with
        buf := bytes ++ (get_ep s r).p_req.buf.drop bytes.length }) :=
      fun bytes => within_alloc_set_req s r _ hi hlen0
    have h2 : ∀ (bytes : List Nat) (q : usb_request),
        q.length = min (get_ep s r).urb_buffer_size len →
        within_alloc (set_req (set_req s r { (get_ep s r).p_req with
          buf := bytes ++ (get_ep s r).p_req.buf.drop bytes.length }) r q) := by
      intro bytes q hq
      refine within_alloc_set_req _ r q (h1 bytes) ?_
      rw [hq]
      exact hcap
    rw [bps_write_loop]
    by_cases hlen : len = 0
    · rw [if_pos hlen]
      exact hi
    rw [if_neg hlen]
    simp only []
    cases hcp : copy_from_user p_user (min (get_ep s r).urb_buffer_size len) with
    | none => exact hi
    | some bytes =>
      simp only []
      have h3 := within_alloc_usb_ep_queue _ r (h2 bytes
        { (get_ep (set_req s r { (get_ep s r).p_req with
              buf := bytes ++ (get_ep s r).p_req.buf.drop bytes.length }) r).p_req with
          length := min (get_ep s r).urb_buffer_size len } rfl)
      have h4 := within_alloc_set_queued _ r true h3
      have h5 := within_alloc_wait_event (fun t => !is_write_channel_busy t c) evs _ h4
      split_ifs with ha hb
      · exact h1 bytes
      · exact h3
      · rcases hw : wait_event (fun t => !is_write_channel_busy t c)
            (set_queued (usb_ep_queue (set_req (set_req s r
              { (get_ep s r).p_req with
                buf := bytes ++ (get_ep s r).p_req.buf.drop bytes.length }) r
              { (get_ep (set_req s r { (get_ep s r).p_req with
                    buf := bytes ++ (get_ep s r).p_req.buf.drop bytes.length }) r).p_req with
                length := min (get_ep s r).urb_buffer_size len }) r).2 r true) evs
          with ⟨b, s4, rest⟩
        rw [hw] at h5
        cases b with
        | false => exact h5
        | true =>
          simp only []
          split_ifs
          · exact ih _ _ _ _ _ h5
          · exact h5

theorem within_alloc_bps_write_impl (s : bps_state) (c : chan) (nonblock : Bool)
    (p_user : user_ptr) (len : Nat) (r : bps_ep_ref) (evs : List event)
    (hi : within_alloc s) :
    within_alloc (bps_write_impl s c nonblock p_user len r evs).2 := by
  unfold bps_write_impl
  split_ifs
  · exact hi
  · exact hi
  · exact within_alloc_bps_write_loop c r _ s p_user len 0 evs hi

theorem within_alloc_send_zlp (s : bps_state) (c : chan) (nonblock : Bool)
    (evs : List event) (hi : within_alloc s) : within_alloc (send_zlp s c nonblock evs).2 := by
  have h1 : within_alloc (set_req s (.list (p_inep c))
      { (get_ep s (.list (p_inep c))).p_req with length := 0, zero := true }) :=
    within_alloc_set_req s _ _ hi (Or.inr (Nat.zero_le _))
  have h2 := within_alloc_usb_ep_queue _ (.list (p_inep c)) h1
  have hz : ∀ t : bps_state, within_alloc t → within_alloc (set_req t (.list (p_inep c))
      { (get_ep t (.list (p_inep c))).p_req with zero := false }) := by
    intro t ht
    refine within_alloc_set_req t _ _ ht ?_
    right
    exact (ht _ (by cases c <;> simp [p_inep])).2
  have h3 := within_alloc_set_queued _ (.list (p_inep c)) true h2
  have h4 := within_alloc_wait_event (fun t => !is_write_channel_busy t c) evs _ h3
  unfold send_zlp
  simp only []
  split_ifs
  · exact hi
  · exact hi
  · exact hz _ h2
  · rcases hw : wait_event (fun t => !is_write_channel_busy t c)
        (set_queued (usb_ep_queue (set_req s (.list (p_inep c))
          { (get_ep s (.list (p_inep c))).p_req with length := 0, zero := true })
          (.list (p_inep c))).2 (.list (p_inep c)) true) evs
      with ⟨b, s3, rest⟩
    rw [hw] at h4
    cases b with
    | false => exact h4
    | true => exact hz _ h4

theorem within_alloc_send_intr_notification (s : bps_state) (c : chan) (nonblock : Bool)
    (value : Nat) (evs : List event) (hi : within_alloc s) :
    within_alloc (send_intr_notification s c nonblock value evs).2 := by
  have h1 : within_alloc (set_req s (.intr c) { (get_ep s (.intr c)).p_req with
      buf := (value % 256) :: (get_ep s (.intr c)).p_req.buf.drop 1 }) :=
    within_alloc_set_req s _ _ hi (Or.inr (hi _ (by simp)).2)
  have h2 := within_alloc_usb_ep_queue _ (.intr c) h1
  have h3 := within_alloc_set_queued _ (.intr c) true h2
  have h4 := within_alloc_wait_event (fun t => !(get_ep t (.intr c)).queued) evs _ h3
  unfold send_intr_notification
  simp only []
  split_ifs
  · exact hi
  · exact hi
  · exact h1
  · exact h2
  · rcases hw : wait_event (fun t => !(get_ep t (.intr c)).queued)
        (set_queued (usb_ep_queue (set_req s (.intr c)
          { (get_ep s (.intr c)).p_req with
            buf := (value % 256) :: (get_ep s (.intr c)).p_req.buf.drop 1 })
          (.intr c)).2 (.intr c) true) evs
      with ⟨b, s3, rest⟩
    rw [hw] at h4
    cases b <;> exact h4

theorem within_alloc_send_data_error (s : bps_state) (c : chan) (nonblock : Bool)
    (ioarg : ioctl_arg) (evs : List event) (hi : within_alloc s) :
    within_alloc (send_data_error s c nonblock ioarg evs).2 := by
  unfold send_data_error
  split_ifs
  · exact hi
  · cases hd : ioarg.data_error with
    | none => exact hi
    | some pl =>
      exact within_alloc_bps_write_impl s c nonblock pl.1 pl.2 .data_err evs hi

theorem within_alloc_bps_ioctl (sku : Nat) (s : bps_state) (c : chan) (nonblock : Bool)
    (iocmd : ioctl_cmd) (ioarg : ioctl_arg) (evs : List event) (hi : within_alloc s) :
    within_alloc (bps_ioctl sku s c nonblock iocmd ioarg evs).2 := by
  cases iocmd with
  | IOCTL_BPS_SEND_DATA_ERROR => exact within_alloc_send_data_error s c nonblock ioarg evs hi
  | IOCTL_BPS_SEND_ZLP => exact within_alloc_send_zlp s c nonblock evs hi
  | IOCTL_BPS_SEND_INTR_NOTIFICATION =>
    exact within_alloc_send_intr_notification s c nonblock ioarg.value evs hi
  | IOCTL_BPS_GET_PACKET_SIZE => exact hi
  | IOCTL_BPS_GET_SKU_MODEL => exact hi
  | IOCTL_BPS_GET_PROTOCOL_VERSION => exact hi
  | IOCTL_BPS_IS_SUSPENDED => exact hi
  | other => exact hi

theorem within_alloc_bps_open (s : bps_state) (c : chan) (hi : within_alloc s) :
    within_alloc (bps_open s c).2 := by
  have h1 : within_alloc (set_cdev s c { s.cdevs c with channel := c, rx_bytes := 0 }) :=
    within_alloc_set_cdev s c _ hi rfl
  have h2 : within_alloc (set_req (set_cdev s c { s.cdevs c with channel := c, rx_bytes := 0 })
      (.list (p_outep c))
      { ((set_cdev s c { s.cdevs c with channel := c, rx_bytes := 0 }).ep_list
          (p_outep c)).p_req with actual := 0 }) :=
    within_alloc_set_req _ _ _ h1 (Or.inr (h1 _ (out_ne_ep0 c)).2)
  have h3 := within_alloc_queue_out_request _ c (within_alloc_set_opened _ c true h2)
  unfold bps_open
  simp only []
  split_ifs
  · exact hi
  · exact h3
  · exact hi

theorem within_alloc_bps_release (s : bps_state) (c : chan) (hi : within_alloc s) :
    within_alloc (bps_release s c).2 := by
  have h1 := within_alloc_set_opened s c false hi
  have h4 : within_alloc (dequeue_request (dequeue_request (dequeue_request
      (set_opened s c false) (.intr c)) (.list (p_inep c))) (.list (p_outep c))) :=
    within_alloc_of_completes_only
      (completes_only_trans (completes_only_dequeue_request _ _)
        (completes_only_trans (completes_only_dequeue_request _ _)
          (completes_only_dequeue_request _ _))) h1
  unfold bps_release
  simp only []
  split_ifs
  · exact within_alloc_of_completes_only (completes_only_dequeue_request _ .data_err) h4
  · exact h4

theorem within_alloc_step (s : bps_state) (o : op) (hi : within_alloc s) :
    within_alloc (step s o) := by
  cases o with
  | bps_open c => exact within_alloc_bps_open s c hi
  | bps_release c => exact within_alloc_bps_release s c hi
  | bps_read c nonblock p_user len evs cevs =>
    exact within_alloc_bps_read s c nonblock p_user len evs cevs hi
  | bps_write c nonblock p_user len evs =>
    exact within_alloc_bps_write_impl s c nonblock p_user len _ evs hi
  | bps_poll c => exact hi
  | bps_ioctl sku c nonblock iocmd ioarg evs =>
    exact within_alloc_bps_ioctl sku s c nonblock iocmd ioarg evs hi
  | irq e => exact within_alloc_deliver s e hi

theorem within_alloc_run (ops : List op) (s : bps_state) (hi : within_alloc s) :
    within_alloc (run s ops) :=
  foldl_inv within_alloc step within_alloc_step ops s hi

/-! ## The capacity invariant holds after a successful bind -/

theorem within_alloc_loaded_state (udc : usb_core) : within_alloc (loaded_state udc) := by
  intro r _
  cases r <;> exact ⟨Nat.zero_le _, Nat.zero_le _⟩

theorem within_alloc_alloc (s : bps_state) (r : bps_ep_ref) (n : Nat) (hi : within_alloc s)
    (hn : r = .list .EP0 ∨ n ≤ alloc_size r) :
    within_alloc (set_req s r (alloc_ep_request n)) :=
  within_alloc_set_req s r _ hi hn

theorem within_alloc_alloc_list_requests (env : bind_env) (l : List ep_info) :
    ∀ s : bps_state, within_alloc s → within_alloc (alloc_list_requests env s l).2 := by
  induction l with
  | nil => exact fun s hi => hi
  | cons i l ih =>
    intro s hi
    rw [alloc_list_requests]
    by_cases h1 : i = .INTRIN1
    · rw [if_pos h1]
      exact ih s hi
    · rw [if_neg h1]
      simp only []
      by_cases h2 : env.alloc_ok (.list i) = true
      · rw [if_pos h2]
        refine ih _ (within_alloc_alloc s (.list i) _ hi ?_)
        cases i
        · exact Or.inl rfl
        · exact Or.inr (Nat.le_refl _)
        · exact Or.inr (Nat.le_refl _)
        · exact Or.inr (Nat.le_refl _)
        · exact Or.inr (Nat.le_refl _)
        · exact absurd rfl h1
      · rw [if_neg h2]
        exact hi

theorem within_alloc_alloc_intr_requests (env : bind_env) (l : List chan) :
    ∀ s : bps_state, within_alloc s → within_alloc (alloc_intr_requests env s l).2 := by
  induction l with
  | nil => exact fun s hi => hi
  | cons c l ih =>
    intro s hi
    rw [alloc_intr_requests]
    split_ifs
    · exact ih _ (within_alloc_alloc s (.intr c) _ hi (Or.inr (Nat.le_refl _)))
    · exact hi

theorem within_alloc_allocate_extra_usb_requests (env : bind_env) (s : bps_state)
    (hi : within_alloc s) : within_alloc (allocate_extra_usb_requests env s).2 := by
  unfold allocate_extra_usb_requests
  split_ifs
  · exact within_alloc_alloc_intr_requests env _ _
      (within_alloc_alloc s .data_err _ hi (Or.inr (Nat.le_refl _)))
  · exact hi

theorem within_alloc_allocate_endpoint_requests (env : bind_env) (s : bps_state)
    (hi : within_alloc s) (h0 : (allocate_endpoint_requests env s).1 = 0) :
    within_alloc (allocate_endpoint_requests env s).2 := by
  have h1 := within_alloc_alloc_list_requests env (ep_info.EP0 :: bps_eps) s hi
  have h2 := within_alloc_allocate_extra_usb_requests env _ h1
  unfold allocate_endpoint_requests at h0 ⊢
  simp only [] at h0 ⊢
  split_ifs at h0 ⊢ with ha hb
  · exact absurd h0 hb
  · exact h2
  · exact absurd h0 ha

theorem within_alloc_bind_gadget (env : bind_env) (udc : usb_core)
    (h0 : (bind_gadget env (loaded_state udc)).1 = 0) :
    within_alloc (bind_gadget env (loaded_state udc)).2 := by
  have hl : within_alloc { loaded_state udc with bound := true } :=
    within_alloc_loaded_state udc
  unfold bind_gadget at h0 ⊢
  simp only [] at h0 ⊢
  split_ifs at h0 ⊢ with ha hb
  · exact within_alloc_save_urb_lengths _
      (within_alloc_allocate_endpoint_requests env _ hl hb)
  · exact absurd h0 hb
  · exact absurd h0 ha

/-- C29: in every state reached from a successful bind by any sequence of driver
operations, the saved capacity of each slot is at most the size of the buffer
allocated for the slot's request at bind: 2048 for the bulk-IN slots, 512 for the
bulk-OUT slots, 64 for the error-report slot and 1 for the notify slots.  So the chunk
of min(urb_buffer_size, len) bytes that bps_write_impl copies into the request buffer
of an IN slot or of the error-report slot is within the allocation. -/
theorem urb_buffer_size_within_alloc (env : bind_env) (udc : usb_core) (ops : List op)
    (h0 : (bind_gadget env (loaded_state udc)).1 = 0) :
    (∀ c, (get_ep (run (bind_gadget env (loaded_state udc)).2 ops)
        (.list (p_inep c))).urb_buffer_size ≤ 2048) ∧
      (∀ c, (get_ep (run (bind_gadget env (loaded_state udc)).2 ops)
        (.list (p_outep c))).urb_buffer_size ≤ 512) ∧
      (get_ep (run (bind_gadget env (loaded_state udc)).2 ops) .data_err).urb_buffer_size ≤
        64 ∧
      (∀ c, (get_ep (run (bind_gadget env (loaded_state udc)).2 ops)
        (.intr c)).urb_buffer_size ≤ 1) ∧
      (∀ c len, min (get_ep (run (bind_gadget env (loaded_state udc)).2 ops)
        (.list (p_inep c))).urb_buffer_size len ≤ alloc_size (.list (p_inep c))) ∧
      (∀ len, min (get_ep (run (bind_gadget env (loaded_state udc)).2 ops)
        .data_err).urb_buffer_size len ≤ alloc_size .data_err) := by
  have hi := within_alloc_run ops _ (within_alloc_bind_gadget env udc h0)
  have hin : ∀ c, bps_ep_ref.list (p_inep c) ≠ .list .EP0 := fun c => by
    cases c <;> simp [p_inep]
  refine ⟨fun c => ?_, fun c => ?_, (hi .data_err (by simp)).1, fun c => (hi (.intr c) (by simp)).1,
    fun c len => (Nat.min_le_left _ _).trans (hi _ (hin c)).1,
    fun len => (Nat.min_le_left _ _).trans (hi .data_err (by simp)).1⟩
  · have h := (hi _ (hin c)).1
    cases c <;> exact h
  · have h := (hi _ (out_ne_ep0 c)).1
    cases c <;> exact h

theorem urb_buffer_size_within_alloc_witness :
    (bind_gadget bind_ok (loaded_state demo_udc)).1 = 0 ∧
      (get_ep rewritten_state (.list .BULKIN1)).urb_buffer_size ≤ 2048 ∧
      (get_ep rewritten_state .data_err).urb_buffer_size ≤ 64 :=
  have h := urb_buffer_size_within_alloc bind_ok demo_udc
    [.irq (.setup set_configuration_request), .bps_open .DATA_CHANNEL,
      .bps_write .DATA_CHANNEL false (.addr [1, 2, 3]) 3 [.complete (.list .BULKIN1) 0 3 []],
      .irq .disconnect, .irq (.setup set_configuration_request)] (by decide)
  ⟨by decide, h.1 .DATA_CHANNEL, h.2.2.1⟩

/-! ## The receive cursor and a suspend during the copy to the user -/

/-- C25 (code bug): a successful bind, Set-Configuration, an open of the DATA channel
and five bytes received on it; then one bps_read of three bytes, during whose copy to
the user the bus is suspended and resumed.  resume_gadget submits the OUT request
again, resetting the cursor and the actual length to 0, and the read then adds its
three bytes to the cursor: in the state reached the cursor is 3, above the actual
length 0 of the queued OUT request.  When the host then sends two bytes, the cursor 3
is above the actual length 2 of the completed transfer and the next bps_read ends in
BUG_ON(rx_bytes > actual). -/
theorem rx_bytes_exceeds_actual :
    (bind_gadget bind_ok (loaded_state demo_udc)).1 = 0 ∧
      (raced_read_state.cdevs .DATA_CHANNEL).rx_bytes = 3 ∧
      (out_req raced_read_state .DATA_CHANNEL).actual = 0 ∧
      (get_ep raced_read_state (.list .BULKOUT1)).queued = true ∧
      ((deliver raced_read_state
        (.complete (.list .BULKOUT1) 0 2 [6, 7])).cdevs .DATA_CHANNEL).rx_bytes = 3 ∧
      (out_req (deliver raced_read_state (.complete (.list .BULKOUT1) 0 2 [6, 7]))
        .DATA_CHANNEL).actual = 2 ∧
      (bps_read (deliver raced_read_state (.complete (.list .BULKOUT1) 0 2 [6, 7]))
        .DATA_CHANNEL false (.addr [0, 0]) 2 [] []).out = .BUG := by
  decide

end BpsGadget
